import Mathlib

/-!
# Song library: verse codec, lyric windows, catalogue pages, release dates

A shallow embedding of the repository layer `internal/repository/postgres/storage.go`
and of the request parsing in `internal/delivery/http/handler.go`, with the Go
library functions they call (`strings.Split`, `strings.Join`, `time.Parse`,
`Time.Format`) written out as Lean functions.

Go strings are modelled as lists of characters.  The only delimiters the code
uses are ASCII (`"\n\n"`, `"."`), so splitting by characters and splitting by
bytes agree on every UTF-8 string.
-/

namespace SongLibrary

/-- A Go `string`. -/
abbrev Str := List Char

/-! ## `strings` -/

/-- Go `strings.HasPrefix`. -/
def HasPrefix (s pre : Str) : Bool :=
  pre.isPrefixOf s

/-- Go `strings.Index`: the index of the first instance of `substr` in `s`, or `-1`. -/
def Index : Str → Str → Int
  | [], substr => if substr = [] then 0 else -1
  | c :: cs, substr =>
    if HasPrefix (c :: cs) substr then 0
    else
      let i := Index cs substr
      if i < 0 then -1 else i + 1

/-- The `for` loop of Go `strings.Count` for a separator of two or more bytes:
`i := Index(s, substr); if i == -1 return n; n++; s = s[i+len(substr):]`.
The first argument bounds the number of iterations. -/
def countLoop (substr : Str) : Nat → Str → Nat
  | 0, _ => 0
  | fuel + 1, s =>
    let i := Index s substr
    if i < 0 then 0
    else 1 + countLoop substr fuel (s.drop (i.toNat + substr.length))

/-- Go `strings.Count`: the number of non-overlapping instances of `substr` in `s`;
for the empty `substr` it is the number of characters plus one. -/
def Count (s substr : Str) : Nat :=
  if substr = [] then s.length + 1
  else countLoop substr (s.length + 1) s

/-- Go `strings.explode` with `n < 0`: one string per character. -/
def explode (s : Str) : List Str :=
  s.map fun c => [c]

/-- The `for i < n` loop of Go `strings.genSplit` with `sepSave = 0`; the first
argument is `n - i`, the number of separators still to be cut at:
`m := Index(s, sep); if m < 0 break; a[i] = s[:m]; s = s[m+len(sep):]; i++`,
and after the loop `a[i] = s`. -/
def genSplitLoop (sep : Str) : Nat → Str → List Str
  | 0, s => [s]
  | k + 1, s =>
    let m := Index s sep
    if m < 0 then [s]
    else s.take m.toNat :: genSplitLoop sep k (s.drop (m.toNat + sep.length))

/-- Go `strings.genSplit(s, sep, 0, -1)`. -/
def genSplit (s sep : Str) : List Str :=
  if sep = [] then explode s
  else
    let n := Count s sep + 1
    let n := if n > s.length + 1 then s.length + 1 else n
    genSplitLoop sep (n - 1) s

/-- Go `strings.Split(s, sep)`, which is `genSplit(s, sep, 0, -1)`. -/
def Split (s sep : Str) : List Str :=
  genSplit s sep

/-- Go `strings.Join`: the builder writes `elems[0]`, then `sep` and the element
for every further element. -/
def Join : List Str → Str → Str
  | [], _ => []
  | [e], _ => e
  | e :: es, sep => es.foldl (fun b s => b ++ sep ++ s) e

/-- The verse delimiter `"\n\n"` of `AddSong` and `GetSongLyrics`. -/
def verseSep : Str := ['\n', '\n']

/-- A blob has a run of three consecutive newlines. -/
def hasTripleNewline : Str → Bool
  | '\n' :: '\n' :: '\n' :: _ => true
  | _ :: cs => hasTripleNewline cs
  | [] => false

/-! ## `time`: parsing and formatting with the layout `"02.01.2006"` -/

/-- A Go `time.Time` as the repository uses it: a calendar date at midnight UTC.
`time.Parse` with a date-only layout yields nothing else, and `Format` with the
same layout reads nothing but the date. -/
structure Time where
  year : Int
  month : Int
  day : Int
  deriving DecidableEq, Repr

/-- Go `time.Time{}`, the zero time: January 1, year 1, 00:00 UTC. -/
def Time.zero : Time := ⟨1, 1, 1⟩

/-- Go `*time.ParseError`; only its message is kept. -/
structure ParseError where
  message : String
  deriving DecidableEq, Repr

/-- Go `time.isDigit(s, i)`. -/
def isDigit (s : Str) (i : Nat) : Bool :=
  match s.get? i with
  | none => false
  | some c => decide ('0' ≤ c) && decide (c ≤ '9')

/-- Go `int(c - '0')` for a byte `c`. -/
def digitVal (c : Char) : Int :=
  (c.toNat : Int) - ('0'.toNat : Int)

/-- Go `time.getnum(s, fixed)`: one or two leading digits, exactly two when `fixed`. -/
def getnum (s : Str) (fixed : Bool) : Except Unit (Int × Str) :=
  if !isDigit s 0 then .error ()
  else if !isDigit s 1 then
    if fixed then .error ()
    else
      match s with
      | c0 :: rest => .ok (digitVal c0, rest)
      | [] => .error ()
  else
    match s with
    | c0 :: c1 :: rest => .ok (digitVal c0 * 10 + digitVal c1, rest)
    | _ => .error ()

/-- Go `time.skip(value, prefix)` for a prefix without spaces: every byte of the
prefix has to stand at the head of the value.  (The prefixes of the layout
`"02.01.2006"` are `""` and `"."`.) -/
def skip : Str → Str → Except Unit Str
  | value, [] => .ok value
  | [], _ :: _ => .error ()
  | v :: value, p :: pre => if v ≠ p then .error () else skip value pre

/-- Go `time.leadingInt`: the leading decimal digits as a number, and the rest. -/
def leadingInt : Str → Int → Int × Str
  | [], x => (x, [])
  | c :: cs, x =>
    if decide ('0' ≤ c) && decide (c ≤ '9') then leadingInt cs (x * 10 + digitVal c)
    else (x, c :: cs)

/-- Go `time.atoi`: an optional sign and then digits only. -/
def atoi (s : Str) : Except Unit Int :=
  let (neg, s) :=
    match s with
    | '-' :: rest => (true, rest)
    | '+' :: rest => (false, rest)
    | _ => (false, s)
  let (q, rem) := leadingInt s 0
  if rem ≠ [] then .error ()
  else .ok (if neg then -q else q)

/-- Go `time.isLeap`. -/
def isLeap (year : Int) : Bool :=
  year % 4 == 0 && (year % 100 != 0 || year % 400 == 0)

/-- Go `time.daysBefore`: days in a non-leap year before the end of each month. -/
def daysBefore : List Int :=
  [0, 31, 59, 90, 120, 151, 181, 212, 243, 273, 304, 334, 365]

/-- Go `time.daysIn(m, year)`. -/
def daysIn (m : Int) (year : Int) : Int :=
  if m == 2 && isLeap year then 29
  else daysBefore.getD m.toNat 0 - daysBefore.getD (m.toNat - 1) 0

/-- Go `time.Date(year, month, day, 0, 0, 0, 0, UTC)` on a date that is already in
range (month in 1..12, day within the month), where it normalises nothing. -/
def Date (year month day : Int) : Time :=
  ⟨year, month, day⟩

/-- The elements that `nextStdChunk` cuts the layout `"02.01.2006"` into. -/
inductive Std
  | stdZeroDay
  | stdZeroMonth
  | stdLongYear
  deriving DecidableEq, Repr

/-- The layout `"02.01.2006"` as `nextStdChunk` reads it: each element with the
literal prefix that stands before it. -/
def layoutChunks : List (Str × Std) :=
  [([], .stdZeroDay), (['.'], .stdZeroMonth), (['.'], .stdLongYear)]

/-- The fields `time.parse` fills while it walks the layout. -/
structure ParseState where
  year : Int
  month : Int
  day : Int
  deriving DecidableEq, Repr

/-- The start of Go `time.parse`: `year int`, `month int = -1`, `day int = -1`. -/
def ParseState.init : ParseState := ⟨0, -1, -1⟩

/-- One iteration of the loop in Go `time.parse`: skip the prefix, then read the
element; a month outside 1..12 is reported at once. -/
def parseChunk (st : ParseState) (value : Str) (chunk : Str × Std) :
    Except ParseError (ParseState × Str) :=
  match skip value chunk.1 with
  | .error _ => .error ⟨"cannot parse prefix"⟩
  | .ok value =>
    match chunk.2 with
    | .stdLongYear =>
      if value.length < 4 || !isDigit value 0 then .error ⟨"cannot parse year"⟩
      else
        match atoi (value.take 4) with
        | .error _ => .error ⟨"cannot parse year"⟩
        | .ok year => .ok (⟨year, st.month, st.day⟩, value.drop 4)
    | .stdZeroMonth =>
      match getnum value true with
      | .error _ => .error ⟨"cannot parse month"⟩
      | .ok (month, value) =>
        if month ≤ 0 || 12 < month then .error ⟨"month out of range"⟩
        else .ok (⟨st.year, month, st.day⟩, value)
    | .stdZeroDay =>
      match getnum value true with
      | .error _ => .error ⟨"cannot parse day"⟩
      | .ok (day, value) => .ok (⟨st.year, st.month, day⟩, value)

/-- The loop of Go `time.parse` over the elements of the layout. -/
def parseChunks : List (Str × Std) → ParseState → Str → Except ParseError (ParseState × Str)
  | [], st, value => .ok (st, value)
  | chunk :: rest, st, value =>
    match parseChunk st value chunk with
    | .error e => .error e
    | .ok (st, value) => parseChunks rest st value

/-- Go `time.Parse("02.01.2006", value)`: walk the layout, refuse text left
over, default a missing month or day to 1, validate the day of the month. -/
def Parse (value : Str) : Except ParseError Time :=
  match parseChunks layoutChunks ParseState.init value with
  | .error e => .error e
  | .ok (st, value) =>
    if value.length ≠ 0 then .error ⟨"extra text"⟩
    else
      let month := if st.month < 0 then 1 else st.month
      let day := if st.day < 0 then 1 else st.day
      if day < 1 || day > daysIn month st.year then .error ⟨"day out of range"⟩
      else .ok (Date st.year month day)

/-- Go `byte('0' + d)` for a digit `d`. -/
def digitChar (d : Nat) : Char :=
  Char.ofNat ('0'.toNat + d)

/-- Go `time.appendInt(b, x, width)`: a sign if negative, then the decimal digits
of the magnitude, zero-padded on the left to `width`. -/
def appendInt (b : Str) (x : Int) (width : Nat) : Str :=
  let u := x.natAbs
  let b := if x < 0 then b ++ ['-'] else b
  if width = 2 ∧ u < 100 then
    b ++ [digitChar (u / 10), digitChar (u % 10)]
  else if width = 4 ∧ u < 10000 then
    b ++ [digitChar (u / 1000), digitChar (u / 100 % 10), digitChar (u / 10 % 10),
      digitChar (u % 10)]
  else
    let ds := Nat.toDigits 10 u
    b ++ List.replicate (width - ds.length) '0' ++ ds

/-- The loop of Go `Time.AppendFormat` over the elements of the layout: append
the prefix, then the field. -/
def formatChunks (t : Time) : List (Str × Std) → Str → Str
  | [], b => b
  | (pre, std) :: rest, b =>
    let b := b ++ pre
    let b :=
      match std with
      | .stdLongYear => appendInt b t.year 4
      | .stdZeroMonth => appendInt b t.month 2
      | .stdZeroDay => appendInt b t.day 2
    formatChunks t rest b

/-- Go `t.Format("02.01.2006")`. -/
def Time.Format (t : Time) : Str :=
  formatChunks t layoutChunks []

/-! ## `internal/models` -/

/-- Go `models.SongInfo`. -/
structure SongInfo where
  ID : Int
  Title : Str
  Group : Str
  ReleaseDate : Str
  Link : Str
  deriving DecidableEq, Repr

/-- Go `models.Song`: a `SongInfo` and the lyrics blob. -/
structure Song extends SongInfo where
  Lyrics : Str
  deriving DecidableEq, Repr

/-- Go `models.PaginationInfo`, by the fields the handlers and the repository use. -/
structure PaginationInfo where
  PrevGroup : Str
  PrevSong : Str
  Limit : Int
  deriving DecidableEq, Repr

/-! ## The driver: what `pgxpool.Pool` hands to the repository -/

/-- An error value coming out of the driver. -/
inductive DriverError
  /-- Go `*pgconn.PgError` with its `Code`. -/
  | PgError (Code : String) (Message : String)
  /-- Any other error of the driver: a timeout, a failed scan, a lost connection. -/
  | other (message : String)
  deriving DecidableEq, Repr

/-- The error values the repository returns. -/
inductive Error
  /-- The sentinel `var SongNotFound = errors.New("song not found")`. -/
  | SongNotFound
  /-- A driver error returned as it came. -/
  | driver (e : DriverError)
  /-- Go `fmt.Errorf(text + ": %w", e)`. -/
  | wrapped (text : String) (e : DriverError)
  /-- The error of `time.Parse`. -/
  | parse (e : ParseError)
  deriving DecidableEq, Repr

/-- Go `pgx.Rows` once the query has been sent: for every row that `Next()`
delivers, what `Scan` makes of it, and the value of `Err()` after `Next()` has
returned false. -/
structure Rows (ρ : Type) where
  items : List (Except DriverError ρ)
  err : Option DriverError

/-- The two results of `pool.Query`: an error, or rows to iterate. -/
inductive QueryResult (ρ : Type)
  | fail (e : DriverError)
  | rows (r : Rows ρ)

/-- A row of the listing queries: id, title, group, release date, link. -/
structure SongRow where
  id : Int
  title : Str
  group : Str
  releaseDate : Time
  link : Str
  deriving DecidableEq, Repr

/-- The arguments of `SELECT add_song($1, $2, $3, $4, $5)`. -/
structure AddSongArgs where
  title : Str
  group : Str
  releaseDate : Time
  link : Str
  verses : List Str
  deriving DecidableEq, Repr

/-- The arguments of `CALL update_song_info($1, $2, $3, $4, $5)`. -/
structure UpdateSongArgs where
  id : Int
  title : Str
  group : Str
  releaseDate : Time
  link : Str
  deriving DecidableEq, Repr

/-- The statements the repository sends through `sr.pool`, over a storage state
`σ`.  Reads leave the state alone; writes return the next state. -/
structure Pool (σ : Type) where
  /-- `SELECT * FROM get_songs_info($1, $2, $3)`. -/
  get_songs_info : σ → Str → Str → Int → QueryResult SongRow
  /-- `SELECT * FROM get_group_songs_info($1, $2, $3)`. -/
  get_group_songs_info : σ → Str → Str → Int → QueryResult SongRow
  /-- `SELECT * FROM get_song_verses($1, $2, $3)`. -/
  get_song_verses : σ → Int → Int → Int → QueryResult Str
  /-- `SELECT add_song($1, $2, $3, $4, $5)` followed by `Scan(&id)`. -/
  add_song : σ → AddSongArgs → Except DriverError Int × σ
  /-- `CALL update_song_info($1, $2, $3, $4, $5)`. -/
  update_song_info : σ → UpdateSongArgs → Option DriverError × σ
  /-- `DELETE FROM songs WHERE id = $1`. -/
  delete_song : σ → Int → Option DriverError × σ

/-! ## `internal/repository/postgres` -/

/-- The `SongInfo` that the listing loops build from a scanned row:
`song.ReleaseDate = date.Format("02.01.2006")`. -/
def SongRow.toSongInfo (row : SongRow) : SongInfo :=
  ⟨row.id, row.title, row.group, row.releaseDate.Format, row.link⟩

/-- The `for rows.Next()` loop of `GetSongsInfo` and `GetGroupSongsInfo`: scan,
format the date, append. -/
def scanSongs : List (Except DriverError SongRow) → List SongInfo →
    Except DriverError (List SongInfo)
  | [], songs => .ok songs
  | .error e :: _, _ => .error e
  | .ok row :: rest, songs =>
    scanSongs rest (songs ++ [row.toSongInfo])

/-- What `GetSongsInfo` and `GetGroupSongsInfo` do with the result of their query. -/
def collectSongs (res : QueryResult SongRow) : List SongInfo × Option Error :=
  match res with
  | .fail e => ([], some (.wrapped "error fetching songs" e))
  | .rows r =>
    match scanSongs r.items [] with
    | .error e => ([], some (.wrapped "error scanning row" e))
    | .ok songs =>
      match r.err with
      | some e => ([], some (.wrapped "error iterating rows" e))
      | none => (songs, none)

/-- Go `songRepo.GetSongsInfo`. -/
def GetSongsInfo {σ : Type} (pool : Pool σ) (st : σ) (hint : PaginationInfo) :
    List SongInfo × Option Error :=
  collectSongs (pool.get_songs_info st hint.PrevSong hint.PrevGroup hint.Limit)

/-- Go `songRepo.GetGroupSongsInfo`. -/
def GetGroupSongsInfo {σ : Type} (pool : Pool σ) (st : σ) (group : Str) (hint : PaginationInfo) :
    List SongInfo × Option Error :=
  collectSongs (pool.get_group_songs_info st group hint.PrevSong hint.Limit)

/-- The `for rows.Next()` loop of `GetSongLyrics`. -/
def scanVerses : List (Except DriverError Str) → List Str → Except DriverError (List Str)
  | [], verses => .ok verses
  | .error e :: _, _ => .error e
  | .ok verse :: rest, verses => scanVerses rest (verses ++ [verse])

/-- Go `songRepo.GetSongLyrics`. -/
def GetSongLyrics {σ : Type} (pool : Pool σ) (st : σ) (id offset limit : Int) :
    Str × Option Error :=
  match pool.get_song_verses st id offset limit with
  | .fail e => ([], some (.driver e))
  | .rows r =>
    match scanVerses r.items [] with
    | .error e => ([], some (.wrapped "error scanning row" e))
    | .ok verses =>
      match r.err with
      | some (.PgError code msg) =>
        if code = "P0001" then ([], some .SongNotFound)
        else ([], some (.wrapped "error iterating rows" (.PgError code msg)))
      | some e => ([], some (.wrapped "error iterating rows" e))
      | none => (Join verses verseSep, none)

/-- Go `songRepo.AddSong`: the id and the error it returns, and the storage state
it leaves. -/
def AddSong {σ : Type} (pool : Pool σ) (st : σ) (song : Song) : (Int × Option Error) × σ :=
  match Parse song.ReleaseDate with
  | .error e => ((0, some (.parse e)), st)
  | .ok parsedDate =>
    let verses := Split song.Lyrics verseSep
    match pool.add_song st ⟨song.Title, song.Group, parsedDate, song.Link, verses⟩ with
    | (.ok id, st) => ((id, none), st)
    | (.error e, st) => ((0, some (.driver e)), st)

/-- Go `songRepo.UpdateSongInfo`. -/
def UpdateSongInfo {σ : Type} (pool : Pool σ) (st : σ) (song : SongInfo) : Option Error × σ :=
  let parsedDate :=
    match Parse song.ReleaseDate with
    | .error _ => Time.zero
    | .ok t => t
  match pool.update_song_info st ⟨song.ID, song.Title, song.Group, parsedDate, song.Link⟩ with
  | (some (.PgError code msg), st) =>
    if code = "P0001" then (some .SongNotFound, st)
    else (some (.driver (.PgError code msg)), st)
  | (some e, st) => (some (.driver e), st)
  | (none, st) => (none, st)

/-- Go `songRepo.DeleteSong`. -/
def DeleteSong {σ : Type} (pool : Pool σ) (st : σ) (id : Int) : Option Error × σ :=
  match pool.delete_song st id with
  | (some e, st) => (some (.wrapped "error deleting song" e), st)
  | (none, st) => (none, st)

/-! ## The stored functions (SQL migrations) -/

/-- A song as the database keeps it: the listing row and the ordered verses. -/
structure StoredSong extends SongRow where
  verses : List Str
  deriving DecidableEq, Repr

/-- The database: the songs in insertion order and the last id handed out. -/
structure DB where
  songs : List StoredSong
  lastId : Int
  deriving DecidableEq, Repr

/-- The listing rows of the database. -/
def DB.rows (db : DB) : List SongRow :=
  db.songs.map StoredSong.toSongRow

/-- The sort key of the global listing: title, then group, then id. -/
def titleGroupKey (r : SongRow) : Lex (Str × Lex (Str × Int)) :=
  toLex (r.title, toLex (r.group, r.id))

/-- The sort key the specification words give the global listing: group, then
title, then id. -/
def groupTitleKey (r : SongRow) : Lex (Str × Lex (Str × Int)) :=
  toLex (r.group, toLex (r.title, r.id))

/-- The order of the global listing. -/
def titleGroupLe (a b : SongRow) : Prop :=
  titleGroupKey a ≤ titleGroupKey b

instance titleGroupLe.decidable : DecidableRel titleGroupLe :=
  fun a b => inferInstanceAs (Decidable (titleGroupKey a ≤ titleGroupKey b))

/-- The order the specification words give the global listing. -/
def groupTitleLe (a b : SongRow) : Prop :=
  groupTitleKey a ≤ groupTitleKey b

instance groupTitleLe.decidable : DecidableRel groupTitleLe :=
  fun a b => inferInstanceAs (Decidable (groupTitleKey a ≤ groupTitleKey b))

/-- The row lies strictly after the cursor pair in (title, group) order. -/
def afterTitleGroup (prevSong prevGroup : Str) (r : SongRow) : Prop :=
  prevSong < r.title ∨ (r.title = prevSong ∧ prevGroup < r.group)

instance afterTitleGroup.decidable (prevSong prevGroup : Str) :
    DecidablePred (afterTitleGroup prevSong prevGroup) :=
  fun r => inferInstanceAs
    (Decidable (prevSong < r.title ∨ (r.title = prevSong ∧ prevGroup < r.group)))

/-- The seek of the global listing: every row when there is no cursor (both
strings empty, which is what the handler passes for absent parameters), else
the rows strictly after the cursor pair. -/
def seekAll (prevSong prevGroup : Str) (r : SongRow) : Prop :=
  (prevSong = [] ∧ prevGroup = []) ∨ afterTitleGroup prevSong prevGroup r

instance seekAll.decidable (prevSong prevGroup : Str) :
    DecidablePred (seekAll prevSong prevGroup) :=
  fun r => inferInstanceAs
    (Decidable ((prevSong = [] ∧ prevGroup = []) ∨ afterTitleGroup prevSong prevGroup r))

/-- The seek of the group listing: the rows of the group, all of them when there
is no cursor title, else those with a title strictly after it. -/
def seekGroup (group prevSong : Str) (r : SongRow) : Prop :=
  r.group = group ∧ (prevSong = [] ∨ prevSong < r.title)

instance seekGroup.decidable (group prevSong : Str) : DecidablePred (seekGroup group prevSong) :=
  fun r => inferInstanceAs (Decidable (r.group = group ∧ (prevSong = [] ∨ prevSong < r.title)))

/-- The row lies strictly after the cursor pair in (group, title) order, as the
specification words put it. -/
def afterGroupTitle (lastGroup lastTitle : Str) (r : SongRow) : Prop :=
  lastGroup < r.group ∨ (r.group = lastGroup ∧ lastTitle < r.title)

instance afterGroupTitle.decidable (lastGroup lastTitle : Str) :
    DecidablePred (afterGroupTitle lastGroup lastTitle) :=
  fun r => inferInstanceAs
    (Decidable (lastGroup < r.group ∨ (r.group = lastGroup ∧ lastTitle < r.title)))

/-- The rows a query returned without any failure. -/
def Rows.clean {ρ : Type} (rows : List ρ) : QueryResult ρ :=
  .rows ⟨rows.map .ok, none⟩

/-- The exception a stored function raises for an unknown song id: SQLSTATE `P0001`. -/
def songNotFoundException : DriverError :=
  .PgError "P0001" "song not found"

namespace Pg

/-- Modelled from the spec: the stored function `get_songs_info(prev_song,
prev_group, limit)` of the SQL migrations, which are not among the sources.
Section 4.4 gives its shape: an exclusive seek that returns the first `limit`
rows lying strictly after the cursor pair, in a fixed lexicographic order with
ties broken by id, and from the smallest row when there is no cursor.  The key
order is the order of the call's arguments, title before group, which is the
order `TestPreparePagination` and `TestGetSongsPagination_All` observe on the
running service. -/
def get_songs_info (db : DB) (prev_song prev_group : Str) (limit : Int) : QueryResult SongRow :=
  Rows.clean
    (((db.rows.filter
      (fun r => decide (seekAll prev_song prev_group r))).insertionSort
        titleGroupLe).take limit.toNat)

/-- Modelled from the spec: the stored function `get_group_songs_info(group,
prev_song, limit)` of the SQL migrations, which are not among the sources.
Section 4.4: the listing with the group fixed, ordered by title and then id,
with title strictly after the cursor title or from the start when it is absent,
cut at `limit` rows. -/
def get_group_songs_info (db : DB) (group prev_song : Str) (limit : Int) :
    QueryResult SongRow :=
  Rows.clean
    (((db.rows.filter
      (fun r => decide (seekGroup group prev_song r))).insertionSort
        titleGroupLe).take limit.toNat)

/-- Modelled from the spec: the stored function `get_song_verses(id, offset,
limit)` of the SQL migrations, which are not among the sources.  Section 4.2:
the verses at indices `[offset, offset + limit)` in stored order, nothing when
the offset is at or past the end, and the not-found exception when no song has
the id; the exception reaches the caller through `rows.Err()`. -/
def get_song_verses (db : DB) (id offset limit : Int) : QueryResult Str :=
  match db.songs.find? (fun s => decide (s.id = id)) with
  | none => .rows ⟨[], some songNotFoundException⟩
  | some s => Rows.clean ((s.verses.drop offset.toNat).take limit.toNat)

/-- Modelled from the spec: the stored function `add_song(title, group,
release_date, link, verses)` of the SQL migrations, which are not among the
sources.  Section 3 and 4.5: it assigns the next id of an increasing sequence
and stores the entry with its verses in the order given. -/
def add_song (db : DB) (a : AddSongArgs) : Except DriverError Int × DB :=
  let id := db.lastId + 1
  (.ok id, ⟨db.songs ++ [⟨⟨id, a.title, a.group, a.releaseDate, a.link⟩, a.verses⟩], id⟩)

/-- Modelled from the spec: the stored procedure `update_song_info(id, title,
group, release_date, link)` of the SQL migrations, which are not among the
sources.  Section 4.5: it merges the fields that are present (a non-empty
string, a date other than the zero date) into the entry with that id, never
touches the verses, and raises the not-found exception when no entry has the id. -/
def update_song_info (db : DB) (a : UpdateSongArgs) : Option DriverError × DB :=
  if db.songs.any (fun s => decide (s.id = a.id)) then
    (none, ⟨db.songs.map (fun s =>
      if s.id = a.id then
        ⟨⟨s.id,
          if a.title = [] then s.title else a.title,
          if a.group = [] then s.group else a.group,
          if a.releaseDate = Time.zero then s.releaseDate else a.releaseDate,
          if a.link = [] then s.link else a.link⟩, s.verses⟩
      else s), db.lastId⟩)
  else (some songNotFoundException, db)

/-- The statement `DELETE FROM songs WHERE id = $1` of `DeleteSong`; the verses go
with their song. -/
def delete_song (db : DB) (id : Int) : Option DriverError × DB :=
  (none, ⟨db.songs.filter (fun s => decide (s.id ≠ id)), db.lastId⟩)

end Pg

/-- The pool of a database that answers every statement without a driver failure. -/
def pgPool : Pool DB :=
  ⟨Pg.get_songs_info, Pg.get_group_songs_info, Pg.get_song_verses, Pg.add_song,
    Pg.update_song_info, Pg.delete_song⟩

/-! ## `internal/delivery/http` -/

/-- Go `strconv.Atoi` on a 64-bit platform: an optional sign, then one or more
decimal digits and nothing else, and a value that fits `int`. -/
def Atoi (s : Str) : Except Unit Int :=
  let digits :=
    match s with
    | '-' :: rest => rest
    | '+' :: rest => rest
    | _ => s
  if digits = [] then .error ()
  else if digits.all (fun ch => decide ('0' ≤ ch) && decide (ch ≤ '9')) then
    let n := digits.foldl (fun n ch => n * 10 + digitVal ch) 0
    let n := if s.head? = some '-' then -n else n
    if n < -(2 ^ 63) ∨ 2 ^ 63 - 1 < n then .error () else .ok n
  else .error ()

/-- The parts of `*http.Request` the handlers read: `chi.URLParam(r, name)` and
`r.URL.Query().Get(name)`, both the empty string when the name is absent. -/
structure Request where
  URLParam : String → Str
  Query : String → Str

/-- Go `SongLyricsParams`. -/
structure SongLyricsParams where
  ID : Int
  Offset : Int
  Limit : Int
  deriving DecidableEq, Repr

/-- Go `parseID`. -/
def parseID (r : Request) : Except String Int :=
  let idStr := r.URLParam "id"
  if idStr = [] then .error "missing id query parameter"
  else
    match Atoi idStr with
    | .error _ => .error "error parsing id"
    | .ok id =>
      if id ≤ 0 then .error "id query parameter must be a positive integer"
      else .ok id

/-- Go `parseSongLyricsParams`. -/
def parseSongLyricsParams (r : Request) : Except String SongLyricsParams :=
  match parseID r with
  | .error e => .error e
  | .ok id =>
    let offsetStr := r.Query "offset"
    let offset : Except String Int :=
      if offsetStr ≠ [] then
        match Atoi offsetStr with
        | .error _ => .error "offset must be a non-negative integer"
        | .ok offset =>
          if offset < 0 then .error "offset must be a non-negative integer" else .ok offset
      else .ok 0
    match offset with
    | .error e => .error e
    | .ok offset =>
      let limitStr := r.Query "limit"
      let limit : Except String Int :=
        if limitStr ≠ [] then
          match Atoi limitStr with
          | .error _ => .error "limit must be a positive integer"
          | .ok limit =>
            if limit ≤ 0 then .error "limit must be a positive integer" else .ok limit
        else .ok 20
      match limit with
      | .error e => .error e
      | .ok limit => .ok ⟨id, offset, limit⟩

/-- Go `parseSongPaginationInfo`. -/
def parseSongPaginationInfo (r : Request) : Except String PaginationInfo :=
  let groupName := r.Query "prevGroup"
  let songTitle := r.Query "prevSong"
  let limitStr := r.Query "limit"
  let limit : Except String Int :=
    if limitStr ≠ [] then
      match Atoi limitStr with
      | .error _ => .error "invalid limit parameter"
      | .ok limit => if limit ≤ 0 then .error "invalid limit parameter" else .ok limit
    else .ok 10
  match limit with
  | .error e => .error e
  | .ok limit => .ok ⟨groupName, songTitle, limit⟩

/-- What a handler wrote to the `http.ResponseWriter`: the status code and, on
success, the decoded body. -/
structure Response (β : Type) where
  StatusCode : Nat
  body : Option β

/-- Go `Server.getSongLyricsHandler`; writing the JSON body is taken to succeed. -/
def getSongLyricsHandler {σ : Type} (pool : Pool σ) (st : σ) (r : Request) : Response Str :=
  match parseSongLyricsParams r with
  | .error _ => ⟨400, none⟩
  | .ok params =>
    match GetSongLyrics pool st params.ID params.Offset params.Limit with
    | (_, some err) => if err = Error.SongNotFound then ⟨404, none⟩ else ⟨500, none⟩
    | (lyrics, none) => ⟨200, some lyrics⟩

/-- Go `Server.getSongsInfoHandler`; writing the JSON body is taken to succeed. -/
def getSongsInfoHandler {σ : Type} (pool : Pool σ) (st : σ) (r : Request) :
    Response (List SongInfo) :=
  match parseSongPaginationInfo r with
  | .error _ => ⟨400, none⟩
  | .ok hint =>
    match GetSongsInfo pool st hint with
    | (_, some _) => ⟨500, none⟩
    | (songs, none) => ⟨200, some songs⟩

/-! ## Pools, catalogues and reference definitions used in the statements -/

/-- A pool that keeps the `add_song` calls it receives, in order, and answers
each with the next id; its other statements return nothing and change nothing. -/
def recordingPool : Pool (List AddSongArgs) :=
  ⟨fun _ _ _ _ => Rows.clean [], fun _ _ _ _ => Rows.clean [], fun _ _ _ _ => Rows.clean [],
    fun st a => (.ok (st.length + 1), st ++ [a]), fun st _ => (none, st), fun st _ => (none, st)⟩

/-- A pool whose verse query always has the given result; its other statements
return nothing and change nothing. -/
def versePool (res : QueryResult Str) : Pool Unit :=
  ⟨fun _ _ _ _ => Rows.clean [], fun _ _ _ _ => Rows.clean [], fun _ _ _ _ => res,
    fun st _ => (.ok 1, st), fun st _ => (none, st), fun st _ => (none, st)⟩

/-- Every id in the database is at most the last id handed out, so the next id
is fresh. -/
def DB.idsBounded (db : DB) : Bool :=
  db.songs.all fun s => decide (s.id ≤ db.lastId)

/-- The (title, group) pair of a row. -/
def SongRow.pair (r : SongRow) : Str × Str :=
  (r.title, r.group)

/-- The first row comes strictly before the second in (title, group) order: its
title is smaller, or the titles are equal and its group is smaller. -/
def SongRow.pairLt (a b : SongRow) : Prop :=
  a.title < b.title ∨ (a.title = b.title ∧ a.group < b.group)

instance SongRow.pairLt.decidable : DecidableRel SongRow.pairLt :=
  fun a b => inferInstanceAs
    (Decidable (a.title < b.title ∨ (a.title = b.title ∧ a.group < b.group)))

/-- The (title, group) pairs of the catalogue are pairwise distinct. -/
def DB.distinctPairs (db : DB) : Prop :=
  db.rows.Pairwise fun a b => a.pair ≠ b.pair

instance DB.distinctPairs.decidable (db : DB) : Decidable db.distinctPairs :=
  List.instDecidablePairwise db.rows

/-- No entry of the catalogue has both an empty title and an empty group. -/
def DB.namedRows (db : DB) : Prop :=
  ∀ r ∈ db.rows, r.pair ≠ ([], [])

instance DB.namedRows.decidable (db : DB) : Decidable db.namedRows :=
  List.decidableBAll (fun r : SongRow => r.pair ≠ (([], []) : Str × Str)) db.rows

/-- The song that `PreparePaginationCase` adds for a title and a group; the mock
service gives it the date 01.01.2025, no link and no lyrics of interest. -/
def paginationSong (id : Int) (title group : String) : StoredSong :=
  ⟨⟨id, title.toList, group.toList, ⟨2025, 1, 1⟩, []⟩, [[]]⟩

/-- The catalogue of `PreparePaginationCase`: groups 1..3, each with titles
1..4, added group by group. -/
def paginationCase : DB :=
  ⟨[paginationSong 1 "1" "Group 1", paginationSong 2 "2" "Group 1",
    paginationSong 3 "3" "Group 1", paginationSong 4 "4" "Group 1",
    paginationSong 5 "1" "Group 2", paginationSong 6 "2" "Group 2",
    paginationSong 7 "3" "Group 2", paginationSong 8 "4" "Group 2",
    paginationSong 9 "1" "Group 3", paginationSong 10 "2" "Group 3",
    paginationSong 11 "3" "Group 3", paginationSong 12 "4" "Group 3"], 12⟩

/-- The page that the words of section 4.4 describe for `listAll`: the first
`limit` entries in the order (group, title, id) among the entries with
`group > lastGroup`, or `group == lastGroup` and `title > lastTitle`; every
entry when there is no cursor. -/
def listAllSpec (db : DB) (lastGroup lastTitle : Str) (limit : Int) : List SongInfo :=
  (((db.rows.filter (fun r => decide ((lastGroup = [] ∧ lastTitle = []) ∨
    afterGroupTitle lastGroup lastTitle r))).insertionSort groupTitleLe).take limit.toNat).map
      SongRow.toSongInfo

/-- The client loop of the enumeration property: call `GetSongsInfo`, stop at an
empty page, else feed the (group, title) of the page's last element back as the
cursor.  The first argument bounds the number of calls; `none` means the bound
was reached or a call failed. -/
def enumerate {σ : Type} (pool : Pool σ) (st : σ) (limit : Int) :
    Nat → Str → Str → List SongInfo → Option (List SongInfo)
  | 0, _, _, _ => none
  | fuel + 1, prevSong, prevGroup, acc =>
    match GetSongsInfo pool st ⟨prevGroup, prevSong, limit⟩ with
    | (_, some _) => none
    | ([], none) => some acc
    | (s :: page, none) =>
      enumerate pool st limit fuel ((s :: page).getLast (List.cons_ne_nil s page)).Title
        ((s :: page).getLast (List.cons_ne_nil s page)).Group (acc ++ s :: page)

/-- A decimal digit. -/
def isDecimal (c : Char) : Bool :=
  decide ('0' ≤ c) && decide (c ≤ '9')

/-- The number of days of a month of the Gregorian calendar. -/
def calendarDays (month year : Int) : Int :=
  if month = 2 then
    if year % 4 = 0 ∧ (year % 100 ≠ 0 ∨ year % 400 = 0) then 29 else 28
  else if month = 4 ∨ month = 6 ∨ month = 9 ∨ month = 11 then 30
  else 31

/-- The date format of the claims, in their words: two-digit day, a dot,
two-digit month, a dot, four-digit year, with the month in 1..12 and the day
valid for that month and year. -/
def isDateDDMMYYYY : Str → Bool
  | [d1, d2, '.', m1, m2, '.', y1, y2, y3, y4] =>
    isDecimal d1 && isDecimal d2 && isDecimal m1 && isDecimal m2 &&
    isDecimal y1 && isDecimal y2 && isDecimal y3 && isDecimal y4 &&
    (let day := digitVal d1 * 10 + digitVal d2
     let month := digitVal m1 * 10 + digitVal m2
     let year := digitVal y1 * 1000 + digitVal y2 * 100 + digitVal y3 * 10 + digitVal y4
     decide (1 ≤ month) && decide (month ≤ 12) && decide (1 ≤ day) &&
       decide (day ≤ calendarDays month year))
  | _ => false

/-- The date that a string in the format DD.MM.YYYY denotes. -/
def dateOfDDMMYYYY : Str → Time
  | [d1, d2, _, m1, m2, _, y1, y2, y3, y4] =>
    ⟨digitVal y1 * 1000 + digitVal y2 * 100 + digitVal y3 * 10 + digitVal y4,
      digitVal m1 * 10 + digitVal m2, digitVal d1 * 10 + digitVal d2⟩
  | _ => Time.zero

/-- A request for `/song/{id}` without query parameters. -/
def lyricsRequest (id : String) : Request :=
  ⟨fun name => if name = "id" then id.toList else [], fun _ => []⟩

/-- A database holding the song of `TestGetSongLyrics_Sample` under id 1: the
verses are the numerals from 1 on. -/
def sampleDB : DB :=
  ⟨[⟨⟨1, "Sample".toList, "Sample".toList, ⟨2025, 1, 1⟩, []⟩,
    ["1".toList, "2".toList, "3".toList, "4".toList, "5".toList, "6".toList, "7".toList]⟩], 1⟩

/-- A song with empty lyrics and a release date that parses. -/
def emptyLyricsSong : Song :=
  ⟨⟨0, "Yellow".toList, "Coldplay".toList, "26.06.2000".toList, []⟩, []⟩

/-- A catalogue in which two entries share their (title, group) pair. -/
def tiedCase : DB :=
  ⟨[⟨⟨1, "a".toList, "y".toList, ⟨2025, 1, 1⟩, []⟩, [[]]⟩,
    ⟨⟨2, "b".toList, "x".toList, ⟨2025, 1, 1⟩, []⟩, [[]]⟩,
    ⟨⟨3, "b".toList, "x".toList, ⟨2025, 1, 1⟩, []⟩, [[]]⟩], 3⟩

/-- A catalogue whose first entry has an empty title and an empty group. -/
def unnamedCase : DB :=
  ⟨[⟨⟨1, [], [], ⟨2025, 1, 1⟩, []⟩, [[]]⟩,
    ⟨⟨2, "b".toList, "x".toList, ⟨2025, 1, 1⟩, []⟩, [[]]⟩], 2⟩

/-- The cursor a client holds after the rows it has enumerated so far: none
(two empty strings) at the start, else the title and group of the last row. -/
def cursorAfter (seen : List SongRow) : Str × Str :=
  match seen.getLast? with
  | none => ([], [])
  | some r => (r.title, r.group)

/-- The catalogue in the order of the global listing. -/
def DB.sortedRows (db : DB) : List SongRow :=
  db.rows.insertionSort titleGroupLe

/-! ## Update and delete handlers, and further pools -/

/-- The fields a JSON body of `PUT /song/{id}` may carry, by the tags of
`models.SongInfo`: `id`, `song`, `group`, `releaseDate`, `link`. -/
structure SongPatch where
  ID : Option Int
  Title : Option Str
  Group : Option Str
  ReleaseDate : Option Str
  Link : Option Str
  deriving DecidableEq, Repr

/-- Go `json.NewDecoder(r.Body).Decode(song)` on a body that is a JSON object:
the fields the body carries overwrite those of `song`. -/
def SongPatch.decodeInto (p : SongPatch) (song : SongInfo) : SongInfo :=
  ⟨p.ID.getD song.ID, p.Title.getD song.Title, p.Group.getD song.Group,
    p.ReleaseDate.getD song.ReleaseDate, p.Link.getD song.Link⟩

/-- A `PUT /song/{id}` request: the URL parts and the body, `none` when the body
does not decode. -/
structure UpdateRequest extends Request where
  Body : Option SongPatch

/-- Go `Server.updateSongHandler`: the response and the storage state it leaves.
A handler that writes nothing answers 200. -/
def updateSongHandler {σ : Type} (pool : Pool σ) (st : σ) (r : UpdateRequest) :
    Response Unit × σ :=
  match parseID r.toRequest with
  | .error _ => (⟨400, none⟩, st)
  | .ok id =>
    match r.Body with
    | none => (⟨400, none⟩, st)
    | some patch =>
      match UpdateSongInfo pool st (patch.decodeInto ⟨id, [], [], [], []⟩) with
      | (some err, st) =>
        if err = Error.SongNotFound then (⟨404, none⟩, st) else (⟨500, none⟩, st)
      | (none, st) => (⟨200, none⟩, st)

/-- Go `Server.deleteSongHandler`: the response and the storage state it leaves. -/
def deleteSongHandler {σ : Type} (pool : Pool σ) (st : σ) (r : Request) : Response Unit × σ :=
  match parseID r with
  | .error _ => (⟨400, none⟩, st)
  | .ok id =>
    match DeleteSong pool st id with
    | (some _, st) => (⟨500, none⟩, st)
    | (none, st) => (⟨204, none⟩, st)

/-- A pool that keeps the `update_song_info` calls it receives, in order, and
answers each without error; its other statements return nothing and change
nothing. -/
def updateRecorder : Pool (List UpdateSongArgs) :=
  ⟨fun _ _ _ _ => Rows.clean [], fun _ _ _ _ => Rows.clean [], fun _ _ _ _ => Rows.clean [],
    fun st _ => (.ok 1, st), fun st a => (none, st ++ [a]), fun st _ => (none, st)⟩

/-- A pool whose every statement fails with the given driver error. -/
def failingPool (e : DriverError) : Pool Unit :=
  ⟨fun _ _ _ _ => .fail e, fun _ _ _ _ => .fail e, fun _ _ _ _ => .fail e,
    fun st _ => (.error e, st), fun st _ => (some e, st), fun st _ => (some e, st)⟩

/-- A request for `/song/{id}` with the given `offset` and `limit` parameters. -/
def lyricsQuery (id offset limit : String) : Request :=
  ⟨fun name => if name = "id" then id.toList else [],
    fun name => if name = "offset" then offset.toList
      else if name = "limit" then limit.toList else []⟩

/-- A request for `/songs` with the given `prevSong`, `prevGroup` and `limit`
parameters. -/
def songsQuery (prevSong prevGroup limit : String) : Request :=
  ⟨fun _ => [],
    fun name => if name = "prevSong" then prevSong.toList
      else if name = "prevGroup" then prevGroup.toList
      else if name = "limit" then limit.toList else []⟩

/-- Go `strconv.Itoa`: the decimal text of an integer. -/
def Itoa (n : Int) : Str :=
  if n < 0 then '-' :: Nat.toDigits 10 n.natAbs else Nat.toDigits 10 n.natAbs

/-- The database of `TestUpdateSong_Group` and `TestUpdateSong_Date` after the
song has been added. -/
def museDB : DB :=
  ⟨[⟨⟨1, "Supermassive Black Hole".toList, "Muse".toList, ⟨2006, 7, 16⟩,
    "https://www.youtube.com/watch?v=Xsp3_a-PMTw".toList⟩,
    ["Ooh, baby".toList, "Glaciers melting".toList]⟩], 1⟩

/-- The two songs that `TestDeleteSong` adds, with the details the mock service
gives them. -/
def museSong : Song :=
  ⟨⟨0, "Supermassive Black Hole".toList, "Muse".toList, "16.07.2006".toList,
    "https://www.youtube.com/watch?v=Xsp3_a-PMTw".toList⟩, "Ooh, baby\n\nGlaciers".toList⟩

/-- The second song of `TestDeleteSong`. -/
def yellowSong : Song :=
  ⟨⟨0, "Yellow".toList, "Coldplay".toList, "26.06.2000".toList,
    "https://www.youtube.com/watch?v=yKNxeF4KMsY".toList⟩, "Look at the stars".toList⟩

/-- The query, a row scan or the row iteration reported an error. -/
def QueryResult.failed {ρ : Type} : QueryResult ρ → Prop
  | .fail _ => True
  | .rows r => (∃ e, Except.error e ∈ r.items) ∨ r.err ≠ none

/-- The date `UpdateSongInfo` passes to storage: the parsed release date, or the
zero time when it does not parse. -/
def parsedOrZero (releaseDate : Str) : Time :=
  match Parse releaseDate with
  | .error _ => Time.zero
  | .ok t => t

/-- The arguments `UpdateSongInfo` passes to `update_song_info`. -/
def updateArgs (song : SongInfo) : UpdateSongArgs :=
  ⟨song.ID, song.Title, song.Group, parsedOrZero song.ReleaseDate, song.Link⟩

/-- A `PUT /song/{id}` request with the given id text and body. -/
def updateRequest (id : String) (body : Option SongPatch) : UpdateRequest :=
  ⟨⟨fun name => if name = "id" then id.toList else [], fun _ => []⟩, body⟩

/-- The number that a string of decimal digits denotes. -/
def digitsValue (digits : Str) : Int :=
  digits.foldl (fun n ch => n * 10 + digitVal ch) 0

/-- The text holds a character that is neither a decimal digit nor a sign. -/
def nonNumeric (s : Str) : Prop :=
  ∃ c ∈ s, isDecimal c = false ∧ c ≠ '-' ∧ c ≠ '+'

/-- Go `Server.getGroupSongsInfoHandler`; writing the JSON body is taken to
succeed. -/
def getGroupSongsInfoHandler {σ : Type} (pool : Pool σ) (st : σ) (r : Request) :
    Response (List SongInfo) :=
  let group := r.URLParam "group"
  match parseSongPaginationInfo r with
  | .error _ => ⟨400, none⟩
  | .ok hint =>
    match GetGroupSongsInfo pool st group hint with
    | (_, some _) => ⟨500, none⟩
    | (songs, none) => ⟨200, some songs⟩

/-- The text is the decimal text of the integer `n`: an optional sign followed by
one or more decimal digits that denote the magnitude of `n`. -/
def decimalText (s : Str) (n : Int) : Prop :=
  ∃ digits : Str, digits ≠ [] ∧ (∀ c ∈ digits, isDecimal c = true) ∧
    ((s = digits ∧ n = digitsValue digits) ∨ (s = '+' :: digits ∧ n = digitsValue digits) ∨
      (s = '-' :: digits ∧ n = -digitsValue digits))

/-- The number of non-overlapping occurrences of `"\n\n"` found scanning the blob
from left to right. -/
def occurrences : Str → Nat
  | c :: d :: rest =>
    if c = '\n' ∧ d = '\n' then 1 + occurrences rest else occurrences (d :: rest)
  | _ => 0

/-- The value of an optional integer parameter with a lower bound: the default
when the text is empty, the number `strconv.Atoi` reads when it is at least the
bound, and nothing otherwise. -/
def boundedParam (s : Str) (dflt lo : Int) : Option Int :=
  if s = [] then some dflt
  else
    match Atoi s with
    | .error _ => none
    | .ok v => if v < lo then none else some v

/-! ### Lemmas on `Index`, `Split`, `Join` -/

theorem Index_ge_neg_one (s sep : Str) : -1 ≤ Index s sep := by
  induction s with
  | nil => unfold Index; split <;> omega
  | cons c cs ih =>
    unfold Index
    split
    · omega
    · simp only []; split <;> omega

theorem Index_le_length (s sep : Str) : Index s sep ≤ s.length := by
  induction s with
  | nil => unfold Index; split <;> simp
  | cons c cs ih =>
    unfold Index
    split
    · simp only [List.length_cons]; omega
    · simp only [List.length_cons]; split <;> push_cast <;> omega

/-- When `Index` finds the separator, the string is the part before it, the
separator, and the part after it. -/
theorem Index_split (s sep : Str) (h : 0 ≤ Index s sep) :
    s = s.take (Index s sep).toNat ++ sep ++ s.drop ((Index s sep).toNat + sep.length) := by
  induction s with
  | nil =>
    unfold Index at h ⊢
    split at h
    · next hs => simp [hs]
    · omega
  | cons c cs ih =>
    by_cases hp : HasPrefix (c :: cs) sep = true
    · have h0 : Index (c :: cs) sep = 0 := by unfold Index; simp [hp]
      rw [h0]
      simp only [Int.toNat_zero, List.take_zero, List.nil_append, Nat.zero_add]
      have := List.isPrefixOf_iff_prefix.mp hp
      obtain ⟨t, ht⟩ := this
      rw [← ht]; simp
    · have hi : Index (c :: cs) sep =
          (if Index cs sep < 0 then -1 else Index cs sep + 1) := by
        conv_lhs => unfold Index
        simp [hp]
      by_cases hneg : Index cs sep < 0
      · rw [hi] at h; simp [hneg] at h
      · have hnn : 0 ≤ Index cs sep := by omega
        have hi2 : Index (c :: cs) sep = Index cs sep + 1 := by rw [hi]; simp [hneg]
        have htn : (Index cs sep + 1).toNat = (Index cs sep).toNat + 1 := by omega
        rw [hi2, htn]
        have e := ih hnn
        have hd : (Index cs sep).toNat + 1 + sep.length
            = ((Index cs sep).toNat + sep.length) + 1 := by omega
        rw [hd]
        simp only [List.take_succ_cons, List.drop_succ_cons, List.cons_append]
        exact congrArg (c :: ·) e

theorem Join_cons (e : Str) (es : List Str) (sep : Str) :
    Join (e :: es) sep = e ++ (es.map (sep ++ ·)).flatten := by
  have key : ∀ (es : List Str) (b : Str),
      es.foldl (fun b s => b ++ sep ++ s) b = b ++ (es.map (sep ++ ·)).flatten := by
    intro es
    induction es with
    | nil => intro b; simp
    | cons x xs ih =>
      intro b
      rw [List.foldl_cons, ih]
      simp [List.append_assoc]
  cases es with
  | nil => simp [Join]
  | cons x xs => simp only [Join]; exact key _ _

theorem Join_cons_cons (e x : Str) (xs : List Str) (sep : Str) :
    Join (e :: x :: xs) sep = e ++ sep ++ Join (x :: xs) sep := by
  rw [Join_cons, Join_cons]; simp [List.append_assoc]

theorem genSplitLoop_ne_nil (sep : Str) (k : Nat) (s : Str) : genSplitLoop sep k s ≠ [] := by
  cases k with
  | zero => simp [genSplitLoop]
  | succ k => unfold genSplitLoop; simp only []; split <;> simp

/-- Joining what the splitting loop cut gives the string back, however many cuts
the loop was allowed. -/
theorem Join_genSplitLoop (sep : Str) (k : Nat) (s : Str) :
    Join (genSplitLoop sep k s) sep = s := by
  induction k generalizing s with
  | zero => simp [genSplitLoop, Join]
  | succ k ih =>
    unfold genSplitLoop
    simp only []
    split
    · simp [Join]
    · next hm =>
      have hnn : 0 ≤ Index s sep := by omega
      obtain ⟨x, xs, hx⟩ := List.exists_cons_of_ne_nil
        (genSplitLoop_ne_nil sep k (s.drop ((Index s sep).toNat + sep.length)))
      have ih2 := ih (s.drop ((Index s sep).toNat + sep.length))
      rw [hx] at ih2 ⊢
      rw [Join_cons_cons, ih2]
      exact (Index_split s sep hnn).symm

/-- Go `strings.Join(strings.Split(s, sep), sep) == s` for every non-empty separator. -/
theorem Join_Split (s sep : Str) (hsep : sep ≠ []) : Join (Split s sep) sep = s := by
  unfold Split genSplit
  simp only [hsep, if_false]
  exact Join_genSplitLoop sep _ s

/-! ### The rows loops -/

theorem scanVerses_ok (rows acc : List Str) :
    scanVerses (rows.map .ok) acc = .ok (acc ++ rows) := by
  induction rows generalizing acc with
  | nil => simp [scanVerses]
  | cons v vs ih => simp [scanVerses, ih]

theorem scanSongs_ok (rows : List SongRow) (acc : List SongInfo) :
    scanSongs (rows.map .ok) acc = .ok (acc ++ rows.map SongRow.toSongInfo) := by
  induction rows generalizing acc with
  | nil => simp [scanSongs]
  | cons v vs ih => simp [scanSongs, ih]

theorem collectSongs_clean (rows : List SongRow) :
    collectSongs (Rows.clean rows) = (rows.map SongRow.toSongInfo, none) := by
  simp [collectSongs, Rows.clean, scanSongs_ok]

/-- The verse window of a song that the database holds. -/
theorem GetSongLyrics_found (db : DB) (s : StoredSong) (id offset limit : Int)
    (hs : db.songs.find? (fun s => decide (s.id = id)) = some s) :
    GetSongLyrics pgPool db id offset limit =
      (Join ((s.verses.drop offset.toNat).take limit.toNat) verseSep, none) := by
  unfold GetSongLyrics
  simp only [pgPool, Pg.get_song_verses, hs, Rows.clean, scanVerses_ok, List.nil_append]

/-- The verse window of an id that the database does not hold. -/
theorem GetSongLyrics_missing (db : DB) (id offset limit : Int)
    (hs : db.songs.find? (fun s => decide (s.id = id)) = none) :
    GetSongLyrics pgPool db id offset limit = ([], some .SongNotFound) := by
  simp [GetSongLyrics, pgPool, Pg.get_song_verses, hs, songNotFoundException, scanVerses]

/-- After `add_song` on a database whose ids are bounded by the last id, the new
id finds the new song. -/
theorem find_added (db : DB) (a : AddSongArgs) (hdb : db.idsBounded = true) :
    (Pg.add_song db a).2.songs.find? (fun s => decide (s.id = db.lastId + 1)) =
      some ⟨⟨db.lastId + 1, a.title, a.group, a.releaseDate, a.link⟩, a.verses⟩ := by
  have hnone : db.songs.find? (fun s => decide (s.id = db.lastId + 1)) = none := by
    rw [List.find?_eq_none]
    intro s hs
    have := (List.all_eq_true.mp hdb) s hs
    simp only [decide_eq_true_eq] at this ⊢
    omega
  simp [Pg.add_song, List.find?_append, hnone]

/-- C1: for every lyrics blob without a run of three or more newlines, joining
the verses that `strings.Split(b, "\n\n")` produces with `strings.Join(verses,
"\n\n")` gives back exactly the blob; and when `AddSong` has created a song
from the blob, a window with offset 0 and a limit of at least the verse count
returns the blob, given that storage returns the stored verses in order. -/
theorem split_join_roundtrip (b : Str) (_hb : hasTripleNewline b = false) :
    Join (Split b verseSep) verseSep = b ∧
    ∀ {σ : Type} (pool : Pool σ) (st st1 : σ) (song : Song) (id limit : Int),
      song.Lyrics = b → AddSong pool st song = ((id, none), st1) →
      ((Split b verseSep).length : Int) ≤ limit →
      pool.get_song_verses st1 id 0 limit =
        Rows.clean (((Split b verseSep).drop (0 : Int).toNat).take limit.toNat) →
      GetSongLyrics pool st1 id 0 limit = (b, none) := by
  have hjoin : Join (Split b verseSep) verseSep = b := Join_Split b verseSep (by decide)
  refine ⟨hjoin, ?_⟩
  intro σ pool st st1 song id limit _ _ hlim hq
  have htake : (Split b verseSep).length ≤ limit.toNat := by omega
  unfold GetSongLyrics
  rw [hq]
  simp only [Rows.clean, scanVerses_ok, List.nil_append, Int.toNat_zero, List.drop_zero,
    List.take_of_length_le htake, hjoin]

/-- The round trip on a blob of two verses, the first with an inner newline,
stored in and read back from an empty database. -/
theorem split_join_roundtrip_witness :
    Join (Split "a\nb\n\nc".toList verseSep) verseSep = "a\nb\n\nc".toList ∧
    GetSongLyrics pgPool
      (AddSong pgPool ⟨[], 0⟩ ⟨⟨0, "t".toList, "g".toList, "26.06.2000".toList, []⟩,
        "a\nb\n\nc".toList⟩).2 1 0 20 = ("a\nb\n\nc".toList, none) :=
  ⟨(split_join_roundtrip "a\nb\n\nc".toList (by decide)).1,
    (split_join_roundtrip "a\nb\n\nc".toList (by decide)).2 pgPool ⟨[], 0⟩ _
      ⟨⟨0, "t".toList, "g".toList, "26.06.2000".toList, []⟩, "a\nb\n\nc".toList⟩ 1 20
      rfl (by decide) (by decide) rfl⟩

/-- C6: for a song the database holds, with `V` stored verses, every offset at
least 0 and every limit above 0, `GetSongLyrics` returns without error the
verses at the indices from `offset` up to, not including, `min(offset + limit, V)`
in stored order, joined by a blank line: `max(0, min(limit, V - offset))` of
them, which is `min(limit, V - offset)` when `offset < V`, and none, the empty
string, when `offset >= V`; nothing is padded. -/
theorem lyrics_window (db : DB) (s : StoredSong) (id offset limit : Int)
    (hs : db.songs.find? (fun s => decide (s.id = id)) = some s)
    (hoff : 0 ≤ offset) (hlim : 0 < limit) :
    GetSongLyrics pgPool db id offset limit =
      (Join ((s.verses.drop offset.toNat).take limit.toNat) verseSep, none) ∧
    (((s.verses.drop offset.toNat).take limit.toNat).length : Int) =
      max 0 (min limit (s.verses.length - offset)) ∧
    (∀ i : Nat, i < ((s.verses.drop offset.toNat).take limit.toNat).length →
      ((s.verses.drop offset.toNat).take limit.toNat)[i]? = s.verses[offset.toNat + i]? ∧
      offset + i < min (offset + limit) s.verses.length) ∧
    (offset < s.verses.length →
      (((s.verses.drop offset.toNat).take limit.toNat).length : Int) =
        min limit (s.verses.length - offset)) ∧
    (↑s.verses.length ≤ offset → GetSongLyrics pgPool db id offset limit = ([], none)) := by
  have hget := GetSongLyrics_found db s id offset limit hs
  have hlen : ((s.verses.drop offset.toNat).take limit.toNat).length =
      min limit.toNat (s.verses.length - offset.toNat) := by
    simp [List.length_take, List.length_drop]
  refine ⟨hget, ?_, ?_, ?_, ?_⟩
  · rw [hlen]; omega
  · intro i hi
    constructor
    · rw [List.getElem?_take]
      have hi2 : i < limit.toNat := by rw [hlen] at hi; omega
      simp [hi2, List.getElem?_drop]
    · rw [hlen] at hi; omega
  · intro _; rw [hlen]; omega
  · intro hge
    rw [hget]
    have h0 : s.verses.drop offset.toNat = [] := by
      apply List.drop_eq_nil_of_le; omega
    simp [h0, Join]

/-- The window of `TestGetSongLyrics_Sample`: offset 2, limit 3 over the verses
1, 2, 3, ... gives the third to fifth verse. -/
theorem lyrics_window_witness :
    GetSongLyrics pgPool sampleDB 1 2 3 = ("3\n\n4\n\n5".toList, none) ∧
    GetSongLyrics pgPool sampleDB 1 5 3 = ("6\n\n7".toList, none) ∧
    GetSongLyrics pgPool sampleDB 1 7 3 = ([], none) :=
  ⟨(lyrics_window sampleDB _ 1 2 3 rfl (by decide) (by decide)).1,
    (lyrics_window sampleDB _ 1 5 3 rfl (by decide) (by decide)).1,
    (lyrics_window sampleDB _ 1 7 3 rfl (by decide) (by decide)).2.2.2.2 (by decide)⟩

/-- C8, the claim as stated fails: for a song with empty lyrics, `AddSong` passes
one verse to storage, the empty string, not an empty list. -/
theorem empty_blob_gives_one_verse :
    (AddSong recordingPool [] emptyLyricsSong).2.map (fun a => a.verses) = [[[]]] ∧
    (AddSong recordingPool [] emptyLyricsSong).2.map (fun a => a.verses.length) ≠ [0] := by
  decide

/-- C8 as amended: splitting the empty lyrics blob yields exactly one verse, the
empty string; when `AddSong` is given empty lyrics and a date that parses, the
verse list it passes to storage has length 1. -/
theorem empty_blob_single_verse (song : Song) (t : Time) (calls : List AddSongArgs)
    (hl : song.Lyrics = []) (hp : Parse song.ReleaseDate = .ok t) :
    Split song.Lyrics verseSep = [[]] ∧
    (AddSong recordingPool calls song).2 =
      calls ++ [⟨song.Title, song.Group, t, song.Link, [[]]⟩] ∧
    ∀ a ∈ (AddSong recordingPool [] song).2, a.verses.length = 1 := by
  have hsplit : Split song.Lyrics verseSep = [[]] := by rw [hl]; decide
  refine ⟨hsplit, ?_, ?_⟩
  · simp [AddSong, hp, hsplit, recordingPool]
  · simp [AddSong, hp, hsplit, recordingPool]

/-- The amended C8 on a song with empty lyrics and the date 26.06.2000. -/
theorem empty_blob_single_verse_witness :
    Split emptyLyricsSong.Lyrics verseSep = [[]] ∧
    (AddSong recordingPool [] emptyLyricsSong).2 =
      [] ++ [⟨"Yellow".toList, "Coldplay".toList, ⟨2000, 6, 26⟩, [], [[]]⟩] :=
  ⟨(empty_blob_single_verse emptyLyricsSong ⟨2000, 6, 26⟩ [] rfl (by rfl)).1,
    (empty_blob_single_verse emptyLyricsSong ⟨2000, 6, 26⟩ [] rfl (by rfl)).2.1⟩

/-! ### Release dates -/

theorem isDecimal_cases (c : Char) (h : isDecimal c = true) :
    c = '0' ∨ c = '1' ∨ c = '2' ∨ c = '3' ∨ c = '4' ∨ c = '5' ∨ c = '6' ∨ c = '7' ∨
      c = '8' ∨ c = '9' := by
  simp only [isDecimal, Bool.and_eq_true, decide_eq_true_eq] at h
  have h1 : 48 ≤ c.toNat := Char.le_def.mp h.1
  have h2 : c.toNat ≤ 57 := Char.le_def.mp h.2
  have hc : c = Char.ofNat c.toNat := (Char.ofNat_toNat c).symm
  generalize c.toNat = n at *
  subst hc
  interval_cases n <;> decide

theorem digitVal_range (c : Char) (h : isDecimal c = true) :
    0 ≤ digitVal c ∧ digitVal c ≤ 9 := by
  rcases isDecimal_cases c h with h | h | h | h | h | h | h | h | h | h <;> subst h <;> decide

theorem digitChar_digitVal (c : Char) (h : isDecimal c = true) :
    digitChar (digitVal c).toNat = c := by
  rcases isDecimal_cases c h with h | h | h | h | h | h | h | h | h | h <;> subst h <;> decide

theorem isDecimal_ne_sign (c : Char) (h : isDecimal c = true) : c ≠ '-' ∧ c ≠ '+' ∧ c ≠ '.' := by
  rcases isDecimal_cases c h with h | h | h | h | h | h | h | h | h | h <;> subst h <;> decide

theorem daysIn_eq_calendarDays (m y : Int) (h1 : 1 ≤ m) (h2 : m ≤ 12) :
    daysIn m y = calendarDays m y := by
  interval_cases m <;> simp [daysIn, calendarDays, isLeap, daysBefore]

theorem isDigit_zero (c : Char) (cs : Str) : isDigit (c :: cs) 0 = isDecimal c := rfl

theorem isDigit_one (c d : Char) (cs : Str) : isDigit (c :: d :: cs) 1 = isDecimal d := rfl

/-- The fixed-width `getnum` accepts exactly two leading digits. -/
theorem getnum_fixed_ok (s rest : Str) (n : Int) :
    getnum s true = .ok (n, rest) ↔
      ∃ c0 c1, s = c0 :: c1 :: rest ∧ isDecimal c0 = true ∧ isDecimal c1 = true ∧
        n = digitVal c0 * 10 + digitVal c1 := by
  constructor
  · intro h
    match s, h with
    | [], h => simp [getnum, isDigit] at h
    | [c], h =>
      by_cases hc : isDecimal c = true <;> simp [getnum, isDigit, isDecimal] at h hc ⊢
    | c0 :: c1 :: r, h =>
      unfold getnum at h
      rw [isDigit_zero, isDigit_one] at h
      by_cases h0 : isDecimal c0 = true
      · by_cases h1 : isDecimal c1 = true
        · simp [h0, h1] at h
          exact ⟨c0, c1, by rw [h.2], h0, h1, h.1.symm⟩
        · simp [h0, h1] at h
      · simp [h0] at h
  · rintro ⟨c0, c1, rfl, h0, h1, rfl⟩
    unfold getnum
    rw [isDigit_zero, isDigit_one]
    simp [h0, h1]

theorem skip_dot_ok (s rest : Str) : skip s ['.'] = .ok rest ↔ s = '.' :: rest := by
  cases s with
  | nil => simp [skip]
  | cons c cs =>
    by_cases hc : c = '.'
    · simp [skip, hc]
    · simp [skip, hc]

theorem skip_nil (s : Str) : skip s [] = .ok s := by
  cases s <;> rfl

theorem leadingInt_four (y1 y2 y3 y4 : Char) :
    leadingInt [y1, y2, y3, y4] 0 =
      if isDecimal y1 = true then
        if isDecimal y2 = true then
          if isDecimal y3 = true then
            if isDecimal y4 = true then
              (digitVal y1 * 1000 + digitVal y2 * 100 + digitVal y3 * 10 + digitVal y4, [])
            else (digitVal y1 * 100 + digitVal y2 * 10 + digitVal y3, [y4])
          else (digitVal y1 * 10 + digitVal y2, [y3, y4])
        else (digitVal y1, [y2, y3, y4])
      else (0, [y1, y2, y3, y4]) := by
  simp only [leadingInt, isDecimal]
  split_ifs <;> simp_all <;> ring

theorem atoi_four (y1 y2 y3 y4 : Char) (h1 : isDecimal y1 = true) :
    atoi [y1, y2, y3, y4] =
      if isDecimal y2 = true ∧ isDecimal y3 = true ∧ isDecimal y4 = true then
        .ok (digitVal y1 * 1000 + digitVal y2 * 100 + digitVal y3 * 10 + digitVal y4)
      else .error () := by
  have hli := leadingInt_four y1 y2 y3 y4
  rw [if_pos h1] at hli
  have hat : atoi [y1, y2, y3, y4] =
      (if (leadingInt [y1, y2, y3, y4] 0).2 ≠ [] then .error ()
       else .ok (leadingInt [y1, y2, y3, y4] 0).1) := by
    rcases isDecimal_cases y1 h1 with h | h | h | h | h | h | h | h | h | h <;> subst h <;> rfl
  rw [hat, hli]
  by_cases h2 : isDecimal y2 = true <;> by_cases h3 : isDecimal y3 = true <;>
    by_cases h4 : isDecimal y4 = true <;> simp [h2, h3, h4]

theorem parseChunk_day (st st1 : ParseState) (v v1 : Str) :
    parseChunk st v ([], .stdZeroDay) = .ok (st1, v1) ↔
      ∃ c0 c1, v = c0 :: c1 :: v1 ∧ isDecimal c0 = true ∧ isDecimal c1 = true ∧
        st1 = ⟨st.year, st.month, digitVal c0 * 10 + digitVal c1⟩ := by
  unfold parseChunk
  simp only [skip_nil]
  cases hg : getnum v true with
  | error e =>
    simp only [reduceCtorEq, false_iff]
    rintro ⟨c0, c1, hv, h0, h1, _⟩
    have := (getnum_fixed_ok v v1 _).mpr ⟨c0, c1, hv, h0, h1, rfl⟩
    rw [hg] at this; cases this
  | ok p =>
    obtain ⟨n, rest⟩ := p
    obtain ⟨c0, c1, hv, h0, h1, hn⟩ := (getnum_fixed_ok v rest n).mp hg
    subst hv hn
    simp only [Except.ok.injEq, Prod.mk.injEq]
    constructor
    · rintro ⟨rfl, rfl⟩
      exact ⟨c0, c1, rfl, h0, h1, rfl⟩
    · rintro ⟨d0, d1, hv, _, _, hst⟩
      simp only [List.cons.injEq] at hv
      obtain ⟨rfl, rfl, rfl⟩ := hv
      exact ⟨hst.symm, rfl⟩

theorem parseChunk_month (st st1 : ParseState) (v v1 : Str) :
    parseChunk st v (['.'], .stdZeroMonth) = .ok (st1, v1) ↔
      ∃ c0 c1, v = '.' :: c0 :: c1 :: v1 ∧ isDecimal c0 = true ∧ isDecimal c1 = true ∧
        1 ≤ digitVal c0 * 10 + digitVal c1 ∧ digitVal c0 * 10 + digitVal c1 ≤ 12 ∧
        st1 = ⟨st.year, digitVal c0 * 10 + digitVal c1, st.day⟩ := by
  unfold parseChunk
  cases hs : skip v ['.'] with
  | error e =>
    simp only [reduceCtorEq, false_iff]
    rintro ⟨c0, c1, hv, _⟩
    have := (skip_dot_ok v _).mpr hv
    rw [hs] at this; cases this
  | ok w =>
    have hv := (skip_dot_ok v w).mp hs
    subst hv
    simp only []
    cases hg : getnum w true with
    | error e =>
      simp only [reduceCtorEq, false_iff]
      rintro ⟨c0, c1, hv, h0, h1, _⟩
      simp only [List.cons.injEq, true_and] at hv
      have := (getnum_fixed_ok w v1 _).mpr ⟨c0, c1, hv, h0, h1, rfl⟩
      rw [hg] at this; cases this
    | ok p =>
      obtain ⟨n, rest⟩ := p
      obtain ⟨c0, c1, hv, h0, h1, hn⟩ := (getnum_fixed_ok w rest n).mp hg
      subst hv hn
      simp only []
      by_cases hr : digitVal c0 * 10 + digitVal c1 ≤ 0 ∨ 12 < digitVal c0 * 10 + digitVal c1
      · have hr2 : (decide (digitVal c0 * 10 + digitVal c1 ≤ 0) ||
            decide (12 < digitVal c0 * 10 + digitVal c1)) = true := by simpa using hr
        simp only [hr2, if_true, reduceCtorEq, false_iff]
        rintro ⟨d0, d1, hv, _, _, hlo, hhi, _⟩
        simp only [List.cons.injEq, true_and] at hv
        obtain ⟨rfl, rfl, rfl⟩ := hv
        omega
      · have hr2 : (decide (digitVal c0 * 10 + digitVal c1 ≤ 0) ||
            decide (12 < digitVal c0 * 10 + digitVal c1)) = false := by
          simpa using hr
        simp only [hr2, Bool.false_eq_true, if_false, Except.ok.injEq, Prod.mk.injEq]
        constructor
        · rintro ⟨rfl, rfl⟩
          exact ⟨c0, c1, rfl, h0, h1, by omega, by omega, rfl⟩
        · rintro ⟨d0, d1, hv, _, _, _, _, hst⟩
          simp only [List.cons.injEq, true_and] at hv
          obtain ⟨rfl, rfl, rfl⟩ := hv
          exact ⟨hst.symm, rfl⟩

theorem parseChunk_year (st st1 : ParseState) (v v1 : Str) :
    parseChunk st v (['.'], .stdLongYear) = .ok (st1, v1) ↔
      ∃ y1 y2 y3 y4, v = '.' :: y1 :: y2 :: y3 :: y4 :: v1 ∧ isDecimal y1 = true ∧
        isDecimal y2 = true ∧ isDecimal y3 = true ∧ isDecimal y4 = true ∧
        st1 = ⟨digitVal y1 * 1000 + digitVal y2 * 100 + digitVal y3 * 10 + digitVal y4,
          st.month, st.day⟩ := by
  unfold parseChunk
  cases hs : skip v ['.'] with
  | error e =>
    simp only [reduceCtorEq, false_iff]
    rintro ⟨y1, y2, y3, y4, hv, _⟩
    have := (skip_dot_ok v _).mpr hv
    rw [hs] at this; cases this
  | ok w =>
    have hv := (skip_dot_ok v w).mp hs
    subst hv
    simp only []
    match w with
    | [] => simp [isDigit]
    | [a] => simp
    | [a, b] => simp
    | [a, b, c] => simp
    | y1 :: y2 :: y3 :: y4 :: rest =>
      have hlen : ¬ ((y1 :: y2 :: y3 :: y4 :: rest).length < 4) := by simp
      simp only [hlen, decide_False, Bool.false_or, isDigit_zero, List.take_succ_cons,
        List.take_zero, List.drop_succ_cons, List.drop_zero]
      by_cases h1 : isDecimal y1 = true
      · simp only [h1, Bool.not_true, Bool.false_eq_true, if_false, atoi_four y1 y2 y3 y4 h1]
        by_cases h234 : isDecimal y2 = true ∧ isDecimal y3 = true ∧ isDecimal y4 = true
        · simp only [h234, and_self, if_true, Except.ok.injEq, Prod.mk.injEq]
          constructor
          · rintro ⟨rfl, rfl⟩
            exact ⟨y1, y2, y3, y4, rfl, h1, h234.1, h234.2.1, h234.2.2, rfl⟩
          · rintro ⟨z1, z2, z3, z4, hv, _, _, _, _, hst⟩
            simp only [List.cons.injEq, true_and] at hv
            obtain ⟨rfl, rfl, rfl, rfl, rfl⟩ := hv
            exact ⟨hst.symm, rfl⟩
        · simp only [h234, if_false, reduceCtorEq, false_iff]
          rintro ⟨z1, z2, z3, z4, hv, _, d2, d3, d4, _⟩
          simp only [List.cons.injEq, true_and] at hv
          obtain ⟨rfl, rfl, rfl, rfl, rfl⟩ := hv
          exact h234 ⟨d2, d3, d4⟩
      · simp only [h1, Bool.not_false, if_true, reduceCtorEq, false_iff]
        rintro ⟨z1, z2, z3, z4, hv, d1, _⟩
        simp only [List.cons.injEq, true_and] at hv
        obtain ⟨rfl, rfl, rfl, rfl, rfl⟩ := hv
        exact h1 d1

/-- What `time.Parse("02.01.2006", s)` accepts, and the time it returns. -/
theorem Parse_ok_shape (s : Str) (t : Time) :
    Parse s = .ok t ↔
      ∃ d1 d2 m1 m2 y1 y2 y3 y4, s = [d1, d2, '.', m1, m2, '.', y1, y2, y3, y4] ∧
        isDecimal d1 = true ∧ isDecimal d2 = true ∧ isDecimal m1 = true ∧
        isDecimal m2 = true ∧ isDecimal y1 = true ∧ isDecimal y2 = true ∧
        isDecimal y3 = true ∧ isDecimal y4 = true ∧
        1 ≤ digitVal m1 * 10 + digitVal m2 ∧ digitVal m1 * 10 + digitVal m2 ≤ 12 ∧
        1 ≤ digitVal d1 * 10 + digitVal d2 ∧
        digitVal d1 * 10 + digitVal d2 ≤ daysIn (digitVal m1 * 10 + digitVal m2)
          (digitVal y1 * 1000 + digitVal y2 * 100 + digitVal y3 * 10 + digitVal y4) ∧
        t = ⟨digitVal y1 * 1000 + digitVal y2 * 100 + digitVal y3 * 10 + digitVal y4,
          digitVal m1 * 10 + digitVal m2, digitVal d1 * 10 + digitVal d2⟩ := by
  constructor
  · intro h
    unfold Parse at h
    simp only [layoutChunks, parseChunks] at h
    cases h1 : parseChunk ParseState.init s ([], .stdZeroDay) with
    | error e => simp [h1] at h
    | ok p1 =>
      obtain ⟨st1, v1⟩ := p1
      simp only [h1] at h
      cases h2 : parseChunk st1 v1 (['.'], .stdZeroMonth) with
      | error e => simp [h2] at h
      | ok p2 =>
        obtain ⟨st2, v2⟩ := p2
        simp only [h2] at h
        cases h3 : parseChunk st2 v2 (['.'], .stdLongYear) with
        | error e => simp [h3] at h
        | ok p3 =>
          obtain ⟨st3, v3⟩ := p3
          simp only [h3] at h
          obtain ⟨d1, d2, hs, hd1, hd2, hst1⟩ := (parseChunk_day _ _ _ _).mp h1
          obtain ⟨m1, m2, hv1, hm1, hm2, hlo, hhi, hst2⟩ := (parseChunk_month _ _ _ _).mp h2
          obtain ⟨y1, y2, y3, y4, hv2, hy1, hy2, hy3, hy4, hst3⟩ :=
            (parseChunk_year _ _ _ _).mp h3
          subst hst1 hst2 hst3
          by_cases hv3 : v3.length ≠ 0
          · simp [hv3] at h
          · have hv3n : v3 = [] := by
              cases v3 with
              | nil => rfl
              | cons a as => simp at hv3
            subst hv3n
            have hd := digitVal_range d1 hd1
            have hd' := digitVal_range d2 hd2
            have hmneg : ¬ (digitVal m1 * 10 + digitVal m2 < 0) := by omega
            have hdneg : ¬ (digitVal d1 * 10 + digitVal d2 < 0) := by omega
            simp only [List.length_nil, ne_eq, not_true_eq_false, if_false, hmneg, hdneg] at h
            by_cases hday : digitVal d1 * 10 + digitVal d2 < 1 ∨
                digitVal d1 * 10 + digitVal d2 >
                  daysIn (digitVal m1 * 10 + digitVal m2)
                    (digitVal y1 * 1000 + digitVal y2 * 100 + digitVal y3 * 10 + digitVal y4)
            · have : (decide (digitVal d1 * 10 + digitVal d2 < 1) ||
                  decide (digitVal d1 * 10 + digitVal d2 >
                    daysIn (digitVal m1 * 10 + digitVal m2)
                      (digitVal y1 * 1000 + digitVal y2 * 100 + digitVal y3 * 10 +
                        digitVal y4))) = true := by simpa using hday
              simp [this] at h
            · have : (decide (digitVal d1 * 10 + digitVal d2 < 1) ||
                  decide (digitVal d1 * 10 + digitVal d2 >
                    daysIn (digitVal m1 * 10 + digitVal m2)
                      (digitVal y1 * 1000 + digitVal y2 * 100 + digitVal y3 * 10 +
                        digitVal y4))) = false := by simpa using hday
              simp only [this, Bool.false_eq_true, if_false, Except.ok.injEq, Date] at h
              refine ⟨d1, d2, m1, m2, y1, y2, y3, y4, ?_, hd1, hd2, hm1, hm2, hy1, hy2, hy3,
                hy4, hlo, hhi, ?_, ?_, h.symm⟩
              · rw [hs, hv1, hv2]
              · omega
              · omega
  · rintro ⟨d1, d2, m1, m2, y1, y2, y3, y4, rfl, hd1, hd2, hm1, hm2, hy1, hy2, hy3, hy4,
      hlo, hhi, hdlo, hdhi, rfl⟩
    have h1 := (parseChunk_day ParseState.init _
      [d1, d2, '.', m1, m2, '.', y1, y2, y3, y4] ['.', m1, m2, '.', y1, y2, y3, y4]).mpr
        ⟨d1, d2, rfl, hd1, hd2, rfl⟩
    have h2 := (parseChunk_month
      ⟨ParseState.init.year, ParseState.init.month, digitVal d1 * 10 + digitVal d2⟩ _
      ['.', m1, m2, '.', y1, y2, y3, y4] ['.', y1, y2, y3, y4]).mpr
        ⟨m1, m2, rfl, hm1, hm2, hlo, hhi, rfl⟩
    have h3 := (parseChunk_year
      ⟨ParseState.init.year, digitVal m1 * 10 + digitVal m2, digitVal d1 * 10 + digitVal d2⟩ _
      ['.', y1, y2, y3, y4] []).mpr ⟨y1, y2, y3, y4, rfl, hy1, hy2, hy3, hy4, rfl⟩
    unfold Parse
    simp only [layoutChunks, parseChunks, h1, h2, h3]
    have hmneg : ¬ (digitVal m1 * 10 + digitVal m2 < 0) := by omega
    have hdneg : ¬ (digitVal d1 * 10 + digitVal d2 < 0) := by omega
    have : (decide (digitVal d1 * 10 + digitVal d2 < 1) ||
        decide (digitVal d1 * 10 + digitVal d2 >
          daysIn (digitVal m1 * 10 + digitVal m2)
            (digitVal y1 * 1000 + digitVal y2 * 100 + digitVal y3 * 10 +
              digitVal y4))) = false := by
      simp only [Bool.or_eq_false_iff, decide_eq_false_iff_not]
      constructor <;> omega
    simp only [List.length_nil, ne_eq, not_true_eq_false, if_false, hmneg, hdneg, this,
      Bool.false_eq_true, Date]

theorem isDateDDMMYYYY_shape (s : Str) :
    isDateDDMMYYYY s = true ↔
      ∃ d1 d2 m1 m2 y1 y2 y3 y4, s = [d1, d2, '.', m1, m2, '.', y1, y2, y3, y4] ∧
        isDecimal d1 = true ∧ isDecimal d2 = true ∧ isDecimal m1 = true ∧
        isDecimal m2 = true ∧ isDecimal y1 = true ∧ isDecimal y2 = true ∧
        isDecimal y3 = true ∧ isDecimal y4 = true ∧
        1 ≤ digitVal m1 * 10 + digitVal m2 ∧ digitVal m1 * 10 + digitVal m2 ≤ 12 ∧
        1 ≤ digitVal d1 * 10 + digitVal d2 ∧
        digitVal d1 * 10 + digitVal d2 ≤ calendarDays (digitVal m1 * 10 + digitVal m2)
          (digitVal y1 * 1000 + digitVal y2 * 100 + digitVal y3 * 10 + digitVal y4) := by
  constructor
  · intro h
    unfold isDateDDMMYYYY at h
    split at h
    · next d1 d2 m1 m2 y1 y2 y3 y4 =>
      simp only [Bool.and_eq_true, decide_eq_true_eq] at h
      obtain ⟨⟨⟨⟨⟨⟨⟨⟨h1, h2⟩, h3⟩, h4⟩, h5⟩, h6⟩, h7⟩, h8⟩, ⟨⟨h9, h10⟩, h11⟩, h12⟩ := h
      exact ⟨d1, d2, m1, m2, y1, y2, y3, y4, rfl, h1, h2, h3, h4, h5, h6, h7, h8, h9, h10,
        h11, h12⟩
    · simp at h
  · rintro ⟨d1, d2, m1, m2, y1, y2, y3, y4, rfl, h1, h2, h3, h4, h5, h6, h7, h8, h9, h10,
      h11, h12⟩
    simp only [isDateDDMMYYYY, h1, h2, h3, h4, h5, h6, h7, h8, h9, h10, h11, h12,
      Bool.and_self, decide_True]

/-- `time.Parse("02.01.2006", s)` succeeds exactly on the strings in the format
DD.MM.YYYY that denote a calendar date, and returns that date. -/
theorem Parse_ok_iff (s : Str) (t : Time) :
    Parse s = .ok t ↔ isDateDDMMYYYY s = true ∧ t = dateOfDDMMYYYY s := by
  rw [Parse_ok_shape, isDateDDMMYYYY_shape]
  constructor
  · rintro ⟨d1, d2, m1, m2, y1, y2, y3, y4, rfl, h1, h2, h3, h4, h5, h6, h7, h8, h9, h10,
      h11, h12, rfl⟩
    rw [daysIn_eq_calendarDays _ _ h9 h10] at h12
    exact ⟨⟨d1, d2, m1, m2, y1, y2, y3, y4, rfl, h1, h2, h3, h4, h5, h6, h7, h8, h9, h10,
      h11, h12⟩, rfl⟩
  · rintro ⟨⟨d1, d2, m1, m2, y1, y2, y3, y4, rfl, h1, h2, h3, h4, h5, h6, h7, h8, h9, h10,
      h11, h12⟩, rfl⟩
    rw [← daysIn_eq_calendarDays _ _ h9 h10] at h12
    exact ⟨d1, d2, m1, m2, y1, y2, y3, y4, rfl, h1, h2, h3, h4, h5, h6, h7, h8, h9, h10,
      h11, h12, rfl⟩

theorem Parse_error_iff (s : Str) : (∃ e, Parse s = .error e) ↔ isDateDDMMYYYY s = false := by
  cases hp : Parse s with
  | error e =>
    simp only [Except.error.injEq, exists_eq', true_iff]
    cases hd : isDateDDMMYYYY s with
    | false => rfl
    | true =>
      have := (Parse_ok_iff s (dateOfDDMMYYYY s)).mpr ⟨hd, rfl⟩
      rw [hp] at this; cases this
  | ok t =>
    have := ((Parse_ok_iff s t).mp hp).1
    simp [this]

theorem digitVal_eq_toNat (c : Char) (h : isDecimal c = true) :
    digitVal c = ((digitVal c).toNat : Int) ∧ (digitVal c).toNat ≤ 9 := by
  have := digitVal_range c h
  omega

theorem appendInt_two (b : Str) (c0 c1 : Char) (h0 : isDecimal c0 = true)
    (h1 : isDecimal c1 = true) :
    appendInt b (digitVal c0 * 10 + digitVal c1) 2 = b ++ [c0, c1] := by
  obtain ⟨e0, l0⟩ := digitVal_eq_toNat c0 h0
  obtain ⟨e1, l1⟩ := digitVal_eq_toNat c1 h1
  have hc0 := digitChar_digitVal c0 h0
  have hc1 := digitChar_digitVal c1 h1
  generalize (digitVal c0).toNat = a0 at *
  generalize (digitVal c1).toNat = a1 at *
  have hx : digitVal c0 * 10 + digitVal c1 = ((a0 * 10 + a1 : Nat) : Int) := by
    rw [e0, e1]; push_cast; ring
  rw [hx]
  unfold appendInt
  have hneg : ¬ (((a0 * 10 + a1 : Nat) : Int) < 0) := by omega
  have hlt : a0 * 10 + a1 < 100 := by omega
  have hq : (a0 * 10 + a1) / 10 = a0 := by omega
  have hr : (a0 * 10 + a1) % 10 = a1 := by omega
  simp only [Int.natAbs_ofNat, hneg, if_false, hlt, and_self, if_true, hq, hr, hc0, hc1]

theorem appendInt_four (b : Str) (c0 c1 c2 c3 : Char) (h0 : isDecimal c0 = true)
    (h1 : isDecimal c1 = true) (h2 : isDecimal c2 = true) (h3 : isDecimal c3 = true) :
    appendInt b (digitVal c0 * 1000 + digitVal c1 * 100 + digitVal c2 * 10 + digitVal c3) 4 =
      b ++ [c0, c1, c2, c3] := by
  obtain ⟨e0, l0⟩ := digitVal_eq_toNat c0 h0
  obtain ⟨e1, l1⟩ := digitVal_eq_toNat c1 h1
  obtain ⟨e2, l2⟩ := digitVal_eq_toNat c2 h2
  obtain ⟨e3, l3⟩ := digitVal_eq_toNat c3 h3
  have hc0 := digitChar_digitVal c0 h0
  have hc1 := digitChar_digitVal c1 h1
  have hc2 := digitChar_digitVal c2 h2
  have hc3 := digitChar_digitVal c3 h3
  generalize (digitVal c0).toNat = a0 at *
  generalize (digitVal c1).toNat = a1 at *
  generalize (digitVal c2).toNat = a2 at *
  generalize (digitVal c3).toNat = a3 at *
  have hx : digitVal c0 * 1000 + digitVal c1 * 100 + digitVal c2 * 10 + digitVal c3 =
      ((a0 * 1000 + a1 * 100 + a2 * 10 + a3 : Nat) : Int) := by
    rw [e0, e1, e2, e3]; push_cast; ring
  rw [hx]
  unfold appendInt
  have hneg : ¬ (((a0 * 1000 + a1 * 100 + a2 * 10 + a3 : Nat) : Int) < 0) := by omega
  have hw : ¬ ((4 : Nat) = 2 ∧ a0 * 1000 + a1 * 100 + a2 * 10 + a3 < 100) := by omega
  have hlt : a0 * 1000 + a1 * 100 + a2 * 10 + a3 < 10000 := by omega
  have hq0 : (a0 * 1000 + a1 * 100 + a2 * 10 + a3) / 1000 = a0 := by omega
  have hq1 : (a0 * 1000 + a1 * 100 + a2 * 10 + a3) / 100 % 10 = a1 := by omega
  have hq2 : (a0 * 1000 + a1 * 100 + a2 * 10 + a3) / 10 % 10 = a2 := by omega
  have hq3 : (a0 * 1000 + a1 * 100 + a2 * 10 + a3) % 10 = a3 := by omega
  simp only [Int.natAbs_ofNat, hneg, if_false, hw, hlt, and_self, if_true, hq0, hq1, hq2, hq3,
    hc0, hc1, hc2, hc3]

/-- C10: for every release date string that `AddSong` accepts, that is, that
`time.Parse` with the layout `"02.01.2006"` parses, formatting the parsed date
with the same layout, as the listing operations do, returns the string verbatim. -/
theorem Format_Parse (s : Str) (t : Time) (h : Parse s = .ok t) : t.Format = s := by
  obtain ⟨d1, d2, m1, m2, y1, y2, y3, y4, rfl, hd1, hd2, hm1, hm2, hy1, hy2, hy3, hy4,
    _, _, _, _, rfl⟩ := (Parse_ok_shape s t).mp h
  simp only [Time.Format, layoutChunks, formatChunks, List.append_nil, List.nil_append,
    appendInt_two _ d1 d2 hd1 hd2, appendInt_two _ m1 m2 hm1 hm2,
    appendInt_four _ y1 y2 y3 y4 hy1 hy2 hy3 hy4, List.cons_append, List.append_assoc]

/-- The dates of the tests `TestDeleteSong` and `TestAddSong` come back verbatim. -/
theorem Format_Parse_witness :
    (Time.mk 2000 6 26).Format = "26.06.2000".toList ∧
    (Time.mk 2006 7 16).Format = "16.07.2006".toList :=
  ⟨Format_Parse "26.06.2000".toList ⟨2000, 6, 26⟩ (by rfl),
    Format_Parse "16.07.2006".toList ⟨2006, 7, 16⟩ (by rfl)⟩

/-- C9: `AddSong` returns an error if and only if the release date is not a
calendar date in the format DD.MM.YYYY (two-digit day, two-digit month,
four-digit year, day valid for that month and year) or the storage call fails;
when the date is not such a date it returns id 0 with the parse error and makes
no storage call: the storage state is untouched, whatever the pool, and a pool
that records its calls has recorded none. -/
theorem AddSong_fails_iff {σ : Type} (pool : Pool σ) (st : σ) (song : Song) :
    ((AddSong pool st song).1.2 ≠ none ↔
      isDateDDMMYYYY song.ReleaseDate = false ∨
      ∃ e, (pool.add_song st ⟨song.Title, song.Group, dateOfDDMMYYYY song.ReleaseDate,
        song.Link, Split song.Lyrics verseSep⟩).1 = .error e) ∧
    (isDateDDMMYYYY song.ReleaseDate = false →
      (AddSong pool st song).1.1 = 0 ∧
      (∃ e, (AddSong pool st song).1.2 = some (.parse e)) ∧
      (AddSong pool st song).2 = st ∧
      ∀ calls, (AddSong recordingPool calls song).2 = calls) := by
  cases hp : Parse song.ReleaseDate with
  | error e =>
    have hd : isDateDDMMYYYY song.ReleaseDate = false :=
      (Parse_error_iff song.ReleaseDate).mp ⟨e, hp⟩
    simp [AddSong, hp, hd]
  | ok t =>
    obtain ⟨hd, ht⟩ := (Parse_ok_iff song.ReleaseDate t).mp hp
    subst ht
    refine ⟨?_, ?_⟩
    · simp only [AddSong, hp, hd, Bool.true_eq_false, false_or]
      rcases hadd : pool.add_song st ⟨song.Title, song.Group,
        dateOfDDMMYYYY song.ReleaseDate, song.Link, Split song.Lyrics verseSep⟩ with ⟨r, st1⟩
      cases r with
      | error e => simp
      | ok id => simp
    · intro hbad
      rw [hd] at hbad; cases hbad

/-- A date in another format: `AddSong` returns id 0 and an error, leaves the
database as it was, and a recording pool has recorded no call. -/
theorem AddSong_fails_iff_witness :
    (AddSong pgPool sampleDB ⟨⟨0, "Yellow".toList, "Coldplay".toList, "2000-06-26".toList,
      []⟩, []⟩).1.1 = 0 ∧
    (AddSong pgPool sampleDB ⟨⟨0, "Yellow".toList, "Coldplay".toList, "2000-06-26".toList,
      []⟩, []⟩).2 = sampleDB ∧
    (AddSong recordingPool [] ⟨⟨0, "Yellow".toList, "Coldplay".toList, "2000-06-26".toList,
      []⟩, []⟩).2 = [] ∧
    (AddSong pgPool sampleDB ⟨⟨0, "Yellow".toList, "Coldplay".toList, "2000-06-26".toList,
      []⟩, []⟩).1.2 ≠ none :=
  ⟨((AddSong_fails_iff pgPool sampleDB _).2 (by decide)).1,
    ((AddSong_fails_iff pgPool sampleDB _).2 (by decide)).2.2.1,
    ((AddSong_fails_iff pgPool sampleDB _).2 (by decide)).2.2.2 [],
    (AddSong_fails_iff pgPool sampleDB _).1.mpr (Or.inl (by decide))⟩

/-! ### Catalogue pages -/

instance titleGroupLe.isTotal : IsTotal SongRow titleGroupLe :=
  ⟨fun a b => le_total (titleGroupKey a) (titleGroupKey b)⟩

instance titleGroupLe.isTrans : IsTrans SongRow titleGroupLe :=
  ⟨fun _ _ _ hab hbc => le_trans hab hbc⟩

theorem titleGroupLe_iff (a b : SongRow) :
    titleGroupLe a b ↔
      a.title < b.title ∨
        (a.title = b.title ∧ (a.group < b.group ∨ (a.group = b.group ∧ a.id ≤ b.id))) := by
  unfold titleGroupLe titleGroupKey
  rw [Prod.Lex.le_iff]
  simp only [Prod.Lex.le_iff]

theorem pairLt_iff (a b : SongRow) :
    a.pairLt b ↔ toLex a.pair < toLex b.pair := by
  unfold SongRow.pairLt SongRow.pair
  rw [Prod.Lex.lt_iff]

theorem pairLt_irrefl (a : SongRow) : ¬ a.pairLt a := by
  rw [pairLt_iff]; exact lt_irrefl _

theorem pairLt_asymm (a b : SongRow) (h : a.pairLt b) : ¬ b.pairLt a := by
  rw [pairLt_iff] at h ⊢; exact lt_asymm h

theorem pairLt_of_le_of_ne (a b : SongRow) (hle : titleGroupLe a b) (hne : a.pair ≠ b.pair) :
    a.pairLt b := by
  rw [titleGroupLe_iff] at hle
  rcases hle with h | ⟨ht, h | ⟨hg, _⟩⟩
  · exact Or.inl h
  · exact Or.inr ⟨ht, h⟩
  · exact absurd (by simp [SongRow.pair, ht, hg]) hne

theorem afterTitleGroup_iff_pairLt (c r : SongRow) :
    afterTitleGroup c.title c.group r ↔ c.pairLt r := by
  unfold afterTitleGroup SongRow.pairLt
  constructor
  · rintro (h | ⟨h1, h2⟩)
    · exact Or.inl h
    · exact Or.inr ⟨h1.symm, h2⟩
  · rintro (h | ⟨h1, h2⟩)
    · exact Or.inl h
    · exact Or.inr ⟨h1.symm, h2⟩

/-- Inserting into a sorted list and then filtering is filtering and then
inserting, when the inserted element passes the filter. -/
theorem filter_orderedInsert (p : SongRow → Bool) (a : SongRow) (s : List SongRow)
    (hs : s.Sorted titleGroupLe) :
    (s.orderedInsert titleGroupLe a).filter p =
      if p a = true then (s.filter p).orderedInsert titleGroupLe a else s.filter p := by
  induction s with
  | nil => by_cases hp : p a = true <;> simp [hp]
  | cons b s ih =>
    have hs2 := hs.of_cons
    by_cases hab : titleGroupLe a b
    · rw [List.orderedInsert_of_le _ _ hab]
      by_cases hp : p a = true
      · simp only [hp, if_true, List.filter_cons_of_pos]
        have hall : ∀ x ∈ (b :: s).filter p, titleGroupLe a x := by
          intro x hx
          have hx2 : x ∈ b :: s := (List.mem_filter.mp hx).1
          rcases List.mem_cons.mp hx2 with h | h
          · rw [h]; exact hab
          · exact le_trans hab (List.rel_of_sorted_cons hs x h)
        cases hf : (b :: s).filter p with
        | nil => simp
        | cons c cs =>
          rw [List.orderedInsert_of_le _ _ (hall c (by rw [hf]; simp))]
      · have hp2 : p a = false := by simpa using hp
        simp [hp2]
    · have hins : (b :: s).orderedInsert titleGroupLe a = b :: s.orderedInsert titleGroupLe a := by
        simp [List.orderedInsert, hab]
      rw [hins]
      by_cases hb : p b = true
      · rw [List.filter_cons_of_pos hb, List.filter_cons_of_pos hb, ih hs2]
        by_cases hp : p a = true
        · simp [hp, List.orderedInsert, hab]
        · simp [hp]
      · have hb2 : ¬ (p b = true) := hb
        rw [List.filter_cons_of_neg hb2, List.filter_cons_of_neg hb2, ih hs2]

/-- Sorting commutes with filtering. -/
theorem filter_insertionSort (p : SongRow → Bool) (l : List SongRow) :
    (l.insertionSort titleGroupLe).filter p = (l.filter p).insertionSort titleGroupLe := by
  induction l with
  | nil => simp
  | cons a l ih =>
    rw [List.insertionSort, filter_orderedInsert p a _ (List.sorted_insertionSort _ l), ih]
    by_cases hp : p a = true
    · simp [hp, List.insertionSort]
    · simp [hp]

/-- What `GetSongsInfo` returns on a database without driver failures. -/
theorem GetSongsInfo_pg (db : DB) (hint : PaginationInfo) :
    GetSongsInfo pgPool db hint =
      ((((db.rows.filter (fun r => decide (seekAll hint.PrevSong hint.PrevGroup r))).insertionSort
        titleGroupLe).take hint.Limit.toNat).map SongRow.toSongInfo, none) := by
  simp only [GetSongsInfo, pgPool, Pg.get_songs_info, collectSongs_clean]

/-- What `GetGroupSongsInfo` returns on a database without driver failures. -/
theorem GetGroupSongsInfo_pg (db : DB) (group : Str) (hint : PaginationInfo) :
    GetGroupSongsInfo pgPool db group hint =
      ((((db.rows.filter (fun r => decide (seekGroup group hint.PrevSong r))).insertionSort
        titleGroupLe).take hint.Limit.toNat).map SongRow.toSongInfo, none) := by
  simp only [GetGroupSongsInfo, pgPool, Pg.get_group_songs_info, collectSongs_clean]

/-- C2, the claim as stated fails: on the catalogue of `PreparePaginationCase`,
the first page of four has the ids 1, 5, 9, 2, as `TestPreparePagination`
expects, where the order (group, title, id) gives 1, 2, 3, 4; and after the
cursor title 2, group 1, the next entry has id 6, as
`TestGetSongsPagination_All` expects, where the order (group, title, id) gives
id 3. -/
theorem listAll_is_not_group_first :
    (GetSongsInfo pgPool paginationCase ⟨[], [], 4⟩).1.map (fun s => s.ID) = [1, 5, 9, 2] ∧
    (listAllSpec paginationCase [] [] 4).map (fun s => s.ID) = [1, 2, 3, 4] ∧
    (GetSongsInfo pgPool paginationCase ⟨"Group 1".toList, "2".toList, 1⟩).1.map
      (fun s => s.ID) = [6] ∧
    (listAllSpec paginationCase "Group 1".toList "2".toList 1).map (fun s => s.ID) = [3] ∧
    (GetSongsInfo pgPool paginationCase ⟨[], [], 4⟩).1 ≠ listAllSpec paginationCase [] [] 4 := by
  decide

/-- C2 as amended: for every catalogue, every cursor and every limit above 0,
`GetSongsInfo` returns without error the first `limit` entries, in the order
title ascending, then group ascending, then id ascending, among exactly the
entries with `title > prevSong`, or `title == prevSong` and `group >
prevGroup`: the page, followed by the entries it leaves out, is a sorted
arrangement of those entries, and the page is short only when nothing is left
out.  A page never holds an entry whose (title, group) equals the cursor pair;
and without a cursor (both strings empty) the entries are all those of the
catalogue, so the page starts from the smallest. -/
theorem listAll_page (db : DB) (prevSong prevGroup : Str) (limit : Int) (hlim : 0 < limit) :
    ∃ page rest : List SongRow,
      GetSongsInfo pgPool db ⟨prevGroup, prevSong, limit⟩ =
        (page.map SongRow.toSongInfo, none) ∧
      (page ++ rest).Perm (db.rows.filter (fun r => decide (seekAll prevSong prevGroup r))) ∧
      (page ++ rest).Sorted titleGroupLe ∧
      (page.length = limit.toNat ∨ rest = []) ∧ (page.length : Int) ≤ limit ∧
      (¬ (prevSong = [] ∧ prevGroup = []) →
        (∀ r, r ∈ page ++ rest ↔ r ∈ db.rows ∧
          (prevSong < r.title ∨ (r.title = prevSong ∧ prevGroup < r.group))) ∧
        ∀ r ∈ page, r.pair ≠ (prevSong, prevGroup)) ∧
      ((prevSong = [] ∧ prevGroup = []) → (page ++ rest).Perm db.rows) := by
  let sorted := (db.rows.filter (fun r => decide (seekAll prevSong prevGroup r))).insertionSort
    titleGroupLe
  have hperm : sorted.Perm (db.rows.filter (fun r => decide (seekAll prevSong prevGroup r))) :=
    List.perm_insertionSort _ _
  refine ⟨sorted.take limit.toNat, sorted.drop limit.toNat, GetSongsInfo_pg db _, ?_, ?_, ?_,
    ?_, ?_, ?_⟩
  · rw [List.take_append_drop]; exact hperm
  · rw [List.take_append_drop]; exact List.sorted_insertionSort _ _
  · by_cases h : limit.toNat ≤ sorted.length
    · left; simp [List.length_take, h]
    · right; apply List.drop_eq_nil_of_le; omega
  · have : (sorted.take limit.toNat).length ≤ limit.toNat := List.length_take_le _ _
    omega
  · intro hcur
    rw [List.take_append_drop]
    have hmem : ∀ r, r ∈ sorted ↔ r ∈ db.rows ∧
        (prevSong < r.title ∨ (r.title = prevSong ∧ prevGroup < r.group)) := by
      intro r
      rw [hperm.mem_iff, List.mem_filter]
      simp only [decide_eq_true_eq, seekAll, afterTitleGroup, hcur, false_or]
    refine ⟨hmem, ?_⟩
    intro r hr
    have hr2 := ((hmem r).mp (List.mem_of_mem_take hr)).2
    intro hpair
    simp only [SongRow.pair, Prod.mk.injEq] at hpair
    rcases hr2 with h | ⟨_, h⟩
    · rw [hpair.1] at h; exact lt_irrefl _ h
    · rw [hpair.2] at h; exact lt_irrefl _ h
  · intro hno
    rw [List.take_append_drop]
    refine hperm.trans ?_
    have : db.rows.filter (fun r => decide (seekAll prevSong prevGroup r)) = db.rows := by
      apply List.filter_eq_self.mpr
      intro r _
      simp [seekAll, hno]
    rw [this]

/-- The amended C2 on the catalogue of `PreparePaginationCase` with the cursor
title 2, group 1 and limit 1. -/
theorem listAll_page_witness :
    ∃ page rest : List SongRow,
      GetSongsInfo pgPool paginationCase ⟨"Group 1".toList, "2".toList, 1⟩ =
        (page.map SongRow.toSongInfo, none) ∧
      (page ++ rest).Perm (paginationCase.rows.filter
        (fun r => decide (seekAll "2".toList "Group 1".toList r))) ∧
      (page ++ rest).Sorted titleGroupLe ∧
      (page.length = (1 : Int).toNat ∨ rest = []) ∧ (page.length : Int) ≤ 1 :=
  (listAll_page paginationCase "2".toList "Group 1".toList 1 (by decide)).imp
    fun _ h => h.imp fun _ h => ⟨h.1, h.2.1, h.2.2.1, h.2.2.2.1, h.2.2.2.2.1⟩

/-- C5: for every catalogue, group name, cursor title and limit above 0,
`GetGroupSongsInfo` returns without error at most `limit` entries, each an
entry of the catalogue with that group and with a title after the cursor title
(any title when the cursor title is absent, that is empty), sorted by title
ascending; and the `PrevGroup` field of the hint has no influence on the
result, whatever the pool. -/
theorem listByGroup_page (db : DB) (group : Str) (hint : PaginationInfo)
    (hlim : 0 < hint.Limit) :
    (GetGroupSongsInfo pgPool db group hint).2 = none ∧
    ((GetGroupSongsInfo pgPool db group hint).1.length : Int) ≤ hint.Limit ∧
    (∀ s ∈ (GetGroupSongsInfo pgPool db group hint).1,
      s.Group = group ∧ (hint.PrevSong ≠ [] → hint.PrevSong < s.Title) ∧
      ∃ r ∈ db.rows, s = r.toSongInfo) ∧
    (GetGroupSongsInfo pgPool db group hint).1.Pairwise (fun a b => a.Title ≤ b.Title) ∧
    (∀ {σ : Type} (pool : Pool σ) (st : σ) (prevGroup : Str),
      GetGroupSongsInfo pool st group ⟨prevGroup, hint.PrevSong, hint.Limit⟩ =
        GetGroupSongsInfo pool st group hint) := by
  rw [GetGroupSongsInfo_pg]
  let sorted := (db.rows.filter (fun r => decide (seekGroup group hint.PrevSong r))).insertionSort
    titleGroupLe
  have hmem : ∀ r ∈ sorted.take hint.Limit.toNat, r ∈ db.rows ∧ seekGroup group hint.PrevSong r := by
    intro r hr
    have := (List.perm_insertionSort titleGroupLe _).mem_iff.mp (List.mem_of_mem_take hr)
    simpa [List.mem_filter] using this
  have hsorted : (sorted.take hint.Limit.toNat).Pairwise titleGroupLe :=
    ((List.sorted_insertionSort titleGroupLe _).sublist (List.take_sublist _ _))
  refine ⟨rfl, ?_, ?_, ?_, ?_⟩
  · simp only [List.length_map]
    have := List.length_take_le hint.Limit.toNat
      ((db.rows.filter (fun r => decide (seekGroup group hint.PrevSong r))).insertionSort
        titleGroupLe)
    omega
  · intro s hs
    obtain ⟨r, hr, rfl⟩ := List.mem_map.mp hs
    obtain ⟨hrow, hg, ht⟩ := hmem r hr
    refine ⟨hg, ?_, r, hrow, rfl⟩
    intro hne
    rcases ht with h | h
    · exact absurd h hne
    · exact h
  · rw [List.pairwise_map]
    refine hsorted.imp ?_
    intro a b hab
    rw [titleGroupLe_iff] at hab
    rcases hab with h | ⟨h, _⟩
    · exact le_of_lt h
    · exact le_of_eq h
  · intro σ pool st prevGroup
    rfl

/-- The calls of `TestGetSongsPagination_Group`: group 2 from the start with
limit 2, and after the title 2 with limit 3. -/
theorem listByGroup_page_witness :
    (GetGroupSongsInfo pgPool paginationCase "Group 2".toList ⟨[], [], 2⟩).2 = none ∧
    (GetGroupSongsInfo pgPool paginationCase "Group 2".toList ⟨[], [], 2⟩).1.map
      (fun s => s.ID) = [5, 6] ∧
    ((GetGroupSongsInfo pgPool paginationCase "Group 2".toList
      ⟨[], "2".toList, 3⟩).1.length : Int) ≤ 3 ∧
    (GetGroupSongsInfo pgPool paginationCase "Group 2".toList ⟨[], "2".toList, 3⟩).1.map
      (fun s => s.ID) = [7, 8] :=
  ⟨(listByGroup_page paginationCase "Group 2".toList ⟨[], [], 2⟩ (by decide)).1, by decide,
    (listByGroup_page paginationCase "Group 2".toList ⟨[], "2".toList, 3⟩ (by decide)).2.1,
    by decide⟩

theorem sortedRows_perm (db : DB) : db.sortedRows.Perm db.rows :=
  List.perm_insertionSort _ _

/-- With distinct (title, group) pairs the sorted catalogue is strictly
increasing in (title, group). -/
theorem sortedRows_pairLt (db : DB) (hd : db.distinctPairs) :
    db.sortedRows.Pairwise SongRow.pairLt := by
  have hd2 : db.rows.Pairwise (fun a b => a.pair ≠ b.pair) := hd
  have hne : db.sortedRows.Pairwise (fun a b => a.pair ≠ b.pair) :=
    ((sortedRows_perm db).pairwise_iff (fun h => Ne.symm h)).mpr hd2
  have hle : db.sortedRows.Pairwise titleGroupLe := List.sorted_insertionSort _ _
  exact (hle.and hne).imp (fun {a b} h => pairLt_of_le_of_ne a b h.1 h.2)

/-- The sorted page source without a cursor is the sorted catalogue. -/
theorem seek_none (db : DB) :
    (db.rows.filter (fun r => decide (seekAll [] [] r))).insertionSort titleGroupLe =
      db.sortedRows := by
  have : db.rows.filter (fun r => decide (seekAll [] [] r)) = db.rows := by
    apply List.filter_eq_self.mpr
    intro r _
    simp [seekAll]
  rw [this, DB.sortedRows]

/-- The sorted page source with a cursor is the part of the sorted catalogue
strictly after the cursor pair. -/
theorem seek_some (db : DB) (prevSong prevGroup : Str) (hc : ¬ (prevSong = [] ∧ prevGroup = [])) :
    (db.rows.filter (fun r => decide (seekAll prevSong prevGroup r))).insertionSort
      titleGroupLe =
    db.sortedRows.filter
      (fun r => decide (prevSong < r.title ∨ (r.title = prevSong ∧ prevGroup < r.group))) := by
  rw [DB.sortedRows, filter_insertionSort]
  congr 1
  apply List.filter_congr
  intro r _
  simp only [seekAll, afterTitleGroup, hc, false_or]

/-- In a list that is strictly increasing in (title, group), the rows after the
pair of the last row of a non-empty front part are the back part. -/
theorem filter_after_last (seen todo : List SongRow) (c : SongRow)
    (hp : (seen ++ c :: todo).Pairwise SongRow.pairLt) :
    (seen ++ c :: todo).filter
      (fun r => decide (c.title < r.title ∨ (r.title = c.title ∧ c.group < r.group))) = todo := by
  have hiff : ∀ r, (c.title < r.title ∨ (r.title = c.title ∧ c.group < r.group)) ↔ c.pairLt r :=
    fun r => afterTitleGroup_iff_pairLt c r
  rw [List.pairwise_append] at hp
  obtain ⟨_, hct, hcross⟩ := hp
  rw [List.pairwise_cons] at hct
  rw [List.filter_append, List.filter_cons]
  have h1 : seen.filter
      (fun r => decide (c.title < r.title ∨ (r.title = c.title ∧ c.group < r.group))) = [] := by
    rw [List.filter_eq_nil_iff]
    intro r hr
    simp only [decide_eq_true_eq, hiff]
    exact pairLt_asymm r c (hcross r hr c (List.mem_cons_self _ _))
  have h2 : ¬ (decide (c.title < c.title ∨ (c.title = c.title ∧ c.group < c.group)) = true) :=
    fun h => pairLt_irrefl c ((hiff c).mp (of_decide_eq_true h))
  have h3 : todo.filter
      (fun r => decide (c.title < r.title ∨ (r.title = c.title ∧ c.group < r.group))) = todo := by
    rw [List.filter_eq_self]
    intro r hr
    simp only [decide_eq_true_eq, hiff]
    exact hct.1 r hr
  rw [h1, if_neg h2, h3, List.nil_append]

/-- The page that follows the rows enumerated so far is the head of the rows
still to come. -/
theorem page_after (db : DB) (hd : db.distinctPairs) (hn : db.namedRows) (limit : Int)
    (seen todo : List SongRow) (hsplit : seen ++ todo = db.sortedRows) :
    GetSongsInfo pgPool db ⟨(cursorAfter seen).2, (cursorAfter seen).1, limit⟩ =
      ((todo.take limit.toNat).map SongRow.toSongInfo, none) := by
  rw [GetSongsInfo_pg]
  simp only []
  rcases List.eq_nil_or_concat seen with hs | ⟨front, c, hs⟩
  · subst hs
    simp only [cursorAfter, List.getLast?_nil, seek_none, ← hsplit, List.nil_append]
  · rw [List.concat_eq_append] at hs
    subst hs
    have hcur : cursorAfter (front ++ [c]) = (c.title, c.group) := by
      simp [cursorAfter]
    have hmem : c ∈ db.rows := by
      apply (sortedRows_perm db).mem_iff.mp
      rw [← hsplit]; simp
    have hnamed : ¬ (c.title = [] ∧ c.group = []) := by
      intro h
      exact hn c hmem (by simp [SongRow.pair, h.1, h.2])
    rw [hcur]
    simp only []
    rw [seek_some db c.title c.group hnamed, ← hsplit]
    have hp := sortedRows_pairLt db hd
    rw [← hsplit] at hp
    have happ : front ++ [c] ++ todo = front ++ c :: todo := by simp
    rw [happ] at hp ⊢
    rw [filter_after_last front todo c hp]

theorem enumerate_stop {σ : Type} (pool : Pool σ) (st : σ) (limit : Int) (fuel : Nat)
    (prevSong prevGroup : Str) (acc : List SongInfo)
    (h : GetSongsInfo pool st ⟨prevGroup, prevSong, limit⟩ = ([], none)) :
    enumerate pool st limit (fuel + 1) prevSong prevGroup acc = some acc := by
  simp only [enumerate, h]

theorem enumerate_step {σ : Type} (pool : Pool σ) (st : σ) (limit : Int) (fuel : Nat)
    (prevSong prevGroup : Str) (acc : List SongInfo) (s : SongInfo) (page : List SongInfo)
    (h : GetSongsInfo pool st ⟨prevGroup, prevSong, limit⟩ = (s :: page, none)) :
    enumerate pool st limit (fuel + 1) prevSong prevGroup acc =
      enumerate pool st limit fuel ((s :: page).getLast (List.cons_ne_nil s page)).Title
        ((s :: page).getLast (List.cons_ne_nil s page)).Group (acc ++ s :: page) := by
  simp only [enumerate, h]

theorem cursorAfter_append (seen page : List SongRow) (hne : page ≠ []) :
    cursorAfter (seen ++ page) =
      (((page.map SongRow.toSongInfo).getLast (by simpa using hne)).Title,
        ((page.map SongRow.toSongInfo).getLast (by simpa using hne)).Group) := by
  have h1 : (seen ++ page).getLast? = some (page.getLast hne) := by
    rw [List.getLast?_append_of_ne_nil _ hne, List.getLast?_eq_getLast _ hne]
  have h2 : (page.map SongRow.toSongInfo).getLast (by simpa using hne) =
      (page.getLast hne).toSongInfo := by
    rw [List.getLast_map]
  simp only [cursorAfter, h1, h2, SongRow.toSongInfo]

/-- The enumeration from any point of the sorted catalogue reaches its end and
has then collected the whole of it. -/
theorem enumerate_from (db : DB) (hd : db.distinctPairs) (hn : db.namedRows) (limit : Int)
    (hlim : 0 < limit) :
    ∀ (fuel : Nat) (seen todo : List SongRow), seen ++ todo = db.sortedRows →
      todo.length < fuel →
      enumerate pgPool db limit fuel (cursorAfter seen).1 (cursorAfter seen).2
        (seen.map SongRow.toSongInfo) = some (db.sortedRows.map SongRow.toSongInfo) := by
  intro fuel
  induction fuel with
  | zero => intro seen todo _ h; omega
  | succ fuel ih =>
    intro seen todo hsplit hfuel
    have hpage := page_after db hd hn limit seen todo hsplit
    obtain ⟨k, hk⟩ : ∃ k, limit.toNat = k + 1 := ⟨limit.toNat - 1, by omega⟩
    cases todo with
    | nil =>
      rw [List.take_nil, List.map_nil] at hpage
      rw [enumerate_stop _ _ _ _ _ _ _ hpage]
      rw [List.append_nil] at hsplit
      rw [hsplit]
    | cons t ts =>
      rw [hk, List.take_succ_cons, List.map_cons] at hpage
      rw [enumerate_step _ _ _ _ _ _ _ _ _ hpage]
      have hsplit2 : (seen ++ t :: ts.take k) ++ ts.drop k = db.sortedRows := by
        rw [← hsplit]; simp
      have hlen : (ts.drop k).length < fuel := by
        simp only [List.length_drop, List.length_cons] at hfuel ⊢
        omega
      have hcur := cursorAfter_append seen (t :: ts.take k) (List.cons_ne_nil _ _)
      have := ih (seen ++ t :: ts.take k) (ts.drop k) hsplit2 hlen
      rw [hcur] at this
      simp only [List.map_append, List.map_cons] at this
      exact this

/-- C4: for every catalogue whose (title, group) pairs are distinct, the sorted
catalogue is an arrangement of all entries that is strictly increasing by title
and then group; `GetSongsInfo` without a cursor and with limit `n` returns its
first `n` entries, and with the cursor `(prevSong, prevGroup)` it returns the
first `n` of those entries of it that come strictly after the cursor pair in
that order. -/
theorem listAll_title_then_group (db : DB) (hd : db.distinctPairs) :
    db.sortedRows.Perm db.rows ∧
    db.sortedRows.Pairwise SongRow.pairLt ∧
    (∀ n : Nat, GetSongsInfo pgPool db ⟨[], [], n⟩ =
      ((db.sortedRows.take n).map SongRow.toSongInfo, none)) ∧
    (∀ (prevSong prevGroup : Str) (n : Nat), ¬ (prevSong = [] ∧ prevGroup = []) →
      GetSongsInfo pgPool db ⟨prevGroup, prevSong, n⟩ =
        (((db.sortedRows.filter (fun r => decide (prevSong < r.title ∨
          (r.title = prevSong ∧ prevGroup < r.group)))).take n).map SongRow.toSongInfo,
            none)) := by
  refine ⟨sortedRows_perm db, sortedRows_pairLt db hd, ?_, ?_⟩
  · intro n
    rw [GetSongsInfo_pg]
    simp only [seek_none, Int.toNat_ofNat]
  · intro prevSong prevGroup n hc
    rw [GetSongsInfo_pg]
    simp only [seek_some db prevSong prevGroup hc, Int.toNat_ofNat]

/-- The calls of `TestPreparePagination` and `TestGetSongsPagination_All` on three
groups of four titles: limit 4 gives (1, Group 1), (1, Group 2), (1, Group 3),
(2, Group 1), and the cursor (2, Group 1) with limit 1 gives (2, Group 2). -/
theorem listAll_title_then_group_witness :
    (GetSongsInfo pgPool paginationCase ⟨[], [], 4⟩).1.map (fun s => (s.Title, s.Group)) =
      [("1".toList, "Group 1".toList), ("1".toList, "Group 2".toList),
        ("1".toList, "Group 3".toList), ("2".toList, "Group 1".toList)] ∧
    (GetSongsInfo pgPool paginationCase ⟨"Group 1".toList, "2".toList, 1⟩).1.map
      (fun s => (s.Title, s.Group)) = [("2".toList, "Group 2".toList)] := by
  have h := listAll_title_then_group paginationCase (by decide)
  have h1 := h.2.2.1 4
  have h2 := h.2.2.2 "2".toList "Group 1".toList 1 (by decide)
  simp only [Nat.cast_ofNat, Nat.cast_one] at h1 h2
  rw [h1, h2]
  decide

/-- C3, the claim as stated fails: on a catalogue where the entries 2 and 3 share
their title and group, the enumeration with page size 1 ends after the entries
1 and 2 and never yields entry 3; and it runs by title first, entry 1 before
entry 2, where the order (group, title, id) puts entries 2 and 3 before entry 1.
On a catalogue whose first entry has an empty title and group, the cursor taken
from that entry is the absent cursor, and the enumeration with page size 1 has
not reached an empty page after 40 calls. -/
theorem enumeration_skips_tied_entry :
    (enumerate pgPool tiedCase 1 10 [] [] []).map (fun l => l.map (fun s => s.ID)) =
      some [1, 2] ∧
    (listAllSpec tiedCase [] [] 10).map (fun s => s.ID) = [2, 3, 1] ∧
    enumerate pgPool unnamedCase 1 40 [] [] [] = none := by
  decide

/-- C3 as amended: for every catalogue whose (title, group) pairs are pairwise
distinct and never both empty, and every page size above 0, calling
`GetSongsInfo` repeatedly, feeding the (group, title) of each page's last
element back as the cursor, reaches an empty page within one call more than
there are entries, and has then yielded every entry exactly once, in the order
title, then group: the sorted catalogue, which is an arrangement of all
entries. -/
theorem enumeration_complete (db : DB) (hd : db.distinctPairs) (hn : db.namedRows)
    (limit : Int) (hlim : 0 < limit) (fuel : Nat) (hfuel : db.songs.length < fuel) :
    enumerate pgPool db limit fuel [] [] [] = some (db.sortedRows.map SongRow.toSongInfo) ∧
    db.sortedRows.Perm db.rows ∧ db.sortedRows.Sorted titleGroupLe ∧
    db.sortedRows.Pairwise SongRow.pairLt := by
  refine ⟨?_, sortedRows_perm db, List.sorted_insertionSort _ _, sortedRows_pairLt db hd⟩
  have hlen : db.sortedRows.length < fuel := by
    rw [(sortedRows_perm db).length_eq, DB.rows, List.length_map]; exact hfuel
  exact enumerate_from db hd hn limit hlim fuel [] db.sortedRows rfl hlen

/-- The enumeration of the catalogue of `PreparePaginationCase` with page size 5. -/
theorem enumeration_complete_witness :
    enumerate pgPool paginationCase 5 13 [] [] [] =
      some (paginationCase.sortedRows.map SongRow.toSongInfo) ∧
    (paginationCase.sortedRows.map (fun r => r.id)) = [1, 5, 9, 2, 6, 10, 3, 7, 11, 4, 8, 12] :=
  ⟨(enumeration_complete paginationCase (by decide) (by decide) 5 (by decide) 13
    (by decide)).1, by decide⟩

/-! ### Storage errors, updates and deletes -/

theorem scanSongs_error (items : List (Except DriverError SongRow)) (acc : List SongInfo)
    (h : ∃ e, Except.error e ∈ items) : ∃ e, scanSongs items acc = .error e := by
  induction items generalizing acc with
  | nil => obtain ⟨e, he⟩ := h; cases he
  | cons x xs ih =>
    cases x with
    | error e => exact ⟨e, rfl⟩
    | ok row =>
      obtain ⟨e, he⟩ := h
      have he2 : Except.error e ∈ xs := by
        rcases List.mem_cons.mp he with h1 | h1
        · cases h1
        · exact h1
      simpa [scanSongs] using ih _ ⟨e, he2⟩

theorem scanVerses_error (items : List (Except DriverError Str)) (acc : List Str)
    (h : ∃ e, Except.error e ∈ items) : ∃ e, scanVerses items acc = .error e := by
  induction items generalizing acc with
  | nil => obtain ⟨e, he⟩ := h; cases he
  | cons x xs ih =>
    cases x with
    | error e => exact ⟨e, rfl⟩
    | ok row =>
      obtain ⟨e, he⟩ := h
      have he2 : Except.error e ∈ xs := by
        rcases List.mem_cons.mp he with h1 | h1
        · cases h1
        · exact h1
      simpa [scanVerses] using ih _ ⟨e, he2⟩

theorem collectSongs_failed (res : QueryResult SongRow) (h : res.failed) :
    (collectSongs res).2 ≠ none ∧ (collectSongs res).1 = [] := by
  cases res with
  | fail e => simp [collectSongs]
  | rows r =>
    unfold collectSongs
    simp only []
    cases hs : scanSongs r.items [] with
    | error e => simp
    | ok songs =>
      rcases h with h | h
      · obtain ⟨e, he⟩ := scanSongs_error r.items [] h
        rw [hs] at he; cases he
      · cases he : r.err with
        | none => exact absurd he h
        | some e => simp

theorem UpdateSongInfo_eq {σ : Type} (pool : Pool σ) (st : σ) (song : SongInfo) :
    UpdateSongInfo pool st song =
      match pool.update_song_info st (updateArgs song) with
      | (some (.PgError code msg), st) =>
        if code = "P0001" then (some .SongNotFound, st)
        else (some (.driver (.PgError code msg)), st)
      | (some e, st) => (some (.driver e), st)
      | (none, st) => (none, st) := by
  unfold UpdateSongInfo updateArgs parsedOrZero
  rfl

/-- C18: no repository operation swallows a storage error.  For the three reads,
whenever the query, a row scan or the row iteration reports an error, the
operation returns a non-nil error and an empty result; `AddSong`,
`UpdateSongInfo` and `DeleteSong` return a non-nil error whenever their storage
call reports one. -/
theorem storage_errors_surface {σ : Type} (pool : Pool σ) (st : σ) :
    (∀ hint, (pool.get_songs_info st hint.PrevSong hint.PrevGroup hint.Limit).failed →
      (GetSongsInfo pool st hint).2 ≠ none ∧ (GetSongsInfo pool st hint).1 = []) ∧
    (∀ group hint, (pool.get_group_songs_info st group hint.PrevSong hint.Limit).failed →
      (GetGroupSongsInfo pool st group hint).2 ≠ none ∧
      (GetGroupSongsInfo pool st group hint).1 = []) ∧
    (∀ id offset limit, (pool.get_song_verses st id offset limit).failed →
      (GetSongLyrics pool st id offset limit).2 ≠ none ∧
      (GetSongLyrics pool st id offset limit).1 = []) ∧
    (∀ song t e, Parse song.ReleaseDate = .ok t →
      (pool.add_song st ⟨song.Title, song.Group, t, song.Link,
        Split song.Lyrics verseSep⟩).1 = .error e →
      (AddSong pool st song).1 = (0, some (.driver e))) ∧
    (∀ song e, (pool.update_song_info st (updateArgs song)).1 = some e →
      (UpdateSongInfo pool st song).1 ≠ none) ∧
    (∀ id e, (pool.delete_song st id).1 = some e →
      (DeleteSong pool st id).1 = some (.wrapped "error deleting song" e)) := by
  refine ⟨?_, ?_, ?_, ?_, ?_, ?_⟩
  · intro hint h
    exact collectSongs_failed _ h
  · intro group hint h
    exact collectSongs_failed _ h
  · intro id offset limit h
    unfold GetSongLyrics
    cases hq : pool.get_song_verses st id offset limit with
    | fail e => simp
    | rows r =>
      rw [hq] at h
      simp only []
      cases hs : scanVerses r.items [] with
      | error e => simp
      | ok verses =>
        rcases h with h | h
        · obtain ⟨e, he⟩ := scanVerses_error r.items [] h
          rw [hs] at he; cases he
        · cases he : r.err with
          | none => exact absurd he h
          | some e =>
            cases e with
            | other m => simp
            | PgError code msg =>
              by_cases hc : code = "P0001" <;> simp [hc]
  · intro song t e hp he
    unfold AddSong
    simp only [hp]
    rcases hadd : pool.add_song st ⟨song.Title, song.Group, t, song.Link,
      Split song.Lyrics verseSep⟩ with ⟨r, st1⟩
    rw [hadd] at he
    simp only at he
    subst he
    rfl
  · intro song e he
    rw [UpdateSongInfo_eq]
    rcases hu : pool.update_song_info st (updateArgs song) with ⟨r, st1⟩
    rw [hu] at he
    simp only at he
    subst he
    cases e with
    | other m => simp
    | PgError code msg =>
      by_cases hc : code = "P0001" <;> simp [hc]
  · intro id e he
    unfold DeleteSong
    rcases hd : pool.delete_song st id with ⟨r, st1⟩
    rw [hd] at he
    simp only at he
    subst he
    rfl

/-- A pool whose every statement fails with a timeout: each of the six
operations returns an error. -/
theorem storage_errors_surface_witness :
    (GetSongsInfo (failingPool (.other "timeout")) () ⟨[], [], 10⟩).2 ≠ none ∧
    (GetGroupSongsInfo (failingPool (.other "timeout")) () "Muse".toList ⟨[], [], 10⟩).2 ≠
      none ∧
    (GetSongLyrics (failingPool (.other "timeout")) () 1 0 20).2 ≠ none ∧
    (AddSong (failingPool (.other "timeout")) () yellowSong).1 =
      (0, some (.driver (.other "timeout"))) ∧
    (UpdateSongInfo (failingPool (.other "timeout")) () ⟨1, [], "Sus".toList, [], []⟩).1 ≠
      none ∧
    (DeleteSong (failingPool (.other "timeout")) () 1).1 =
      some (.wrapped "error deleting song" (.other "timeout")) :=
  ⟨((storage_errors_surface (failingPool (.other "timeout")) ()).1 ⟨[], [], 10⟩ trivial).1,
    ((storage_errors_surface (failingPool (.other "timeout")) ()).2.1 "Muse".toList
      ⟨[], [], 10⟩ trivial).1,
    ((storage_errors_surface (failingPool (.other "timeout")) ()).2.2.1 1 0 20 trivial).1,
    (storage_errors_surface (failingPool (.other "timeout")) ()).2.2.2.1 yellowSong
      ⟨2000, 6, 26⟩ (.other "timeout") (by rfl) rfl,
    (storage_errors_surface (failingPool (.other "timeout")) ()).2.2.2.2.1
      ⟨1, [], "Sus".toList, [], []⟩ (.other "timeout") rfl,
    (storage_errors_surface (failingPool (.other "timeout")) ()).2.2.2.2.2 1
      (.other "timeout") rfl⟩

theorem parsedOrZero_of_not_date (s : Str) (h : isDateDDMMYYYY s = false) :
    parsedOrZero s = Time.zero := by
  obtain ⟨e, he⟩ := (Parse_error_iff s).mpr h
  simp [parsedOrZero, he]

theorem UpdateSongInfo_recorded (calls : List UpdateSongArgs) (song : SongInfo) :
    UpdateSongInfo updateRecorder calls song = (none, calls ++ [updateArgs song]) := by
  rw [UpdateSongInfo_eq]
  rfl

/-- C19: in `UpdateSongInfo` the release date 01.01.0001 parses to the zero time,
the value substituted when parsing fails; so two updates that differ only in
that the release date is 01.01.0001 in one and unparsable in the other send the
same arguments to storage, and have the same result on every pool. -/
theorem zero_date_is_absent {σ : Type} (pool : Pool σ) (st : σ) (a b : SongInfo)
    (ha : a.ReleaseDate = "01.01.0001".toList) (hb : isDateDDMMYYYY b.ReleaseDate = false)
    (hid : a.ID = b.ID) (htitle : a.Title = b.Title) (hgroup : a.Group = b.Group)
    (hlink : a.Link = b.Link) :
    Parse "01.01.0001".toList = .ok Time.zero ∧
    updateArgs a = ⟨a.ID, a.Title, a.Group, Time.zero, a.Link⟩ ∧
    updateArgs a = updateArgs b ∧
    (∀ calls, (UpdateSongInfo updateRecorder calls a).2 =
      (UpdateSongInfo updateRecorder calls b).2) ∧
    UpdateSongInfo pool st a = UpdateSongInfo pool st b := by
  have hp : Parse "01.01.0001".toList = .ok Time.zero := by rfl
  have hza : parsedOrZero a.ReleaseDate = Time.zero := by
    rw [ha]; unfold parsedOrZero; rw [hp]
  have hzb := parsedOrZero_of_not_date b.ReleaseDate hb
  have hargs : updateArgs a = updateArgs b := by
    simp [updateArgs, hza, hzb, hid, htitle, hgroup, hlink]
  refine ⟨hp, ?_, hargs, ?_, ?_⟩
  · simp [updateArgs, hza]
  · intro calls
    rw [UpdateSongInfo_recorded, UpdateSongInfo_recorded, hargs]
  · rw [UpdateSongInfo_eq, UpdateSongInfo_eq, hargs]

/-- An update of the group with the date 01.01.0001 and one with the date left
out, on the database of the update tests. -/
theorem zero_date_is_absent_witness :
    UpdateSongInfo pgPool museDB ⟨1, [], "Sus".toList, "01.01.0001".toList, []⟩ =
      UpdateSongInfo pgPool museDB ⟨1, [], "Sus".toList, [], []⟩ ∧
    (UpdateSongInfo updateRecorder [] ⟨1, [], "Sus".toList, "01.01.0001".toList, []⟩).2 =
      (UpdateSongInfo updateRecorder [] ⟨1, [], "Sus".toList, [], []⟩).2 :=
  ⟨(zero_date_is_absent pgPool museDB ⟨1, [], "Sus".toList, "01.01.0001".toList, []⟩
      ⟨1, [], "Sus".toList, [], []⟩ rfl (by decide) rfl rfl rfl rfl).2.2.2.2,
    (zero_date_is_absent pgPool museDB ⟨1, [], "Sus".toList, "01.01.0001".toList, []⟩
      ⟨1, [], "Sus".toList, [], []⟩ rfl (by decide) rfl rfl rfl rfl).2.2.2.1 []⟩

theorem update_keeps_dates_of_zero (db : DB) (a : UpdateSongArgs)
    (h : a.releaseDate = Time.zero) :
    (Pg.update_song_info db a).2.songs.map (fun s => s.releaseDate) =
      db.songs.map (fun s => s.releaseDate) := by
  unfold Pg.update_song_info
  split
  · simp only [List.map_map]
    apply List.map_congr_left
    intro s _
    by_cases hs : s.id = a.id <;> simp [hs, h]
  · rfl

/-- C12: for every update whose release date is not a date in the format
DD.MM.YYYY, the empty string included, `UpdateSongInfo` passes the zero date to
storage with the other fields as given, behaves as for the update with the
date left out, and returns what the storage call determines: no error exactly
when the storage call reports none, and the state the storage call leaves.  The
stored procedure then leaves every stored release date unchanged. -/
theorem unparsable_date_is_absent {σ : Type} (pool : Pool σ) (st : σ) (song : SongInfo)
    (h : isDateDDMMYYYY song.ReleaseDate = false) :
    updateArgs song = ⟨song.ID, song.Title, song.Group, Time.zero, song.Link⟩ ∧
    (∀ calls, (UpdateSongInfo updateRecorder calls song).2 =
      calls ++ [⟨song.ID, song.Title, song.Group, Time.zero, song.Link⟩]) ∧
    UpdateSongInfo pool st song =
      UpdateSongInfo pool st ⟨song.ID, song.Title, song.Group, [], song.Link⟩ ∧
    ((UpdateSongInfo pool st song).1 = none ↔
      (pool.update_song_info st
        ⟨song.ID, song.Title, song.Group, Time.zero, song.Link⟩).1 = none) ∧
    (UpdateSongInfo pool st song).2 =
      (pool.update_song_info st ⟨song.ID, song.Title, song.Group, Time.zero, song.Link⟩).2 ∧
    (∀ db : DB, (UpdateSongInfo pgPool db song).2.songs.map (fun s => s.releaseDate) =
      db.songs.map (fun s => s.releaseDate)) := by
  have hz := parsedOrZero_of_not_date song.ReleaseDate h
  have hargs : updateArgs song = ⟨song.ID, song.Title, song.Group, Time.zero, song.Link⟩ := by
    simp [updateArgs, hz]
  have hargs0 : updateArgs ⟨song.ID, song.Title, song.Group, [], song.Link⟩ =
      ⟨song.ID, song.Title, song.Group, Time.zero, song.Link⟩ := by
    simp [updateArgs, parsedOrZero_of_not_date [] (by decide)]
  have hres : ∀ {τ : Type} (p : Pool τ) (s : τ),
      ((UpdateSongInfo p s song).1 = none ↔
        (p.update_song_info s ⟨song.ID, song.Title, song.Group, Time.zero, song.Link⟩).1 =
          none) ∧
      (UpdateSongInfo p s song).2 =
        (p.update_song_info s ⟨song.ID, song.Title, song.Group, Time.zero, song.Link⟩).2 := by
    intro τ p s
    rw [UpdateSongInfo_eq, hargs]
    rcases hu : p.update_song_info s ⟨song.ID, song.Title, song.Group, Time.zero,
      song.Link⟩ with ⟨r, s1⟩
    cases r with
    | none => simp
    | some e =>
      cases e with
      | other m => simp
      | PgError code msg => by_cases hc : code = "P0001" <;> simp [hc]
  refine ⟨hargs, ?_, ?_, (hres pool st).1, (hres pool st).2, ?_⟩
  · intro calls
    rw [UpdateSongInfo_recorded, hargs]
  · rw [UpdateSongInfo_eq, UpdateSongInfo_eq, hargs, hargs0]
  · intro db
    rw [(hres pgPool db).2]
    exact update_keeps_dates_of_zero db _ rfl

/-- The update of `TestUpdateSong_Group`, whose body has no release date: the
zero date goes to storage and the stored date stays 16.07.2006. -/
theorem unparsable_date_is_absent_witness :
    (UpdateSongInfo updateRecorder [] ⟨1, [], "Sus".toList, [], []⟩).2 =
      [] ++ [⟨1, [], "Sus".toList, Time.zero, []⟩] ∧
    (UpdateSongInfo pgPool museDB ⟨1, [], "Sus".toList, [], []⟩).2.songs.map
      (fun s => s.releaseDate) = museDB.songs.map (fun s => s.releaseDate) ∧
    (UpdateSongInfo pgPool museDB ⟨1, [], "Sus".toList, "2006-07-19".toList, []⟩).1 = none :=
  ⟨(unparsable_date_is_absent pgPool museDB ⟨1, [], "Sus".toList, [], []⟩ (by decide)).2.1 [],
    (unparsable_date_is_absent pgPool museDB ⟨1, [], "Sus".toList, [], []⟩
      (by decide)).2.2.2.2.2 museDB,
    (unparsable_date_is_absent pgPool museDB ⟨1, [], "Sus".toList, "2006-07-19".toList, []⟩
      (by decide)).2.2.2.1.mpr (by decide)⟩

theorem update_unknown_id (db : DB) (a : UpdateSongArgs) (h : ∀ s ∈ db.songs, s.id ≠ a.id) :
    Pg.update_song_info db a = (some songNotFoundException, db) := by
  have hany : db.songs.any (fun s => decide (s.id = a.id)) = false := by
    rw [List.any_eq_false]
    intro s hs
    simpa using h s hs
  simp [Pg.update_song_info, hany]

/-- C13: `UpdateSongInfo` returns `SongNotFound` exactly when the storage call
fails with a PostgreSQL error of code `P0001`, and returns any other storage
error as it came; `updateSongHandler` answers 404 exactly for `SongNotFound`,
500 exactly for any other error and 200 without one; and when no entry has the
given id the stored procedure raises that error, so the update fails with
`SongNotFound` and leaves the database as it was. -/
theorem update_not_found {σ : Type} (pool : Pool σ) (st : σ) (song : SongInfo) :
    ((UpdateSongInfo pool st song).1 = some .SongNotFound ↔
      ∃ msg, (pool.update_song_info st (updateArgs song)).1 = some (.PgError "P0001" msg)) ∧
    (∀ e, (pool.update_song_info st (updateArgs song)).1 = some e →
      (∀ msg, e ≠ .PgError "P0001" msg) → (UpdateSongInfo pool st song).1 = some (.driver e)) ∧
    (∀ (r : UpdateRequest) (id : Int) (patch : SongPatch), parseID r.toRequest = .ok id →
      r.Body = some patch → song = patch.decodeInto ⟨id, [], [], [], []⟩ →
      ((updateSongHandler pool st r).1.StatusCode = 404 ↔
        (UpdateSongInfo pool st song).1 = some .SongNotFound) ∧
      ((updateSongHandler pool st r).1.StatusCode = 500 ↔
        ∃ e, (UpdateSongInfo pool st song).1 = some e ∧ e ≠ .SongNotFound) ∧
      ((updateSongHandler pool st r).1.StatusCode = 200 ↔
        (UpdateSongInfo pool st song).1 = none)) ∧
    (∀ db : DB, (∀ s ∈ db.songs, s.id ≠ song.ID) →
      UpdateSongInfo pgPool db song = (some .SongNotFound, db)) := by
  refine ⟨?_, ?_, ?_, ?_⟩
  · rw [UpdateSongInfo_eq]
    rcases hu : pool.update_song_info st (updateArgs song) with ⟨r, st1⟩
    cases r with
    | none => simp
    | some e =>
      cases e with
      | other m => simp
      | PgError code msg => by_cases hc : code = "P0001" <;> simp [hc]
  · intro e he hne
    rw [UpdateSongInfo_eq]
    rcases hu : pool.update_song_info st (updateArgs song) with ⟨r, st1⟩
    rw [hu] at he
    simp only at he
    subst he
    cases e with
    | other m => simp
    | PgError code msg =>
      have hc : code ≠ "P0001" := fun h => hne msg (by rw [h])
      simp [hc]
  · intro r id patch hid hbody hsong
    unfold updateSongHandler
    rw [hid, hbody]
    simp only [← hsong]
    rcases hres : UpdateSongInfo pool st song with ⟨err, st1⟩
    cases err with
    | none => simp
    | some e =>
      by_cases hnf : e = Error.SongNotFound <;> simp [hnf]
  · intro db hdb
    rw [UpdateSongInfo_eq]
    have := update_unknown_id db (updateArgs song) hdb
    simp only [pgPool, this, songNotFoundException]
    rfl

/-- The request of `TestUpdateSong_NotFound`, an update of id 1 on an empty
database, and a driver failure on the same request. -/
theorem update_not_found_witness :
    (updateSongHandler pgPool ⟨[], 0⟩
      (updateRequest "1" (some ⟨none, none, some "Sus".toList, none, none⟩))).1.StatusCode =
        404 ∧
    UpdateSongInfo pgPool ⟨[], 0⟩ ⟨1, [], "Sus".toList, [], []⟩ =
      (some .SongNotFound, ⟨[], 0⟩) ∧
    (UpdateSongInfo (failingPool (.other "timeout")) () ⟨1, [], "Sus".toList, [], []⟩).1 =
      some (.driver (.other "timeout")) :=
  ⟨((update_not_found pgPool ⟨[], 0⟩ ⟨1, [], "Sus".toList, [], []⟩).2.2.1
      (updateRequest "1" (some ⟨none, none, some "Sus".toList, none, none⟩)) 1
      ⟨none, none, some "Sus".toList, none, none⟩ (by rfl) rfl rfl).1.mpr (by decide),
    (update_not_found pgPool ⟨[], 0⟩ ⟨1, [], "Sus".toList, [], []⟩).2.2.2 ⟨[], 0⟩
      (by decide),
    (update_not_found (failingPool (.other "timeout")) () ⟨1, [], "Sus".toList, [], []⟩).2.1
      (.other "timeout") rfl (fun _ h => nomatch h)⟩

/-- C14: `DeleteSong` returns nil whenever the storage statement executes
without error, whatever it removed, and `deleteSongHandler` then answers 204.
On the database the statement never fails: deleting an id succeeds, deleting
it again succeeds and leaves the catalogue as the first delete left it, and
deleting an id that no entry has leaves the catalogue unchanged. -/
theorem delete_is_idempotent {σ : Type} (pool : Pool σ) (st : σ) (id : Int) :
    ((pool.delete_song st id).1 = none →
      DeleteSong pool st id = (none, (pool.delete_song st id).2) ∧
      ∀ r : Request, parseID r = .ok id →
        deleteSongHandler pool st r = (⟨204, none⟩, (pool.delete_song st id).2)) ∧
    (∀ db : DB, (DeleteSong pgPool db id).1 = none ∧
      DeleteSong pgPool (DeleteSong pgPool db id).2 id = (none, (DeleteSong pgPool db id).2)) ∧
    (∀ db : DB, (∀ s ∈ db.songs, s.id ≠ id) → DeleteSong pgPool db id = (none, db)) := by
  refine ⟨?_, ?_, ?_⟩
  · intro h
    have hd : DeleteSong pool st id = (none, (pool.delete_song st id).2) := by
      unfold DeleteSong
      rcases hp : pool.delete_song st id with ⟨r, st1⟩
      rw [hp] at h
      simp only at h
      subst h
      rfl
    refine ⟨hd, ?_⟩
    intro r hr
    unfold deleteSongHandler
    rw [hr]
    simp only [hd]
  · intro db
    refine ⟨rfl, ?_⟩
    simp only [DeleteSong, pgPool, Pg.delete_song, List.filter_filter, Bool.and_self]
  · intro db hdb
    have hf : db.songs.filter (fun s => decide (s.id ≠ id)) = db.songs := by
      rw [List.filter_eq_self]
      intro s hs
      simpa using hdb s hs
    simp only [DeleteSong, pgPool, Pg.delete_song, hf]

/-- Deleting id 1 from the database of the update tests twice, through the
handler: 204 both times, and the second delete changes nothing. -/
theorem delete_is_idempotent_witness :
    deleteSongHandler pgPool museDB (lyricsRequest "1") = (⟨204, none⟩, ⟨[], 1⟩) ∧
    deleteSongHandler pgPool ⟨[], 1⟩ (lyricsRequest "1") = (⟨204, none⟩, ⟨[], 1⟩) ∧
    DeleteSong pgPool (DeleteSong pgPool museDB 1).2 1 = (none, (DeleteSong pgPool museDB 1).2) :=
  ⟨((delete_is_idempotent pgPool museDB 1).1 rfl).2 (lyricsRequest "1") (by rfl),
    ((delete_is_idempotent pgPool ⟨[], 1⟩ 1).1 rfl).2 (lyricsRequest "1") (by rfl),
    ((delete_is_idempotent pgPool museDB 1).2.1 museDB).2⟩

/-! ### The not-found condition of the verse window -/

/-- C7: whenever storage reports the song-not-found condition during the
verse-window read, which is a PostgreSQL error with code `P0001` at
`rows.Err()`, where the driver delivers the exception that the stored function
raises, `GetSongLyrics` returns `SongNotFound` with no lyrics, and the handler
answers 404 exactly for `SongNotFound`.  `SongNotFound` is returned in no other
case, the read succeeds only when the query, every row scan and the row
iteration report no error, and every storage failure gives a non-nil error, so
any other storage failure comes back as an error that is not `SongNotFound`.
On the database an id that no song has gives `SongNotFound`, and an id that a
song has gives no error. -/
theorem not_found_is_distinguished {σ : Type} (pool : Pool σ) (st : σ) (id offset limit : Int) :
    ((GetSongLyrics pool st id offset limit).2 = some .SongNotFound ↔
      ∃ r verses msg, pool.get_song_verses st id offset limit = .rows r ∧
        scanVerses r.items [] = .ok verses ∧ r.err = some (.PgError "P0001" msg)) ∧
    ((GetSongLyrics pool st id offset limit).2 = none ↔
      ∃ r verses, pool.get_song_verses st id offset limit = .rows r ∧
        scanVerses r.items [] = .ok verses ∧ r.err = none) ∧
    ((GetSongLyrics pool st id offset limit).2 ≠ none →
      (GetSongLyrics pool st id offset limit).1 = []) ∧
    (∀ r : Request, parseSongLyricsParams r = .ok ⟨id, offset, limit⟩ →
      ((getSongLyricsHandler pool st r).StatusCode = 404 ↔
        (GetSongLyrics pool st id offset limit).2 = some .SongNotFound) ∧
      ((getSongLyricsHandler pool st r).StatusCode = 200 ↔
        (GetSongLyrics pool st id offset limit).2 = none)) ∧
    ((pool.get_song_verses st id offset limit).failed →
      (GetSongLyrics pool st id offset limit).2 ≠ none) ∧
    (∀ db : DB,
      ((∀ s ∈ db.songs, s.id ≠ id) →
        GetSongLyrics pgPool db id offset limit = ([], some .SongNotFound)) ∧
      ((∃ s ∈ db.songs, s.id = id) →
        (GetSongLyrics pgPool db id offset limit).2 = none)) := by
  have hnone : (GetSongLyrics pool st id offset limit).2 = none ↔
      ∃ r verses, pool.get_song_verses st id offset limit = .rows r ∧
        scanVerses r.items [] = .ok verses ∧ r.err = none := by
    unfold GetSongLyrics
    cases hq : pool.get_song_verses st id offset limit with
    | fail e => simp
    | rows r =>
      cases hsc : scanVerses r.items [] with
      | error e => simp [hsc]
      | ok verses =>
        cases he : r.err with
        | none => simp [hsc, he]
        | some e =>
          cases e with
          | other m => simp [hsc, he]
          | PgError code msg =>
            by_cases hc : code = "P0001"
            · simp [hsc, he, hc]
            · simp [hsc, he, hc]
  refine ⟨?_, hnone, ?_, ?_, ?_, ?_⟩
  · unfold GetSongLyrics
    cases hq : pool.get_song_verses st id offset limit with
    | fail e => simp
    | rows r =>
      cases hsc : scanVerses r.items [] with
      | error e => simp [hsc]
      | ok verses =>
        cases he : r.err with
        | none => simp [hsc, he]
        | some e =>
          cases e with
          | other m => simp [hsc, he]
          | PgError code msg =>
            by_cases hc : code = "P0001"
            · simp [hsc, he, hc]
            · simp [hsc, he, hc]
  · unfold GetSongLyrics
    cases hq : pool.get_song_verses st id offset limit with
    | fail e => simp
    | rows r =>
      cases hsc : scanVerses r.items [] with
      | error e => simp [hsc]
      | ok verses =>
        cases he : r.err with
        | none => simp [hsc, he]
        | some e =>
          cases e with
          | other m => simp [hsc, he]
          | PgError code msg =>
            by_cases hc : code = "P0001"
            · simp [hsc, he, hc]
            · simp [hsc, he, hc]
  · intro r hr
    unfold getSongLyricsHandler
    rw [hr]
    simp only []
    rcases hres : GetSongLyrics pool st id offset limit with ⟨lyrics, err⟩
    cases err with
    | none => simp
    | some e =>
      by_cases hnf : e = Error.SongNotFound
      · simp [hnf]
      · simp [hnf]
  · intro hf hn
    obtain ⟨r, verses, hq, hsc, he⟩ := hnone.mp hn
    rw [hq] at hf
    rcases hf with hf | hf
    · obtain ⟨e, he2⟩ := scanVerses_error r.items [] hf
      rw [hsc] at he2
      exact absurd he2 (by simp)
    · exact hf he
  · intro db
    constructor
    · intro hall
      apply GetSongLyrics_missing
      rw [List.find?_eq_none]
      intro s hs
      simpa using hall s hs
    · rintro ⟨s, hs, hid⟩
      cases hfind : db.songs.find? (fun s => decide (s.id = id)) with
      | none =>
        rw [List.find?_eq_none] at hfind
        have := hfind s hs
        simp [hid] at this
      | some s1 => rw [GetSongLyrics_found db s1 id offset limit hfind]

/-- The database of the sample song: an id that no song has gives `SongNotFound`
and 404, the sample song gives its lyrics and 200; an exception with code
`P0001` at the end of the row iteration gives 404, and a query that times out
gives an error. -/
theorem not_found_is_distinguished_witness :
    (GetSongLyrics pgPool sampleDB 2 0 20).2 = some .SongNotFound ∧
    (getSongLyricsHandler pgPool sampleDB (lyricsRequest "2")).StatusCode = 404 ∧
    (getSongLyricsHandler pgPool sampleDB (lyricsRequest "1")).StatusCode = 200 ∧
    GetSongLyrics pgPool sampleDB 2 0 20 = ([], some .SongNotFound) ∧
    (GetSongLyrics (versePool (.rows ⟨[], some songNotFoundException⟩)) () 1 0 20).2 =
      some .SongNotFound ∧
    (GetSongLyrics (versePool (.fail (.other "timeout"))) () 1 0 20).2 ≠ none :=
  ⟨(not_found_is_distinguished pgPool sampleDB 2 0 20).1.mpr
      ⟨⟨[], some songNotFoundException⟩, [], "song not found", rfl, rfl, rfl⟩,
    ((not_found_is_distinguished pgPool sampleDB 2 0 20).2.2.2.1 (lyricsRequest "2") rfl).1.mpr
      (by decide),
    ((not_found_is_distinguished pgPool sampleDB 1 0 20).2.2.2.1 (lyricsRequest "1") rfl).2.mpr
      (by decide),
    ((not_found_is_distinguished pgPool sampleDB 2 0 20).2.2.2.2.2 sampleDB).1 (by decide),
    (not_found_is_distinguished (versePool (.rows ⟨[], some songNotFoundException⟩)) ()
      1 0 20).1.mpr ⟨⟨[], some songNotFoundException⟩, [], "song not found", rfl, rfl, rfl⟩,
    (not_found_is_distinguished (versePool (.fail (.other "timeout"))) () 1 0 20).2.2.2.2.1
      trivial⟩

/-! ### Updates and deletes on the catalogue -/

theorem update_known_id (db : DB) (a : UpdateSongArgs) (h : ∃ s ∈ db.songs, s.id = a.id) :
    Pg.update_song_info db a =
      (none, ⟨db.songs.map (fun s =>
        if s.id = a.id then
          ⟨⟨s.id,
            if a.title = [] then s.title else a.title,
            if a.group = [] then s.group else a.group,
            if a.releaseDate = Time.zero then s.releaseDate else a.releaseDate,
            if a.link = [] then s.link else a.link⟩, s.verses⟩
        else s), db.lastId⟩) := by
  have hany : db.songs.any (fun s => decide (s.id = a.id)) = true := by
    rw [List.any_eq_true]
    obtain ⟨s, hs, hid⟩ := h
    exact ⟨s, hs, by simpa using hid⟩
  simp only [Pg.update_song_info, hany, if_true]

theorem update_keeps_verses (db : DB) (a : UpdateSongArgs) :
    (Pg.update_song_info db a).2.songs.map (fun s => (s.id, s.verses)) =
      db.songs.map (fun s => (s.id, s.verses)) := by
  unfold Pg.update_song_info
  split
  · simp only [List.map_map]
    apply List.map_congr_left
    intro s _
    by_cases hs : s.id = a.id <;> simp [hs]
  · rfl

theorem UpdateSongInfo_pg_state (db : DB) (song : SongInfo) :
    (UpdateSongInfo pgPool db song).2 = (Pg.update_song_info db (updateArgs song)).2 := by
  rw [UpdateSongInfo_eq]
  simp only [pgPool]
  rcases hu : Pg.update_song_info db (updateArgs song) with ⟨r, st1⟩
  cases r with
  | none => rfl
  | some e =>
    cases e with
    | other m => rfl
    | PgError code msg => by_cases hc : code = "P0001" <;> simp [hc]

/-- C11, the claim as stated fails: on the database of the update tests, the
update that carries only the well-formed release date 01.01.0001 succeeds and
changes nothing; the entry keeps its release date 16.07.2006, as after the
update that carries no field at all. -/
theorem zero_date_update_changes_nothing :
    isDateDDMMYYYY "01.01.0001".toList = true ∧
    UpdateSongInfo pgPool museDB ⟨1, [], [], "01.01.0001".toList, []⟩ = (none, museDB) ∧
    UpdateSongInfo pgPool museDB ⟨1, [], [], "01.01.0001".toList, []⟩ =
      UpdateSongInfo pgPool museDB ⟨1, [], [], [], []⟩ ∧
    (UpdateSongInfo pgPool museDB ⟨1, [], [], "01.01.0001".toList, []⟩).2.songs.map
      (fun s => s.releaseDate) = [⟨2006, 7, 16⟩] ∧
    (UpdateSongInfo pgPool museDB ⟨1, [], [], "01.01.0001".toList, []⟩).2.songs.map
      (fun s => s.releaseDate) ≠ [⟨1, 1, 1⟩] := by
  decide

/-- C11 as amended: for every existing entry, an update carrying only a group sets
the group of the entry with that id and leaves its id, title, release date,
link and verses, and every other entry, unchanged; an update carrying only a
release date other than 01.01.0001 sets the release date and leaves everything
else unchanged, while one carrying only a release date that parses to the zero
date, which is 01.01.0001, changes nothing; and no update, whatever it carries,
changes the id or the verses of any entry. -/
theorem update_merges_present_fields (db : DB) (id : Int) (h : ∃ s ∈ db.songs, s.id = id) :
    (∀ g : Str, g ≠ [] →
      UpdateSongInfo pgPool db ⟨id, [], g, [], []⟩ =
        (none, ⟨db.songs.map (fun s =>
          if s.id = id then ⟨⟨s.id, s.title, g, s.releaseDate, s.link⟩, s.verses⟩ else s),
            db.lastId⟩)) ∧
    (∀ (d : Str) (t : Time), Parse d = .ok t → t ≠ Time.zero →
      UpdateSongInfo pgPool db ⟨id, [], [], d, []⟩ =
        (none, ⟨db.songs.map (fun s =>
          if s.id = id then ⟨⟨s.id, s.title, s.group, t, s.link⟩, s.verses⟩ else s),
            db.lastId⟩)) ∧
    (∀ d : Str, (UpdateSongInfo pgPool db ⟨id, [], [], d, []⟩).2.songs.map
        (fun s => (s.id, s.title, s.group, s.link, s.verses)) =
      db.songs.map (fun s => (s.id, s.title, s.group, s.link, s.verses))) ∧
    (∀ song : SongInfo, (UpdateSongInfo pgPool db song).2.songs.map
        (fun s => (s.id, s.verses)) = db.songs.map (fun s => (s.id, s.verses))) ∧
    (∀ d : Str, Parse d = .ok Time.zero →
      UpdateSongInfo pgPool db ⟨id, [], [], d, []⟩ = (none, db)) := by
  refine ⟨?_, ?_, ?_, ?_, ?_⟩
  · intro g hg
    rw [UpdateSongInfo_eq]
    have hargs : updateArgs ⟨id, [], g, [], []⟩ = ⟨id, [], g, Time.zero, []⟩ := by
      simp [updateArgs, parsedOrZero_of_not_date [] (by decide)]
    simp only [pgPool, hargs, update_known_id db ⟨id, [], g, Time.zero, []⟩ h, hg, if_true,
      if_false]
  · intro d t hp ht
    rw [UpdateSongInfo_eq]
    have hargs : updateArgs ⟨id, [], [], d, []⟩ = ⟨id, [], [], t, []⟩ := by
      simp [updateArgs, parsedOrZero, hp]
    simp only [pgPool, hargs, update_known_id db ⟨id, [], [], t, []⟩ h, ht, if_true, if_false]
  · intro d
    rw [UpdateSongInfo_pg_state, update_known_id db _ h]
    simp only [List.map_map]
    apply List.map_congr_left
    intro s _
    by_cases hs : s.id = id <;> simp [updateArgs, hs]
  · intro song
    rw [UpdateSongInfo_pg_state]
    exact update_keeps_verses db _
  · intro d hp
    rw [UpdateSongInfo_eq]
    have hargs : updateArgs ⟨id, [], [], d, []⟩ = ⟨id, [], [], Time.zero, []⟩ := by
      simp [updateArgs, parsedOrZero, hp]
    have hmap : db.songs.map (fun s =>
        if s.id = id then
          (⟨⟨s.id, s.title, s.group, s.releaseDate, s.link⟩, s.verses⟩ : StoredSong)
        else s) = db.songs := by
      conv_rhs => rw [← List.map_id db.songs]
      apply List.map_congr_left
      intro s _
      by_cases hs : s.id = id
      · rw [if_pos hs]; rfl
      · rw [if_neg hs]; rfl
    simp only [pgPool, hargs, update_known_id db ⟨id, [], [], Time.zero, []⟩ h, if_true, hmap]

/-- The updates of `TestUpdateSong_Group` and `TestUpdateSong_Date`, followed by
the listing: the group becomes Sus, respectively the date 19.06.2006, and the
other fields are those of the song as added; and the update with the date
01.01.0001 leaves the database as it was. -/
theorem update_merges_present_fields_witness :
    GetSongsInfo pgPool (UpdateSongInfo pgPool museDB ⟨1, [], "Sus".toList, [], []⟩).2
      ⟨[], [], 10⟩ =
      ([⟨1, "Supermassive Black Hole".toList, "Sus".toList, "16.07.2006".toList,
        "https://www.youtube.com/watch?v=Xsp3_a-PMTw".toList⟩], none) ∧
    GetSongsInfo pgPool
      (UpdateSongInfo pgPool museDB ⟨1, [], [], "19.06.2006".toList, []⟩).2 ⟨[], [], 10⟩ =
      ([⟨1, "Supermassive Black Hole".toList, "Muse".toList, "19.06.2006".toList,
        "https://www.youtube.com/watch?v=Xsp3_a-PMTw".toList⟩], none) ∧
    UpdateSongInfo pgPool museDB ⟨1, [], [], "01.01.0001".toList, []⟩ = (none, museDB) := by
  have h := update_merges_present_fields museDB 1 (by decide)
  rw [h.1 "Sus".toList (by decide), h.2.1 "19.06.2006".toList ⟨2006, 6, 19⟩ (by rfl) (by decide),
    h.2.2.2.2 "01.01.0001".toList (by rfl)]
  decide

/-- C15: for every catalogue and every id, after deleting that id the catalogue
holds exactly the prior entries whose id differs from it, each with its id,
title, group, release date and link unchanged, so every page of the listing is
the page over those entries; and a listing whose limit covers the catalogue
returns all of them, in the order of the listing. -/
theorem delete_keeps_other_entries (db : DB) (id : Int) :
    (DeleteSong pgPool db id).2.rows = db.rows.filter (fun r => decide (r.id ≠ id)) ∧
    (∀ hint : PaginationInfo, GetSongsInfo pgPool (DeleteSong pgPool db id).2 hint =
      (((((db.rows.filter (fun r => decide (r.id ≠ id))).filter
        (fun r => decide (seekAll hint.PrevSong hint.PrevGroup r))).insertionSort
          titleGroupLe).take hint.Limit.toNat).map SongRow.toSongInfo, none)) ∧
    (∀ limit : Int, (db.songs.length : Int) ≤ limit →
      ∃ page : List SongRow,
        GetSongsInfo pgPool (DeleteSong pgPool db id).2 ⟨[], [], limit⟩ =
          (page.map SongRow.toSongInfo, none) ∧
        page.Perm (db.rows.filter (fun r => decide (r.id ≠ id))) ∧
        page.Sorted titleGroupLe ∧ ∀ r ∈ page, r ∈ db.rows ∧ r.id ≠ id) := by
  have hrows : (DeleteSong pgPool db id).2.rows =
      db.rows.filter (fun r => decide (r.id ≠ id)) := by
    simp only [DeleteSong, pgPool, Pg.delete_song, DB.rows, List.filter_map]
    rfl
  refine ⟨hrows, ?_, ?_⟩
  · intro hint
    rw [GetSongsInfo_pg, hrows]
  · intro limit hlimit
    refine ⟨(db.rows.filter (fun r => decide (r.id ≠ id))).insertionSort titleGroupLe, ?_,
      List.perm_insertionSort _ _, List.sorted_insertionSort _ _, ?_⟩
    · rw [GetSongsInfo_pg, hrows]
      simp only []
      have hall : (db.rows.filter (fun r => decide (r.id ≠ id))).filter
          (fun r => decide (seekAll [] [] r)) = db.rows.filter (fun r => decide (r.id ≠ id)) := by
        rw [List.filter_eq_self]
        intro r _
        simp [seekAll]
      rw [hall]
      have hlen : ((db.rows.filter (fun r => decide (r.id ≠ id))).insertionSort
          titleGroupLe).length ≤ limit.toNat := by
        rw [List.length_insertionSort]
        have h1 := List.length_filter_le (fun r => decide (r.id ≠ id)) db.rows
        have h2 : db.rows.length = db.songs.length := by simp [DB.rows]
        omega
      rw [List.take_of_length_le hlen]
    · intro r hr
      have := (List.perm_insertionSort titleGroupLe _).mem_iff.mp hr
      simpa [List.mem_filter] using this

/-- `TestDeleteSong`: add two songs, which get the ids 1 and 2, delete id 1, and
the listing returns the single entry with id 2. -/
theorem delete_keeps_other_entries_witness :
    GetSongsInfo pgPool
      (DeleteSong pgPool (AddSong pgPool (AddSong pgPool ⟨[], 0⟩ museSong).2 yellowSong).2 1).2
      ⟨[], [], 10⟩ =
      ([⟨2, "Yellow".toList, "Coldplay".toList, "26.06.2000".toList,
        "https://www.youtube.com/watch?v=yKNxeF4KMsY".toList⟩], none) := by
  rw [(delete_keeps_other_entries
    (AddSong pgPool (AddSong pgPool ⟨[], 0⟩ museSong).2 yellowSong).2 1).2.1 ⟨[], [], 10⟩]
  decide

/-! ### Request parameters -/

theorem digitChar_decimal (k : Nat) (h : k < 10) :
    isDecimal (Nat.digitChar k) = true ∧ digitVal (Nat.digitChar k) = k := by
  interval_cases k <;> exact ⟨by decide, by decide⟩

theorem digitsValue_append (a : Str) (c : Char) :
    digitsValue (a ++ [c]) = digitsValue a * 10 + digitVal c := by
  simp [digitsValue, List.foldl_append]

/-- The digits that `Nat.toDigits` writes in front of its accumulator are decimal
digits that denote the number. -/
theorem toDigitsCore_spec (fuel n : Nat) (ds : Str) (h : n < fuel) :
    ∃ pre : Str, Nat.toDigitsCore 10 fuel n ds = pre ++ ds ∧ pre ≠ [] ∧
      (∀ c ∈ pre, isDecimal c = true) ∧ digitsValue pre = n := by
  induction fuel generalizing n ds with
  | zero => omega
  | succ fuel ih =>
    have hd := digitChar_decimal (n % 10) (Nat.mod_lt _ (by decide))
    unfold Nat.toDigitsCore
    simp only []
    by_cases h0 : n / 10 = 0
    · refine ⟨[Nat.digitChar (n % 10)], by simp [h0], by simp, ?_, ?_⟩
      · intro c hc
        rw [List.mem_singleton.mp hc]; exact hd.1
      · simp only [digitsValue, List.foldl_cons, List.foldl_nil, hd.2]
        omega
    · have hlt : n / 10 < fuel := by omega
      obtain ⟨pre, hpre, hne, hdec, hval⟩ := ih (n / 10) (Nat.digitChar (n % 10) :: ds) hlt
      refine ⟨pre ++ [Nat.digitChar (n % 10)], by simp [h0, hpre], by simp, ?_, ?_⟩
      · intro c hc
        rcases List.mem_append.mp hc with h1 | h1
        · exact hdec c h1
        · rw [List.mem_singleton.mp h1]; exact hd.1
      · rw [digitsValue_append, hval, hd.2]
        omega

theorem toDigits_spec (n : Nat) :
    Nat.toDigits 10 n ≠ [] ∧ (∀ c ∈ Nat.toDigits 10 n, isDecimal c = true) ∧
      digitsValue (Nat.toDigits 10 n) = n := by
  obtain ⟨pre, hpre, hne, hdec, hval⟩ := toDigitsCore_spec (n + 1) n [] (by omega)
  rw [List.append_nil] at hpre
  unfold Nat.toDigits
  rw [hpre]
  exact ⟨hne, hdec, hval⟩

theorem digitsValue_nonneg (s : Str) (h : ∀ c ∈ s, isDecimal c = true) : 0 ≤ digitsValue s := by
  induction s using List.reverseRecOn with
  | nil => simp [digitsValue]
  | append_singleton a c ih =>
    rw [digitsValue_append]
    have h1 := ih (fun x hx => h x (List.mem_append_left _ hx))
    have h2 := digitVal_range c (h c (by simp))
    omega

theorem all_decimal_iff (s : Str) :
    s.all (fun ch => decide ('0' ≤ ch) && decide (ch ≤ '9')) = true ↔
      ∀ c ∈ s, isDecimal c = true := by
  simp [List.all_eq_true, isDecimal]

/-- `strconv.Atoi` on a non-empty string of decimal digits. -/
theorem Atoi_digits (s : Str) (hne : s ≠ []) (hdec : ∀ c ∈ s, isDecimal c = true) :
    Atoi s = if 2 ^ 63 - 1 < digitsValue s then .error () else .ok (digitsValue s) := by
  have hall := (all_decimal_iff s).mpr hdec
  have hnn := digitsValue_nonneg s hdec
  cases s with
  | nil => exact absurd rfl hne
  | cons c cs =>
    have hc := hdec c (List.mem_cons_self _ _)
    have hunf : Atoi (c :: cs) =
        (if (c :: cs).all (fun ch => decide ('0' ≤ ch) && decide (ch ≤ '9')) = true then
          (if digitsValue (c :: cs) < -(2 ^ 63) ∨ 2 ^ 63 - 1 < digitsValue (c :: cs)
            then .error () else .ok (digitsValue (c :: cs)))
        else .error ()) := by
      rcases isDecimal_cases c hc with h | h | h | h | h | h | h | h | h | h <;> subst h <;> rfl
    rw [hunf, if_pos hall]
    have hlow : ¬ (digitsValue (c :: cs) < -(2 ^ 63)) := by omega
    simp only [hlow, false_or]

/-- `strconv.Atoi` on a minus sign followed by decimal digits. -/
theorem Atoi_minus_digits (s : Str) (hne : s ≠ []) (hdec : ∀ c ∈ s, isDecimal c = true) :
    Atoi ('-' :: s) =
      if 2 ^ 63 < digitsValue s then .error () else .ok (-digitsValue s) := by
  have hall := (all_decimal_iff s).mpr hdec
  have hnn := digitsValue_nonneg s hdec
  have hunf : Atoi ('-' :: s) =
      (if s = [] then .error ()
        else if s.all (fun ch => decide ('0' ≤ ch) && decide (ch ≤ '9')) = true then
          (if -digitsValue s < -(2 ^ 63) ∨ 2 ^ 63 - 1 < -digitsValue s
            then .error () else .ok (-digitsValue s))
        else .error ()) := rfl
  rw [hunf, if_neg hne, if_pos hall]
  by_cases hbig : 2 ^ 63 < digitsValue s
  · have : -digitsValue s < -(2 ^ 63) ∨ 2 ^ 63 - 1 < -digitsValue s := Or.inl (by omega)
    rw [if_pos this, if_pos hbig]
  · have : ¬ (-digitsValue s < -(2 ^ 63) ∨ 2 ^ 63 - 1 < -digitsValue s) := by omega
    rw [if_neg this, if_neg hbig]

/-- `strconv.Atoi` reads back the decimal text of every integer that fits `int`,
and rejects the decimal text of every other integer. -/
theorem Atoi_Itoa (n : Int) :
    Atoi (Itoa n) = if -(2 ^ 63) ≤ n ∧ n ≤ 2 ^ 63 - 1 then .ok n else .error () := by
  obtain ⟨hne, hdec, hval⟩ := toDigits_spec n.natAbs
  unfold Itoa
  by_cases hneg : n < 0
  · rw [if_pos hneg, Atoi_minus_digits _ hne hdec, hval]
    have habs : (n.natAbs : Int) = -n := by omega
    rw [habs]
    by_cases hr : -(2 ^ 63) ≤ n ∧ n ≤ 2 ^ 63 - 1
    · have : ¬ ((2 : Int) ^ 63 < -n) := by omega
      rw [if_neg this, if_pos hr]; simp
    · have : (2 : Int) ^ 63 < -n := by omega
      rw [if_pos this, if_neg hr]
  · rw [if_neg hneg, Atoi_digits _ hne hdec, hval]
    have habs : (n.natAbs : Int) = n := by omega
    rw [habs]
    by_cases hr : -(2 ^ 63) ≤ n ∧ n ≤ 2 ^ 63 - 1
    · have : ¬ ((2 : Int) ^ 63 - 1 < n) := by omega
      rw [if_neg this, if_pos hr]
    · have : (2 : Int) ^ 63 - 1 < n := by omega
      rw [if_pos this, if_neg hr]

/-- `strconv.Atoi` on a plus sign followed by decimal digits. -/
theorem Atoi_plus_digits (s : Str) (hne : s ≠ []) (hdec : ∀ c ∈ s, isDecimal c = true) :
    Atoi ('+' :: s) =
      if 2 ^ 63 - 1 < digitsValue s then .error () else .ok (digitsValue s) := by
  have hall := (all_decimal_iff s).mpr hdec
  have hnn := digitsValue_nonneg s hdec
  have hunf : Atoi ('+' :: s) =
      (if s = [] then .error ()
        else if s.all (fun ch => decide ('0' ≤ ch) && decide (ch ≤ '9')) = true then
          (if digitsValue s < -(2 ^ 63) ∨ 2 ^ 63 - 1 < digitsValue s
            then .error () else .ok (digitsValue s))
        else .error ()) := rfl
  rw [hunf, if_neg hne, if_pos hall]
  have hlow : ¬ (digitsValue s < -(2 ^ 63)) := by omega
  simp only [hlow, false_or]

/-- `strconv.Atoi` on a string that does not start with a sign. -/
theorem Atoi_unsigned (c : Char) (cs : Str) (hm : c ≠ '-') (hp : c ≠ '+') :
    Atoi (c :: cs) =
      (if (c :: cs).all (fun ch => decide ('0' ≤ ch) && decide (ch ≤ '9')) = true then
        (if digitsValue (c :: cs) < -(2 ^ 63) ∨ 2 ^ 63 - 1 < digitsValue (c :: cs)
          then .error () else .ok (digitsValue (c :: cs)))
      else .error ()) := by
  unfold Atoi
  split
  · next h => simp at h; exact absurd h.1 hm
  · next h => simp at h; exact absurd h.1 hp
  · simp [digitsValue, hm]

/-- `strconv.Atoi` succeeds with `n` exactly on the decimal texts of the integers
`n` that fit `int`. -/
theorem Atoi_ok_iff (s : Str) (n : Int) :
    Atoi s = .ok n ↔ decimalText s n ∧ -(2 ^ 63) ≤ n ∧ n ≤ 2 ^ 63 - 1 := by
  constructor
  · intro h
    cases s with
    | nil => exact absurd h (by simp [Atoi])
    | cons c cs =>
      by_cases hm : c = '-'
      · subst hm
        have hunf : Atoi ('-' :: cs) =
            (if cs = [] then .error ()
              else if cs.all (fun ch => decide ('0' ≤ ch) && decide (ch ≤ '9')) = true then
                (if -digitsValue cs < -(2 ^ 63) ∨ 2 ^ 63 - 1 < -digitsValue cs
                  then .error () else .ok (-digitsValue cs))
              else .error ()) := rfl
        rw [hunf] at h
        split at h
        · exact absurd h (by simp)
        · next hne =>
          split at h
          · next hall =>
            split at h
            · exact absurd h (by simp)
            · next hr =>
              have hn : -digitsValue cs = n := by simpa using h
              refine ⟨⟨cs, hne, (all_decimal_iff cs).mp hall, Or.inr (Or.inr ⟨rfl, hn.symm⟩)⟩, ?_, ?_⟩
                <;> omega
          · exact absurd h (by simp)
      · by_cases hp : c = '+'
        · subst hp
          have hunf : Atoi ('+' :: cs) =
              (if cs = [] then .error ()
                else if cs.all (fun ch => decide ('0' ≤ ch) && decide (ch ≤ '9')) = true then
                  (if digitsValue cs < -(2 ^ 63) ∨ 2 ^ 63 - 1 < digitsValue cs
                    then .error () else .ok (digitsValue cs))
                else .error ()) := rfl
          rw [hunf] at h
          split at h
          · exact absurd h (by simp)
          · next hne =>
            split at h
            · next hall =>
              split at h
              · exact absurd h (by simp)
              · next hr =>
                have hn : digitsValue cs = n := by simpa using h
                refine ⟨⟨cs, hne, (all_decimal_iff cs).mp hall, Or.inr (Or.inl ⟨rfl, hn.symm⟩)⟩,
                  ?_, ?_⟩ <;> omega
            · exact absurd h (by simp)
        · rw [Atoi_unsigned c cs hm hp] at h
          split at h
          · next hall =>
            split at h
            · exact absurd h (by simp)
            · next hr =>
              have hn : digitsValue (c :: cs) = n := by simpa using h
              refine ⟨⟨c :: cs, by simp, (all_decimal_iff _).mp hall, Or.inl ⟨rfl, hn.symm⟩⟩,
                ?_, ?_⟩ <;> omega
          · exact absurd h (by simp)
  · rintro ⟨⟨digits, hne, hdec, h | h | h⟩, hlo, hhi⟩
    · obtain ⟨hs, hn⟩ := h
      subst hs
      rw [Atoi_digits _ hne hdec, if_neg (by omega), hn]
    · obtain ⟨hs, hn⟩ := h
      subst hs
      rw [Atoi_plus_digits _ hne hdec, if_neg (by omega), hn]
    · obtain ⟨hs, hn⟩ := h
      subst hs
      rw [Atoi_minus_digits _ hne hdec, if_neg (by omega), hn]

/-- The canonical decimal text of an integer is a decimal text of it. -/
theorem decimalText_Itoa (n : Int) : decimalText (Itoa n) n := by
  obtain ⟨hne, hdec, hval⟩ := toDigits_spec n.natAbs
  unfold Itoa
  by_cases hneg : n < 0
  · rw [if_pos hneg]
    exact ⟨_, hne, hdec, Or.inr (Or.inr ⟨rfl, by rw [hval]; omega⟩)⟩
  · rw [if_neg hneg]
    exact ⟨_, hne, hdec, Or.inl ⟨rfl, by rw [hval]; omega⟩⟩

/-- A text with a character that is neither a digit nor a sign is no decimal text. -/
theorem nonNumeric_not_decimalText (s : Str) (h : nonNumeric s) (n : Int) : ¬ decimalText s n := by
  obtain ⟨c, hc, hnd, hm, hp⟩ := h
  rintro ⟨digits, _, hdec, h | h | h⟩
  · rw [h.1] at hc
    rw [hdec c hc] at hnd
    exact absurd hnd (by simp)
  · rw [h.1] at hc
    rcases List.mem_cons.mp hc with h1 | h1
    · exact hp h1
    · rw [hdec c h1] at hnd
      exact absurd hnd (by simp)
  · rw [h.1] at hc
    rcases List.mem_cons.mp hc with h1 | h1
    · exact hm h1
    · rw [hdec c h1] at hnd
      exact absurd hnd (by simp)

/-- A decimal text denotes one integer only. -/
theorem decimalText_unique (s : Str) (n m : Int) (hn : decimalText s n) (hm : decimalText s m) :
    n = m := by
  obtain ⟨d1, hne1, hdec1, h1⟩ := hn
  obtain ⟨d2, hne2, hdec2, h2⟩ := hm
  have hplus : ∀ d : Str, (∀ c ∈ d, isDecimal c = true) → '+' ∉ d := by
    intro d hd hmem
    exact absurd (hd _ hmem) (by decide)
  have hminus : ∀ d : Str, (∀ c ∈ d, isDecimal c = true) → '-' ∉ d := by
    intro d hd hmem
    exact absurd (hd _ hmem) (by decide)
  rcases h1 with ⟨a1, b1⟩ | ⟨a1, b1⟩ | ⟨a1, b1⟩ <;>
    rcases h2 with ⟨a2, b2⟩ | ⟨a2, b2⟩ | ⟨a2, b2⟩ <;> subst a1
  · subst a2; rw [b1, b2]
  · exact absurd (a2 ▸ List.mem_cons_self _ _) (hplus _ hdec1)
  · exact absurd (a2 ▸ List.mem_cons_self _ _) (hminus _ hdec1)
  · exact absurd (show '+' ∈ d2 from a2 ▸ List.mem_cons_self _ _) (hplus _ hdec2)
  · have := (List.cons.inj a2).2; subst this; rw [b1, b2]
  · exact absurd (List.cons.inj a2).1 (by decide)
  · exact absurd (show '-' ∈ d2 from a2 ▸ List.mem_cons_self _ _) (hminus _ hdec2)
  · exact absurd (List.cons.inj a2).1 (by decide)
  · have := (List.cons.inj a2).2; subst this; rw [b1, b2]

/-- The page size that `parseSongPaginationInfo` reads from the `limit` parameter:
every failure carries the same message. -/
theorem parseSongPaginationInfo_cases (r : Request) :
    (∃ hint, parseSongPaginationInfo r = .ok hint) ∨
      parseSongPaginationInfo r = .error "invalid limit parameter" := by
  unfold parseSongPaginationInfo
  simp only []
  by_cases hl : r.Query "limit" = []
  · left; simp [hl]
  · cases hA : Atoi (r.Query "limit") with
    | error e => right; simp [hl, hA]
    | ok v =>
      by_cases hv : v ≤ 0
      · right; simp [hl, hA, hv]
      · left; simp [hl, hA, hv]

/-- The successful results of `parseSongPaginationInfo`. -/
theorem parseSongPaginationInfo_ok_iff (r : Request) (hint : PaginationInfo) :
    parseSongPaginationInfo r = .ok hint ↔
      hint.PrevGroup = r.Query "prevGroup" ∧ hint.PrevSong = r.Query "prevSong" ∧
        ((r.Query "limit" = [] ∧ hint.Limit = 10) ∨
          (decimalText (r.Query "limit") hint.Limit ∧ 0 < hint.Limit ∧
            hint.Limit ≤ 2 ^ 63 - 1)) := by
  obtain ⟨g, t, l⟩ := hint
  have hempty : ∀ n, ¬ decimalText [] n := by
    rintro n ⟨d, hne, _, h | h | h⟩
    · exact hne h.1.symm
    · exact absurd h.1 (by simp)
    · exact absurd h.1 (by simp)
  unfold parseSongPaginationInfo
  simp only []
  by_cases hl : r.Query "limit" = []
  · simp only [hl, ne_eq, not_true_eq_false, if_false, Except.ok.injEq, PaginationInfo.mk.injEq,
      true_and]
    constructor
    · rintro ⟨h1, h2, h3⟩
      exact ⟨h1.symm, h2.symm, Or.inl h3.symm⟩
    · rintro ⟨h1, h2, h3 | h3⟩
      · exact ⟨h1.symm, h2.symm, h3.symm⟩
      · exact absurd h3.1 (hempty _)
  · cases hA : Atoi (r.Query "limit") with
    | error e =>
      simp only [hl, ne_eq, not_false_eq_true, if_true, false_and, false_or]
      constructor
      · intro h; exact absurd h (by simp)
      · rintro ⟨_, _, h3, h4, h5⟩
        have := (Atoi_ok_iff _ _).mpr ⟨h3, by omega, h5⟩
        rw [hA] at this
        exact absurd this (by simp)
    | ok v =>
      simp only [hl, ne_eq, not_false_eq_true, if_true, false_and, false_or]
      have hv := (Atoi_ok_iff _ _).mp hA
      by_cases hpos : v ≤ 0
      · simp only [hpos, if_true]
        constructor
        · intro h; exact absurd h (by simp)
        · rintro ⟨_, _, h3, h4, h5⟩
          have := decimalText_unique _ _ _ h3 hv.1
          omega
      · simp only [hpos, if_false, Except.ok.injEq, PaginationInfo.mk.injEq]
        constructor
        · rintro ⟨h1, h2, h3⟩
          subst h3
          exact ⟨h1.symm, h2.symm, hv.1, by omega, hv.2.2⟩
        · rintro ⟨h1, h2, h3, h4, h5⟩
          exact ⟨h1.symm, h2.symm, decimalText_unique _ _ _ hv.1 h3⟩

/-- C16: `parseSongPaginationInfo` succeeds exactly with the raw `prevGroup` and
`prevSong` parameters and a page size that is 10 when `limit` is unspecified
and `n` when `limit` is a decimal text of a positive integer `n` that fits
`int` (in particular its canonical text); it fails with the one error message
when `limit` is non-numeric or denotes zero, a negative integer or an integer
out of range.  Every accepted page size is positive, a refused request is
answered 400 by both listing handlers, and what storage answers for a page size
that is not positive has no influence on either handler: no such call is made. -/
theorem pagination_params (r : Request) :
    (∀ hint : PaginationInfo, parseSongPaginationInfo r = .ok hint ↔
      hint.PrevGroup = r.Query "prevGroup" ∧ hint.PrevSong = r.Query "prevSong" ∧
        ((r.Query "limit" = [] ∧ hint.Limit = 10) ∨
          (decimalText (r.Query "limit") hint.Limit ∧ 0 < hint.Limit ∧
            hint.Limit ≤ 2 ^ 63 - 1))) ∧
    (∀ n : Int, 0 < n → n ≤ 2 ^ 63 - 1 → r.Query "limit" = Itoa n →
      parseSongPaginationInfo r = .ok ⟨r.Query "prevGroup", r.Query "prevSong", n⟩) ∧
    ((nonNumeric (r.Query "limit") ∨
        ∃ n : Int, decimalText (r.Query "limit") n ∧ (n ≤ 0 ∨ 2 ^ 63 - 1 < n)) →
      parseSongPaginationInfo r = .error "invalid limit parameter") ∧
    (∀ hint : PaginationInfo, parseSongPaginationInfo r = .ok hint → 0 < hint.Limit) ∧
    ((∀ hint : PaginationInfo, parseSongPaginationInfo r ≠ .ok hint) →
      ∀ (σ : Type) (pool : Pool σ) (st : σ),
        (getSongsInfoHandler pool st r).StatusCode = 400 ∧
        (getGroupSongsInfoHandler pool st r).StatusCode = 400) ∧
    (∀ (σ τ : Type) (p : Pool σ) (q : Pool τ) (s : σ) (t : τ),
      (∀ (a b : Str) (limit : Int), 0 < limit →
        p.get_songs_info s a b limit = q.get_songs_info t a b limit) →
      getSongsInfoHandler p s r = getSongsInfoHandler q t r) ∧
    (∀ (σ τ : Type) (p : Pool σ) (q : Pool τ) (s : σ) (t : τ),
      (∀ (a b : Str) (limit : Int), 0 < limit →
        p.get_group_songs_info s a b limit = q.get_group_songs_info t a b limit) →
      getGroupSongsInfoHandler p s r = getGroupSongsInfoHandler q t r) := by
  have hpos : ∀ hint : PaginationInfo, parseSongPaginationInfo r = .ok hint → 0 < hint.Limit := by
    intro hint h
    rcases ((parseSongPaginationInfo_ok_iff r hint).mp h).2.2 with h1 | h1
    · rw [h1.2]; decide
    · exact h1.2.1
  refine ⟨parseSongPaginationInfo_ok_iff r, ?_, ?_, hpos, ?_, ?_, ?_⟩
  · intro n h0 h1 hl
    refine (parseSongPaginationInfo_ok_iff r _).mpr ⟨rfl, rfl, Or.inr ⟨?_, h0, h1⟩⟩
    rw [hl]
    exact decimalText_Itoa n
  · intro h
    rcases parseSongPaginationInfo_cases r with ⟨hint, hok⟩ | herr
    · exfalso
      rcases ((parseSongPaginationInfo_ok_iff r hint).mp hok).2.2 with h1 | h1
      · rcases h with h | ⟨n, hn, _⟩
        · obtain ⟨c, hc, _⟩ := h
          rw [h1.1] at hc
          exact absurd hc (by simp)
        · obtain ⟨d, hne, _, h2 | h2 | h2⟩ := hn
          · rw [h1.1] at h2; exact hne h2.1.symm
          · rw [h1.1] at h2; exact absurd h2.1 (by simp)
          · rw [h1.1] at h2; exact absurd h2.1 (by simp)
      · rcases h with h | ⟨n, hn, hr⟩
        · exact nonNumeric_not_decimalText _ h _ h1.1
        · have := decimalText_unique _ _ _ hn h1.1
          omega
    · exact herr
  · intro hno σ pool st
    rcases parseSongPaginationInfo_cases r with ⟨hint, hok⟩ | herr
    · exact absurd hok (hno hint)
    · simp [getSongsInfoHandler, getGroupSongsInfoHandler, herr]
  · intro σ τ p q s t hagree
    rcases parseSongPaginationInfo_cases r with ⟨hint, hok⟩ | herr
    · simp only [getSongsInfoHandler, hok, GetSongsInfo]
      rw [hagree _ _ _ (hpos hint hok)]
    · simp [getSongsInfoHandler, herr]
  · intro σ τ p q s t hagree
    rcases parseSongPaginationInfo_cases r with ⟨hint, hok⟩ | herr
    · simp only [getGroupSongsInfoHandler, hok, GetGroupSongsInfo]
      rw [hagree _ _ _ (hpos hint hok)]
    · simp [getGroupSongsInfoHandler, herr]

theorem pagination_params_witness :
    parseSongPaginationInfo (songsQuery "b" "x" "") = .ok ⟨"x".toList, "b".toList, 10⟩ ∧
    parseSongPaginationInfo (songsQuery "b" "x" "25") = .ok ⟨"x".toList, "b".toList, 25⟩ ∧
    parseSongPaginationInfo (songsQuery "" "" "0") = .error "invalid limit parameter" ∧
    parseSongPaginationInfo (songsQuery "" "" "-3") = .error "invalid limit parameter" ∧
    parseSongPaginationInfo (songsQuery "" "" "ten") = .error "invalid limit parameter" ∧
    parseSongPaginationInfo (songsQuery "" "" "9223372036854775808") =
      .error "invalid limit parameter" :=
  ⟨((pagination_params (songsQuery "b" "x" "")).1 _).mpr ⟨rfl, rfl, Or.inl ⟨rfl, rfl⟩⟩,
    (pagination_params (songsQuery "b" "x" "25")).2.1 25 (by decide) (by decide) (by decide),
    (pagination_params (songsQuery "" "" "0")).2.2.1
      (Or.inr ⟨0, ⟨"0".toList, by decide, by decide, Or.inl ⟨rfl, by decide⟩⟩, Or.inl (by decide)⟩),
    (pagination_params (songsQuery "" "" "-3")).2.2.1
      (Or.inr ⟨-3, ⟨"3".toList, by decide, by decide, Or.inr (Or.inr ⟨rfl, by decide⟩)⟩,
        Or.inl (by decide)⟩),
    (pagination_params (songsQuery "" "" "ten")).2.2.1
      (Or.inl ⟨'t', by decide, by decide, by decide, by decide⟩),
    (pagination_params (songsQuery "" "" "9223372036854775808")).2.2.1
      (Or.inr ⟨9223372036854775808, ⟨"9223372036854775808".toList, by decide, by decide,
        Or.inl ⟨rfl, by decide⟩⟩, Or.inr (by decide)⟩)⟩

/-! ### The parameters of the lyrics window -/

/-- The parameter values that `boundedParam` accepts. -/
theorem boundedParam_eq_some_iff (s : Str) (dflt lo v : Int) :
    boundedParam s dflt lo = some v ↔
      (s = [] ∧ v = dflt) ∨ (decimalText s v ∧ lo ≤ v ∧ -(2 ^ 63) ≤ v ∧ v ≤ 2 ^ 63 - 1) := by
  have hempty : ∀ n, ¬ decimalText [] n := by
    rintro n ⟨d, hne, _, h | h | h⟩
    · exact hne h.1.symm
    · exact absurd h.1 (by simp)
    · exact absurd h.1 (by simp)
  unfold boundedParam
  by_cases hs : s = []
  · subst hs
    rw [if_pos rfl]
    constructor
    · intro h; exact Or.inl ⟨rfl, (Option.some.inj h).symm⟩
    · rintro (h | h)
      · rw [h.2]
      · exact absurd h.1 (hempty _)
  · simp only [hs, if_false, false_and, false_or]
    cases hA : Atoi s with
    | error e =>
      simp only []
      constructor
      · intro h; exact absurd h (by simp)
      · rintro ⟨h1, _, h3, h4⟩
        have := (Atoi_ok_iff _ _).mpr ⟨h1, h3, h4⟩
        rw [hA] at this
        exact absurd this (by simp)
    | ok w =>
      simp only []
      have hw := (Atoi_ok_iff _ _).mp hA
      by_cases hlo : w < lo
      · simp only [hlo, if_true]
        constructor
        · intro h; exact absurd h (by simp)
        · rintro ⟨h1, h2, _⟩
          have := decimalText_unique _ _ _ h1 hw.1
          omega
      · simp only [hlo, if_false, Option.some.injEq]
        constructor
        · intro h
          subst h
          exact ⟨hw.1, by omega, hw.2.1, hw.2.2⟩
        · rintro ⟨h1, _⟩
          exact decimalText_unique _ _ _ hw.1 h1

/-- Go `parseSongLyricsParams` by its three parameters. -/
theorem parseSongLyricsParams_eq (r : Request) :
    parseSongLyricsParams r =
      match parseID r with
      | .error e => .error e
      | .ok id =>
        match boundedParam (r.Query "offset") 0 0 with
        | none => .error "offset must be a non-negative integer"
        | some offset =>
          match boundedParam (r.Query "limit") 20 1 with
          | none => .error "limit must be a positive integer"
          | some limit => .ok ⟨id, offset, limit⟩ := by
  unfold parseSongLyricsParams boundedParam
  cases parseID r with
  | error e => rfl
  | ok id =>
    simp only []
    by_cases hO : r.Query "offset" = []
    · by_cases hL : r.Query "limit" = []
      · simp [hO, hL]
      · cases hB : Atoi (r.Query "limit") with
        | error e => simp [hO, hL, hB]
        | ok l =>
          by_cases hl : l ≤ 0
          · have : l < 1 := by omega
            simp [hO, hL, hB, hl, this]
          · have : ¬ l < 1 := by omega
            simp [hO, hL, hB, hl, this]
    · cases hA : Atoi (r.Query "offset") with
      | error e => simp [hO, hA]
      | ok o =>
        by_cases ho : o < 0
        · simp [hO, hA, ho]
        · by_cases hL : r.Query "limit" = []
          · simp [hO, hA, ho, hL]
          · cases hB : Atoi (r.Query "limit") with
            | error e => simp [hO, hA, ho, hL, hB]
            | ok l =>
              by_cases hl : l ≤ 0
              · have : l < 1 := by omega
                simp [hO, hA, ho, hL, hB, hl, this]
              · have : ¬ l < 1 := by omega
                simp [hO, hA, ho, hL, hB, hl, this]

/-- The ids that `parseID` accepts. -/
theorem parseID_ok_iff (r : Request) (id : Int) :
    parseID r = .ok id ↔ decimalText (r.URLParam "id") id ∧ 0 < id ∧ id ≤ 2 ^ 63 - 1 := by
  unfold parseID
  simp only []
  by_cases hs : r.URLParam "id" = []
  · simp only [hs, if_true]
    constructor
    · intro h; exact absurd h (by simp)
    · rintro ⟨⟨d, hne, _, h | h | h⟩, _⟩
      · exact absurd h.1.symm hne
      · exact absurd h.1 (by simp)
      · exact absurd h.1 (by simp)
  · simp only [hs, if_false]
    cases hA : Atoi (r.URLParam "id") with
    | error e =>
      simp only []
      constructor
      · intro h; exact absurd h (by simp)
      · rintro ⟨h1, h2, h3⟩
        have := (Atoi_ok_iff _ _).mpr ⟨h1, by omega, h3⟩
        rw [hA] at this
        exact absurd this (by simp)
    | ok w =>
      simp only []
      have hw := (Atoi_ok_iff _ _).mp hA
      by_cases hlo : w ≤ 0
      · simp only [hlo, if_true]
        constructor
        · intro h; exact absurd h (by simp)
        · rintro ⟨h1, h2, _⟩
          have := decimalText_unique _ _ _ h1 hw.1
          omega
      · simp only [hlo, if_false, Except.ok.injEq]
        constructor
        · intro h
          subst h
          exact ⟨hw.1, by omega, hw.2.2⟩
        · rintro ⟨h1, _⟩
          exact decimalText_unique _ _ _ hw.1 h1

/-- The successful results of `parseSongLyricsParams`. -/
theorem parseSongLyricsParams_ok_iff (r : Request) (p : SongLyricsParams) :
    parseSongLyricsParams r = .ok p ↔
      (decimalText (r.URLParam "id") p.ID ∧ 0 < p.ID ∧ p.ID ≤ 2 ^ 63 - 1) ∧
      ((r.Query "offset" = [] ∧ p.Offset = 0) ∨
        (decimalText (r.Query "offset") p.Offset ∧ 0 ≤ p.Offset ∧ p.Offset ≤ 2 ^ 63 - 1)) ∧
      ((r.Query "limit" = [] ∧ p.Limit = 20) ∨
        (decimalText (r.Query "limit") p.Limit ∧ 0 < p.Limit ∧ p.Limit ≤ 2 ^ 63 - 1)) := by
  obtain ⟨id, offset, limit⟩ := p
  have hraw : parseSongLyricsParams r = .ok ⟨id, offset, limit⟩ ↔
      parseID r = .ok id ∧ boundedParam (r.Query "offset") 0 0 = some offset ∧
        boundedParam (r.Query "limit") 20 1 = some limit := by
    rw [parseSongLyricsParams_eq]
    cases parseID r with
    | error e => simp
    | ok i =>
      cases boundedParam (r.Query "offset") 0 0 with
      | none => simp
      | some o =>
        cases boundedParam (r.Query "limit") 20 1 with
        | none => simp
        | some l => simp
  rw [hraw, parseID_ok_iff, boundedParam_eq_some_iff, boundedParam_eq_some_iff]
  show _ ↔ (decimalText (r.URLParam "id") id ∧ 0 < id ∧ id ≤ 2 ^ 63 - 1) ∧
    ((r.Query "offset" = [] ∧ offset = 0) ∨
      (decimalText (r.Query "offset") offset ∧ 0 ≤ offset ∧ offset ≤ 2 ^ 63 - 1)) ∧
    ((r.Query "limit" = [] ∧ limit = 20) ∨
      (decimalText (r.Query "limit") limit ∧ 0 < limit ∧ limit ≤ 2 ^ 63 - 1))
  constructor
  · rintro ⟨h1, h2, h3⟩
    refine ⟨h1, ?_, ?_⟩
    · rcases h2 with h | h
      · exact Or.inl h
      · exact Or.inr ⟨h.1, h.2.1, h.2.2.2⟩
    · rcases h3 with h | h
      · exact Or.inl h
      · exact Or.inr ⟨h.1, by omega, h.2.2.2⟩
  · rintro ⟨h1, h2, h3⟩
    refine ⟨h1, ?_, ?_⟩
    · rcases h2 with h | h
      · exact Or.inl h
      · exact Or.inr ⟨h.1, h.2.1, by omega, h.2.2⟩
    · rcases h3 with h | h
      · exact Or.inl h
      · exact Or.inr ⟨h.1, by omega, by omega, h.2.2⟩

/-- A refused lyrics request is answered 400 whatever the storage. -/
theorem getSongLyricsHandler_refused (r : Request)
    (h : ∀ p : SongLyricsParams, parseSongLyricsParams r ≠ .ok p) :
    (∃ e, parseSongLyricsParams r = .error e) ∧
      ∀ (σ : Type) (pool : Pool σ) (st : σ), getSongLyricsHandler pool st r = ⟨400, none⟩ := by
  cases hp : parseSongLyricsParams r with
  | ok p => exact absurd hp (h p)
  | error e =>
    refine ⟨⟨e, rfl⟩, ?_⟩
    intro σ pool st
    simp [getSongLyricsHandler, hp]

/-- C17: `parseSongLyricsParams` succeeds exactly when the id is a decimal text
of a positive integer, the offset is unspecified (then 0) or a decimal text of
a non-negative integer, and the limit is unspecified (then 20) or a decimal
text of a positive integer, each fitting `int`; so every result has `id > 0`,
`offset >= 0` and `limit > 0`.  It fails for a missing, non-numeric or
non-positive id, a non-numeric or negative offset and a non-numeric or
non-positive limit, and `getSongLyricsHandler` then answers 400 whatever the
storage.  What storage answers to a verse query outside `id > 0`,
`offset >= 0`, `limit > 0` has no influence on the handler: no such call is made. -/
theorem lyrics_params (r : Request) :
    (∀ p : SongLyricsParams, parseSongLyricsParams r = .ok p ↔
      (decimalText (r.URLParam "id") p.ID ∧ 0 < p.ID ∧ p.ID ≤ 2 ^ 63 - 1) ∧
      ((r.Query "offset" = [] ∧ p.Offset = 0) ∨
        (decimalText (r.Query "offset") p.Offset ∧ 0 ≤ p.Offset ∧ p.Offset ≤ 2 ^ 63 - 1)) ∧
      ((r.Query "limit" = [] ∧ p.Limit = 20) ∨
        (decimalText (r.Query "limit") p.Limit ∧ 0 < p.Limit ∧ p.Limit ≤ 2 ^ 63 - 1))) ∧
    (∀ p : SongLyricsParams, parseSongLyricsParams r = .ok p →
      0 < p.ID ∧ 0 ≤ p.Offset ∧ 0 < p.Limit) ∧
    ((r.URLParam "id" = [] ∨ nonNumeric (r.URLParam "id") ∨
        (∃ n : Int, decimalText (r.URLParam "id") n ∧ n ≤ 0) ∨
        nonNumeric (r.Query "offset") ∨
        (∃ n : Int, decimalText (r.Query "offset") n ∧ n < 0) ∨
        nonNumeric (r.Query "limit") ∨
        (∃ n : Int, decimalText (r.Query "limit") n ∧ n ≤ 0)) →
      (∃ e, parseSongLyricsParams r = .error e) ∧
        ∀ (σ : Type) (pool : Pool σ) (st : σ), getSongLyricsHandler pool st r = ⟨400, none⟩) ∧
    (∀ (σ τ : Type) (p : Pool σ) (q : Pool τ) (s : σ) (t : τ),
      (∀ id offset limit : Int, 0 < id → 0 ≤ offset → 0 < limit →
        p.get_song_verses s id offset limit = q.get_song_verses t id offset limit) →
      getSongLyricsHandler p s r = getSongLyricsHandler q t r) := by
  have hempty : ∀ n, ¬ decimalText [] n := by
    rintro n ⟨d, hne, _, h | h | h⟩
    · exact hne h.1.symm
    · exact absurd h.1 (by simp)
    · exact absurd h.1 (by simp)
  have hmem : ∀ s : Str, nonNumeric s → s ≠ [] := by
    rintro s ⟨c, hc, _⟩ hs
    rw [hs] at hc
    exact absurd hc (by simp)
  have hpos : ∀ p : SongLyricsParams, parseSongLyricsParams r = .ok p →
      0 < p.ID ∧ 0 ≤ p.Offset ∧ 0 < p.Limit := by
    intro p h
    obtain ⟨h1, h2, h3⟩ := (parseSongLyricsParams_ok_iff r p).mp h
    refine ⟨h1.2.1, ?_, ?_⟩
    · rcases h2 with h | h
      · rw [h.2]
      · exact h.2.1
    · rcases h3 with h | h
      · rw [h.2]; decide
      · exact h.2.1
  refine ⟨parseSongLyricsParams_ok_iff r, hpos, ?_, ?_⟩
  · intro hbad
    apply getSongLyricsHandler_refused
    intro p hok
    obtain ⟨h1, h2, h3⟩ := (parseSongLyricsParams_ok_iff r p).mp hok
    rcases hbad with h | h | ⟨n, hn, hle⟩ | h | ⟨n, hn, hle⟩ | h | ⟨n, hn, hle⟩
    · rw [h] at h1; exact hempty _ h1.1
    · exact nonNumeric_not_decimalText _ h _ h1.1
    · have := decimalText_unique _ _ _ hn h1.1
      omega
    · rcases h2 with h2 | h2
      · exact hmem _ h h2.1
      · exact nonNumeric_not_decimalText _ h _ h2.1
    · rcases h2 with h2 | h2
      · rw [h2.1] at hn; exact hempty _ hn
      · have := decimalText_unique _ _ _ hn h2.1
        omega
    · rcases h3 with h3 | h3
      · exact hmem _ h h3.1
      · exact nonNumeric_not_decimalText _ h _ h3.1
    · rcases h3 with h3 | h3
      · rw [h3.1] at hn; exact hempty _ hn
      · have := decimalText_unique _ _ _ hn h3.1
        omega
  · intro σ τ p q s t hagree
    cases hp : parseSongLyricsParams r with
    | error e => simp [getSongLyricsHandler, hp]
    | ok params =>
      obtain ⟨h1, h2, h3⟩ := hpos params hp
      simp only [getSongLyricsHandler, hp, GetSongLyrics]
      rw [hagree _ _ _ h1 h2 h3]

theorem lyrics_params_witness :
    parseSongLyricsParams (lyricsQuery "7" "" "") = .ok ⟨7, 0, 20⟩ ∧
    parseSongLyricsParams (lyricsQuery "7" "2" "3") = .ok ⟨7, 2, 3⟩ ∧
    getSongLyricsHandler pgPool sampleDB (lyricsQuery "" "" "") = ⟨400, none⟩ ∧
    getSongLyricsHandler pgPool sampleDB (lyricsQuery "0" "" "") = ⟨400, none⟩ ∧
    getSongLyricsHandler pgPool sampleDB (lyricsQuery "1" "-1" "") = ⟨400, none⟩ ∧
    getSongLyricsHandler pgPool sampleDB (lyricsQuery "1" "" "0") = ⟨400, none⟩ ∧
    getSongLyricsHandler pgPool sampleDB (lyricsQuery "1" "x" "") = ⟨400, none⟩ :=
  ⟨((lyrics_params (lyricsQuery "7" "" "")).1 ⟨7, 0, 20⟩).mpr
      ⟨⟨⟨"7".toList, by decide, by decide, Or.inl ⟨rfl, by decide⟩⟩, by decide, by decide⟩,
        Or.inl ⟨rfl, rfl⟩, Or.inl ⟨rfl, rfl⟩⟩,
    ((lyrics_params (lyricsQuery "7" "2" "3")).1 ⟨7, 2, 3⟩).mpr
      ⟨⟨⟨"7".toList, by decide, by decide, Or.inl ⟨rfl, by decide⟩⟩, by decide, by decide⟩,
        Or.inr ⟨⟨"2".toList, by decide, by decide, Or.inl ⟨rfl, by decide⟩⟩,
          by decide, by decide⟩,
        Or.inr ⟨⟨"3".toList, by decide, by decide, Or.inl ⟨rfl, by decide⟩⟩,
          by decide, by decide⟩⟩,
    ((lyrics_params (lyricsQuery "" "" "")).2.2.1 (Or.inl rfl)).2 DB pgPool sampleDB,
    ((lyrics_params (lyricsQuery "0" "" "")).2.2.1 (Or.inr (Or.inr (Or.inl
      ⟨0, ⟨"0".toList, by decide, by decide, Or.inl ⟨rfl, by decide⟩⟩, by decide⟩)))).2
        DB pgPool sampleDB,
    ((lyrics_params (lyricsQuery "1" "-1" "")).2.2.1 (Or.inr (Or.inr (Or.inr (Or.inr (Or.inl
      ⟨-1, ⟨"1".toList, by decide, by decide, Or.inr (Or.inr ⟨rfl, by decide⟩)⟩,
        by decide⟩)))))).2 DB pgPool sampleDB,
    ((lyrics_params (lyricsQuery "1" "" "0")).2.2.1 (Or.inr (Or.inr (Or.inr (Or.inr (Or.inr
      (Or.inr ⟨0, ⟨"0".toList, by decide, by decide, Or.inl ⟨rfl, by decide⟩⟩,
        by decide⟩))))))).2 DB pgPool sampleDB,
    ((lyrics_params (lyricsQuery "1" "x" "")).2.2.1 (Or.inr (Or.inr (Or.inr (Or.inl
      ⟨'x', by decide, by decide, by decide, by decide⟩))))).2 DB pgPool sampleDB⟩

/-! ### The verse list of a blob -/

theorem Index_cons_found (c : Char) (cs sep : Str) (hp : HasPrefix (c :: cs) sep = true) :
    Index (c :: cs) sep = 0 := by
  unfold Index; simp [hp]

theorem Index_cons_shift (c : Char) (cs sep : Str)
    (hp : ¬ HasPrefix (c :: cs) sep = true) :
    Index (c :: cs) sep = (if Index cs sep < 0 then -1 else Index cs sep + 1) := by
  conv_lhs => unfold Index
  simp [hp]

/-- When `Index` reports no instance, the separator does not occur in the string. -/
theorem Index_neg_absent (s sep : Str) (hsep : sep ≠ []) (h : Index s sep < 0) :
    ¬ sep <:+: s := by
  induction s with
  | nil =>
    intro hin
    exact hsep (List.infix_nil.mp hin)
  | cons c cs ih =>
    by_cases hp : HasPrefix (c :: cs) sep = true
    · rw [Index_cons_found c cs sep hp] at h
      omega
    · rw [Index_cons_shift c cs sep hp] at h
      have hcs : Index cs sep < 0 := by
        by_contra hn
        rw [if_neg hn] at h
        omega
      intro hin
      rcases List.infix_cons_iff.mp hin with h1 | h1
      · exact hp (List.isPrefixOf_iff_prefix.mpr h1)
      · exact ih hcs h1

/-- The part of the string before the instance that `Index` finds does not
contain the separator. -/
theorem Index_take_absent (s sep : Str) (hsep : sep ≠ []) (h : 0 ≤ Index s sep) :
    ¬ sep <:+: s.take (Index s sep).toNat := by
  induction s with
  | nil =>
    intro hin
    rw [List.take_nil] at hin
    exact hsep (List.infix_nil.mp hin)
  | cons c cs ih =>
    by_cases hp : HasPrefix (c :: cs) sep = true
    · rw [Index_cons_found c cs sep hp]
      intro hin
      simp only [Int.toNat_zero, List.take_zero] at hin
      exact hsep (List.infix_nil.mp hin)
    · have hi := Index_cons_shift c cs sep hp
      by_cases hneg : Index cs sep < 0
      · rw [hi, if_pos hneg] at h
        omega
      · rw [if_neg hneg] at hi
        have htn : (Index cs sep + 1).toNat = (Index cs sep).toNat + 1 := by omega
        rw [hi, htn, List.take_succ_cons]
        intro hin
        rcases List.infix_cons_iff.mp hin with h1 | h1
        · apply hp
          apply List.isPrefixOf_iff_prefix.mpr
          exact h1.trans ((List.prefix_cons_inj c).mpr (List.take_prefix _ cs))
        · exact ih (by omega) h1

/-- A string in which the separator does not occur has no instance for `Index`. -/
theorem Index_neg_of_absent (s sep : Str) (h : ¬ sep <:+: s) : Index s sep < 0 := by
  by_contra hn
  have hs := Index_split s sep (by omega)
  apply h
  exact ⟨s.take (Index s sep).toNat, s.drop ((Index s sep).toNat + sep.length), hs.symm⟩

/-- Every instance that `strings.Count` counts takes at least one character. -/
theorem countLoop_le (sep : Str) (hsep : sep ≠ []) (fuel : Nat) (s : Str) :
    countLoop sep fuel s ≤ s.length := by
  induction fuel generalizing s with
  | zero => simp [countLoop]
  | succ fuel ih =>
    unfold countLoop
    simp only []
    split
    · omega
    · next hm =>
      have hs := congrArg List.length (Index_split s sep (by omega))
      simp only [List.length_append] at hs
      have hl : 0 < sep.length := List.length_pos.mpr hsep
      have := ih (s.drop ((Index s sep).toNat + sep.length))
      omega

/-- With as many cuts as `strings.Count` counted, the splitting loop returns one
piece more than that, and no piece contains the separator. -/
theorem genSplitLoop_count (sep : Str) (hsep : sep ≠ []) (fuel : Nat) (s : Str)
    (h : s.length < fuel) :
    (genSplitLoop sep (countLoop sep fuel s) s).length = countLoop sep fuel s + 1 ∧
      ∀ v ∈ genSplitLoop sep (countLoop sep fuel s) s, ¬ sep <:+: v := by
  induction fuel generalizing s with
  | zero => omega
  | succ fuel ih =>
    by_cases hm : Index s sep < 0
    · have hc : countLoop sep (fuel + 1) s = 0 := by
        unfold countLoop; simp [hm]
      rw [hc]
      simp only [genSplitLoop, List.length_singleton, List.mem_singleton, forall_eq, true_and,
        Nat.zero_add]
      exact Index_neg_absent s sep hsep hm
    · have hc : countLoop sep (fuel + 1) s =
          countLoop sep fuel (s.drop ((Index s sep).toNat + sep.length)) + 1 := by
        conv_lhs => unfold countLoop
        simp only [hm, if_false]
        omega
      have hs := congrArg List.length (Index_split s sep (by omega))
      simp only [List.length_append] at hs
      have hl : 0 < sep.length := List.length_pos.mpr hsep
      obtain ⟨ih1, ih2⟩ := ih (s.drop ((Index s sep).toNat + sep.length)) (by omega)
      have hg : genSplitLoop sep
          (countLoop sep fuel (s.drop ((Index s sep).toNat + sep.length)) + 1) s =
          s.take (Index s sep).toNat :: genSplitLoop sep
            (countLoop sep fuel (s.drop ((Index s sep).toNat + sep.length)))
            (s.drop ((Index s sep).toNat + sep.length)) := by
        conv_lhs => unfold genSplitLoop
        simp only [hm, if_false]
      rw [hc, hg]
      refine ⟨by rw [List.length_cons, ih1], ?_⟩
      intro v hv
      rcases List.mem_cons.mp hv with h1 | h1
      · rw [h1]
        exact Index_take_absent s sep hsep (by omega)
      · exact ih2 v h1

theorem HasPrefix_verseSep (c d : Char) (rest : Str) :
    HasPrefix (c :: d :: rest) verseSep = true ↔ c = '\n' ∧ d = '\n' := by
  simp only [HasPrefix, verseSep, List.isPrefixOf, Bool.and_eq_true, beq_iff_eq, and_true]
  exact ⟨fun h => ⟨h.1.symm, h.2.symm⟩, fun h => ⟨h.1.symm, h.2.symm⟩⟩

theorem HasPrefix_verseSep_single (c : Char) : ¬ HasPrefix [c] verseSep = true := by
  simp [HasPrefix, verseSep, List.isPrefixOf]

/-- A blob in which `Index` finds no blank line has no occurrence. -/
theorem occurrences_of_neg (s : Str) (h : Index s verseSep < 0) : occurrences s = 0 := by
  induction s with
  | nil => simp [occurrences]
  | cons c cs ih =>
    cases cs with
    | nil => simp [occurrences]
    | cons d rest =>
      by_cases hp : HasPrefix (c :: d :: rest) verseSep = true
      · rw [Index_cons_found _ _ _ hp] at h
        omega
      · rw [Index_cons_shift _ _ _ hp] at h
        have hcs : Index (d :: rest) verseSep < 0 := by
          by_contra hn
          rw [if_neg hn] at h
          omega
        have hcond : ¬ (c = '\n' ∧ d = '\n') := fun hc => hp ((HasPrefix_verseSep c d rest).mpr hc)
        rw [occurrences, if_neg hcond]
        exact ih hcs

/-- The scan counts the blank line that `Index` finds and goes on behind it. -/
theorem occurrences_of_index (s : Str) (h : 0 ≤ Index s verseSep) :
    occurrences s = 1 + occurrences (s.drop ((Index s verseSep).toNat + 2)) := by
  induction s with
  | nil => exact absurd h (by decide)
  | cons c cs ih =>
    cases cs with
    | nil =>
      rw [Index_cons_shift _ _ _ (HasPrefix_verseSep_single c)] at h
      exact absurd h (by decide)
    | cons d rest =>
      by_cases hp : HasPrefix (c :: d :: rest) verseSep = true
      · rw [Index_cons_found _ _ _ hp]
        have hcond := (HasPrefix_verseSep c d rest).mp hp
        rw [occurrences, if_pos hcond]
        rfl
      · have hi := Index_cons_shift _ _ _ hp
        have hcond : ¬ (c = '\n' ∧ d = '\n') := fun hc => hp ((HasPrefix_verseSep c d rest).mpr hc)
        by_cases hneg : Index (d :: rest) verseSep < 0
        · rw [hi, if_pos hneg] at h
          omega
        · rw [if_neg hneg] at hi
          have htn : (Index (d :: rest) verseSep + 1).toNat + 2 =
              ((Index (d :: rest) verseSep).toNat + 2) + 1 := by omega
          rw [hi, htn, List.drop_succ_cons, occurrences, if_neg hcond]
          exact ih (by omega)

/-- Go `strings.Count(b, "\n\n")` is the number of occurrences the scan finds. -/
theorem Count_verseSep (b : Str) : Count b verseSep = occurrences b := by
  have key : ∀ (fuel : Nat) (s : Str), s.length < fuel →
      countLoop verseSep fuel s = occurrences s := by
    intro fuel
    induction fuel with
    | zero => intro s h; omega
    | succ fuel ih =>
      intro s h
      unfold countLoop
      simp only []
      split
      · next hm => exact (occurrences_of_neg s hm).symm
      · next hm =>
        have hs := congrArg List.length (Index_split s verseSep (by omega))
        simp only [List.length_append] at hs
        have hl : verseSep.length = 2 := rfl
        rw [occurrences_of_index s (by omega), hl,
          ih (s.drop ((Index s verseSep).toNat + 2)) (by rw [hl] at hs; omega)]
  unfold Count
  rw [if_neg (by decide)]
  exact key _ b (by omega)

/-- Go `strings.Split(b, "\n\n")`: one piece more than `strings.Count` counts,
none containing the separator. -/
theorem Split_verseSep (b : Str) :
    (Split b verseSep).length = Count b verseSep + 1 ∧
      ∀ v ∈ Split b verseSep, ¬ verseSep <:+: v := by
  have hsep : verseSep ≠ [] := by decide
  have hle := countLoop_le verseSep hsep (b.length + 1) b
  have hsplit : Split b verseSep =
      genSplitLoop verseSep (countLoop verseSep (b.length + 1) b) b := by
    unfold Split genSplit Count
    simp only [hsep, if_false]
    have hcap : ¬ (countLoop verseSep (b.length + 1) b + 1 > b.length + 1) := by omega
    simp only [hcap, if_false, Nat.add_sub_cancel]
  have hcount : Count b verseSep = countLoop verseSep (b.length + 1) b := by
    unfold Count
    rw [if_neg hsep]
  rw [hsplit, hcount]
  exact genSplitLoop_count verseSep hsep (b.length + 1) b (by omega)

/-- C20: for every song whose release date parses, the verse list that `AddSong`
passes to storage is `strings.Split` of the lyrics blob by `"\n\n"`; it is never
empty, has exactly one more element than the number of non-overlapping
occurrences of `"\n\n"` found scanning the blob from left to right (which is
what `strings.Count` counts), and no verse contains `"\n\n"`.  Joining the
verses by `"\n\n"` gives the blob back, so every other character, single
newlines included, stays where it was, and a blob without `"\n\n"` is one verse,
unchanged. -/
theorem split_verses (song : Song) (t : Time) (calls : List AddSongArgs)
    (hp : Parse song.ReleaseDate = .ok t) :
    (AddSong recordingPool calls song).2 =
      calls ++ [⟨song.Title, song.Group, t, song.Link, Split song.Lyrics verseSep⟩] ∧
    Split song.Lyrics verseSep ≠ [] ∧
    (Split song.Lyrics verseSep).length = occurrences song.Lyrics + 1 ∧
    Count song.Lyrics verseSep = occurrences song.Lyrics ∧
    (∀ v ∈ Split song.Lyrics verseSep, ¬ verseSep <:+: v) ∧
    Join (Split song.Lyrics verseSep) verseSep = song.Lyrics ∧
    (¬ verseSep <:+: song.Lyrics → Split song.Lyrics verseSep = [song.Lyrics]) := by
  obtain ⟨hlen, hno⟩ := Split_verseSep song.Lyrics
  have hcount := Count_verseSep song.Lyrics
  have hjoin := Join_Split song.Lyrics verseSep (by decide)
  refine ⟨?_, ?_, ?_, hcount, hno, hjoin, ?_⟩
  · simp [AddSong, hp, recordingPool]
  · intro h
    rw [h] at hlen
    simp at hlen
  · rw [hlen, hcount]
  · intro hnone
    have hocc := occurrences_of_neg _ (Index_neg_of_absent _ _ hnone)
    rw [hcount, hocc] at hlen
    obtain ⟨v, hv⟩ := List.length_eq_one.mp hlen
    rw [hv] at hjoin ⊢
    simp only [Join] at hjoin
    rw [hjoin]

theorem split_verses_witness :
    (AddSong recordingPool [] museSong).2 =
      [] ++ [⟨museSong.Title, museSong.Group, ⟨2006, 7, 16⟩, museSong.Link,
        Split museSong.Lyrics verseSep⟩] ∧
    (Split museSong.Lyrics verseSep).length = occurrences museSong.Lyrics + 1 ∧
    (∀ v ∈ Split museSong.Lyrics verseSep, ¬ verseSep <:+: v) ∧
    Join (Split museSong.Lyrics verseSep) verseSep = museSong.Lyrics :=
  ⟨(split_verses museSong ⟨2006, 7, 16⟩ [] (by rfl)).1,
    (split_verses museSong ⟨2006, 7, 16⟩ [] (by rfl)).2.2.1,
    (split_verses museSong ⟨2006, 7, 16⟩ [] (by rfl)).2.2.2.2.1,
    (split_verses museSong ⟨2006, 7, 16⟩ [] (by rfl)).2.2.2.2.2.1⟩

end SongLibrary
